import Mathlib

/-!
Verification of the embeddable expression language (lexer → parser → compiler →
stack VM) against its specification.  The definitions below are shallow
embeddings of the Go source: `vm/runtime/runtime.go`, `vm/vm.go`,
`parser/parser.go`, the `operator` table, the compiler and the `optimizer`
package.  Go machine integers are modelled as `Int`/`Nat` (with an explicit
`% 2^64` where unsigned wrap-around matters), Go panics as `Except`-style
errors, and Go slices as lists.  Go strings are viewed through their UTF-8
bytes where the runtime indexes by byte.
-/

namespace ExprLang

/-- Runtime values.  The spec (§9) describes runtime values as a closed tagged
union; this model covers the kinds the verified claims exercise (nil, bool,
int, string, array, string-keyed map) plus the two accumulator shapes the VM
stores in an iteration frame (`runtime.SortBy` and `groupBy`).  A nil Go map
or slice is represented by `.nil`.  Floats, times and durations are outside
the model. -/
inductive Value where
  | nil
  | bool (b : Bool)
  | int (n : Int)
  | str (s : String)
  | array (xs : List Value)
  | map (entries : List (String × Value))
  | sortAcc (desc : Bool) (arr : List Value) (vals : List Value)
  | groupAcc (entries : List (Value × List Value))

mutual

/-- Structural equality on values (Go's `==` / `reflect.DeepEqual` on the
modelled kinds). -/
def Value.beq : Value → Value → Bool
  | .nil, .nil => true
  | .bool a, .bool b => a == b
  | .int a, .int b => a == b
  | .str a, .str b => a == b
  | .array a, .array b => Value.beqList a b
  | .map a, .map b => Value.beqEntries a b
  | .sortAcc d1 a1 v1, .sortAcc d2 a2 v2 =>
    d1 == d2 && Value.beqList a1 a2 && Value.beqList v1 v2
  | .groupAcc a, .groupAcc b => Value.beqGroups a b
  | _, _ => false

/-- Pointwise `Value.beq` on lists. -/
def Value.beqList : List Value → List Value → Bool
  | [], [] => true
  | a :: as, b :: bs => Value.beq a b && Value.beqList as bs
  | _, _ => false

/-- Pointwise `Value.beq` on string-keyed entry lists. -/
def Value.beqEntries : List (String × Value) → List (String × Value) → Bool
  | [], [] => true
  | (k1, v1) :: as, (k2, v2) :: bs =>
    k1 == k2 && Value.beq v1 v2 && Value.beqEntries as bs
  | _, _ => false

/-- Pointwise `Value.beq` on group entries. -/
def Value.beqGroups : List (Value × List Value) → List (Value × List Value) → Bool
  | [], [] => true
  | (k1, v1) :: as, (k2, v2) :: bs =>
    Value.beq k1 k2 && Value.beqList v1 v2 && Value.beqGroups as bs
  | _, _ => false

end

instance : BEq Value := ⟨Value.beq⟩

/-- `runtime.IsNil`: `nil` itself (and nil maps/slices, which this model
renders as `.nil`) is nil; every other value is not. -/
def IsNil : Value → Bool
  | .nil => true
  | _ => false

/-- `runtime.ToInt`, restricted to the kinds of the model: ints convert to
`int`, every other kind panics with "invalid operation". -/
def ToInt : Value → Except String Int
  | .int n => .ok n
  | _ => .error "invalid operation: int"

/-- The UTF-8 byte view of a string: Go indexes and slices strings by byte. -/
def strBytes (s : String) : List Value :=
  s.toUTF8.toList.map (fun b => .int (b.toNat : Int))

/-- The indexed-access part of `runtime.Fetch` (the
`reflect.Array, reflect.Slice, reflect.String` case): a negative index is
first re-based from the end (`index = l + index`); an index still outside
`[0, l)` afterwards panics with "index out of range". -/
def fetchIndexed (xs : List Value) (i : Value) : Except String Value := do
  let index ← ToInt i
  let l : Int := xs.length
  let index := if index < 0 then l + index else index
  if index < 0 ∨ l ≤ index then
    .error "index out of range"
  else
    match xs.get? index.toNat with
    | some v => .ok v
    | none => .error "index out of range"

/-- `runtime.Fetch` on the modelled kinds.  Arrays, slices and strings go
through `fetchIndexed`; string-keyed maps look the key up and return the zero
value of the element type (which is `nil` for `map[string]any`) when the key
is missing; a `nil` key reads the zero key `""`.  The method lookup that
precedes these cases in the source and the struct-field case are not
modelled (the claims only fetch from maps, arrays and strings). -/
def Fetch (v i : Value) : Except String Value :=
  match v with
  | .array xs => fetchIndexed xs i
  | .str s => fetchIndexed (strBytes s) i
  | .map entries =>
    match i with
    | .str k =>
      match entries.lookup k with
      | some w => .ok w
      | none => .ok .nil
    | .nil =>
      match entries.lookup "" with
      | some w => .ok w
      | none => .ok .nil
    | _ => .error "cannot fetch"
  | _ => .error "cannot fetch"

/-- The bound arithmetic of `runtime.Slice`, exactly as in the source: each
negative bound is re-based from the end, then clamped below by `0`; the upper
bound is clamped above by the length; finally a lower bound above the upper
bound is pulled down to it. -/
def sliceBounds (length a0 b0 : Int) : Int × Int :=
  let a := if a0 < 0 then length + a0 else a0
  let a := if a < 0 then 0 else a
  let b := if b0 < 0 then length + b0 else b0
  let b := if b < 0 then 0 else b
  let b := if b > length then length else b
  let a := if a > b then b else a
  (a, b)

/-- `runtime.Slice` on the modelled kinds.  On arrays/slices/strings the
bounds are clamped by `sliceBounds` and the sub-sequence `[a, b)` is
returned (for strings the model returns the byte sub-sequence as an array of
byte values); any other kind panics "cannot slice".  Both bounds are
converted with `ToInt` first, as in the source. -/
def Slice (v vfrom vto : Value) : Except String Value :=
  match v with
  | .array xs => do
    let a ← ToInt vfrom
    let b ← ToInt vto
    let (a, b) := sliceBounds xs.length a b
    .ok (.array ((xs.take b.toNat).drop a.toNat))
  | .str s => do
    let a ← ToInt vfrom
    let b ← ToInt vto
    let bytes := strBytes s
    let (a, b) := sliceBounds bytes.length a b
    .ok (.array ((bytes.take b.toNat).drop a.toNat))
  | _ => .error "cannot slice"

/-- `runtime.MakeRange`: the integers from `min` to `max` inclusive, empty
when `max - min + 1 ≤ 0`. -/
def MakeRange (min max : Int) : List Value :=
  let size := max - min + 1
  if size ≤ 0 then []
  else (List.range size.toNat).map (fun k => .int (min + k))

/-- `runtime.Len` on the modelled kinds (string length is the byte length). -/
def Len : Value → Except String Int
  | .array xs => .ok xs.length
  | .map entries => .ok entries.length
  | .str s => .ok (strBytes s).length
  | _ => .error "invalid argument for len"

/-- Modelled from the spec: the generated comparison helper `Equal`
(`helpers[generated].go`) is not under `src/`.  Per the spec, `==` compares
comparable values; on the model's kinds this is structural equality on
same-kind values and `false` across kinds (Go `reflect.DeepEqual`
behaviour). -/
def Equal (a b : Value) : Bool := a == b

/-- Modelled from the spec: the generated helper `Less` is not under `src/`.
The spec types comparisons at numerics and strings on both sides; other
operand kinds are a runtime error. -/
def Less : Value → Value → Except String Bool
  | .int a, .int b => .ok (a < b)
  | .str a, .str b => .ok (a < b)
  | _, _ => .error "invalid operation: <"

/-- Modelled from the spec, like `Less`. -/
def More : Value → Value → Except String Bool
  | .int a, .int b => .ok (a > b)
  | .str a, .str b => .ok (a > b)
  | _, _ => .error "invalid operation: >"

/-- Modelled from the spec, like `Less`. -/
def LessOrEqual : Value → Value → Except String Bool
  | .int a, .int b => .ok (a ≤ b)
  | .str a, .str b => .ok (a ≤ b)
  | _, _ => .error "invalid operation: <="

/-- Modelled from the spec, like `Less`. -/
def MoreOrEqual : Value → Value → Except String Bool
  | .int a, .int b => .ok (a ≥ b)
  | .str a, .str b => .ok (a ≥ b)
  | _, _ => .error "invalid operation: >="

/-- Modelled from the spec, like `Less`: `runtime.Subtract` on integers. -/
def Subtract : Value → Value → Except String Value
  | .int a, .int b => .ok (.int (a - b))
  | _, _ => .error "invalid operation: -"

/-! ## The virtual machine (`vm/vm.go`) -/

/-- `file.Location`: a half-open byte-offset range into the source. -/
structure Location where
  From : Int
  To : Int
deriving DecidableEq, Repr

/-- The subset of the opcode set the claims exercise.  Opcodes carry no
argument here; as in the source, arguments live in a parallel array. -/
inductive Op where
  | invalid
  | push | int | pop | nil | true_ | false_
  | loadFast | loadConst | loadEnv
  | fetch
  | jump | jumpIfTrue | jumpIfFalse | jumpIfNil | jumpIfNotNil
  | jumpIfEnd | jumpBackward
  | equal | not | less | more | lessOrEqual | moreOrEqual | subtract
  | matches | contains | startsWith | endsWith
  | slice | array | map | range | len
  | begin | end_ | pointer
  | getIndex | getCount | getLen | getAcc | setAcc | setIndex
  | incrementIndex | decrementIndex | incrementCount
  | create | groupBy | sortBy | sort
deriving DecidableEq, Repr

/-- A `vm.Scope` iteration frame.  The struct itself lives in a source file
that is not under `src/`; its fields (`Array`, `Len`, `Index`, `Count`,
`Acc`) are modelled from every use in `vm.go` and the spec's §3
"iteration frame" record. -/
structure Scope where
  array : List Value
  len : Int
  index : Int
  count : Int
  acc : Value

/-- A compiled `vm.Program` (the fields `vm.Run` reads: parallel opcode /
argument / location arrays and the constant pool; the struct itself is not
under `src/` and is modelled from its uses). -/
structure Program where
  bytecode : List Op
  arguments : List Int
  constants : List Value
  locations : List Location

/-- The transient interpreter state owned by one evaluation.  The stack and
scope stack keep their top at the list head (Go appends at the end).
`memory` and `memoryBudget` are Go `uint`s, modelled as `Nat` with explicit
`% 2^64` where the counter is bumped. -/
structure VMState where
  stack : List Value
  scopes : List Scope
  memory : Nat
  memoryBudget : Nat
  ip : Int

/-- A recovered panic: the Go `vm.ip` at panic time plus the panic message. -/
structure Fault where
  ip : Int
  msg : String
deriving DecidableEq, Repr

/-- Immutable evaluation context: the program, the environment (a fast map,
i.e. Go `map[string]any`), the regex matcher used by `OpMatches`
(`regexp.MatchString`, which can fail on a bad pattern), and the comparison
sort used by `OpSort` (`sort.Sort` on `runtime.SortBy`; that code is not
under `src/`, so the sorted permutation is a parameter). -/
structure Ctx where
  prog : Program
  env : List (String × Value)
  rmatch : String → String → Except String Bool
  sortImpl : Bool → List Value → List Value → List Value

namespace VMState

/-- `vm.push`. -/
def push (s : VMState) (v : Value) : VMState := { s with stack := v :: s.stack }

/-- `vm.pop`: popping an empty stack panics (Go slice index -1). -/
def popE (s : VMState) : Except Fault (Value × VMState) :=
  match s.stack with
  | v :: rest => .ok (v, { s with stack := rest })
  | [] => .error ⟨s.ip, "index out of range"⟩

/-- `vm.current`: peek the stack top; empty stack panics. -/
def currentE (s : VMState) : Except Fault Value :=
  match s.stack with
  | v :: _ => .ok v
  | [] => .error ⟨s.ip, "index out of range"⟩

/-- `vm.scope()`: the innermost iteration frame; empty frame stack panics. -/
def scopeE (s : VMState) : Except Fault Scope :=
  match s.scopes with
  | sc :: _ => .ok sc
  | [] => .error ⟨s.ip, "index out of range"⟩

/-- Replace the innermost iteration frame. -/
def setScope (s : VMState) (sc : Scope) : VMState :=
  { s with scopes := sc :: s.scopes.tail }

/-- `vm.memGrow`: bump the running allocation counter (a Go `uint`) and
panic "memory budget exceeded" as soon as it reaches or exceeds the
budget. -/
def memGrow (s : VMState) (size : Nat) : Except Fault VMState :=
  let m := (s.memory + size) % 2 ^ 64
  if s.memoryBudget ≤ m then .error ⟨s.ip, "memory budget exceeded"⟩
  else .ok { s with memory := m }

end VMState

/-- Go's `uint(i)` conversion of an `int`: reduce mod `2^64`. -/
def toUIntN (i : Int) : Nat := (i % (2 ^ 64 : Int)).toNat

/-- Lift a runtime-helper error (a Go panic) into a `Fault` at the current
instruction pointer. -/
def liftRt (s : VMState) : Except String α → Except Fault α
  | .ok a => .ok a
  | .error m => .error ⟨s.ip, m⟩

/-- Read `program.Constants[arg]`; an out-of-range index panics. -/
def constAt (ctx : Ctx) (s : VMState) (arg : Int) : Except Fault Value :=
  if h : 0 ≤ arg ∧ arg.toNat < ctx.prog.constants.length then
    .ok (ctx.prog.constants.get ⟨arg.toNat, h.2⟩)
  else
    .error ⟨s.ip, "index out of range"⟩

/-- `map[any][]any` update used by `OpGroupBy`: append `item` to the list at
`key`, creating the entry if absent. -/
def groupAppend : List (Value × List Value) → Value → Value →
    List (Value × List Value)
  | [], key, item => [(key, [item])]
  | (k, items) :: rest, key, item =>
    if k == key then (k, items ++ [item]) :: rest
    else (k, items) :: groupAppend rest key item

/-- Assignment `m[key] = value` on a string-keyed assoc list (`OpMap`). -/
def mapAssign : List (String × Value) → String → Value → List (String × Value)
  | [], key, v => [(key, v)]
  | (k, w) :: rest, key, v =>
    if k == key then (k, v) :: rest else (k, w) :: mapAssign rest key v

/-- The popping loop of `OpMap`: `size` times pop a value then a key (which
must be a string), and apply `m[key] = value` in that order. -/
def buildMap (ip : Int) : Nat → List Value → List (String × Value) →
    Except Fault (List (String × Value) × List Value)
  | 0, stack, m => .ok (m, stack)
  | k + 1, value :: key :: rest, m =>
    match key with
    | .str ks => buildMap ip k rest (mapAssign m ks value)
    | _ => .error ⟨ip, "interface conversion"⟩
  | _ + 1, _, _ => .error ⟨ip, "index out of range"⟩

/-- `strings.Contains`. -/
def goContains (a b : String) : Bool :=
  a.data.tails.any (fun t => b.data.isPrefixOf t)

/-- `strings.HasPrefix`. -/
def goHasPrefix (a b : String) : Bool := b.data.isPrefixOf a.data

/-- `strings.HasSuffix`. -/
def goHasSuffix (a b : String) : Bool := b.data.isSuffixOf a.data

/-- One step of the fetch-decode-execute loop of `vm.Run`: the body of the
`switch op` statement, for the modelled opcode subset.  `s.ip` has already
been advanced past the instruction (`vm.ip += 1` happens before the switch),
so every panic is raised at the advanced `ip`, exactly as in the source. -/
def execInstr (ctx : Ctx) (op : Op) (arg : Int) (s : VMState) :
    Except Fault VMState :=
  match op with
  | .invalid => .error ⟨s.ip, "invalid opcode"⟩
  | .push => do
    let c ← constAt ctx s arg
    .ok (s.push c)
  | .int => .ok (s.push (.int arg))
  | .pop => do
    let (_, s) ← s.popE
    .ok s
  | .loadConst => do
    let c ← constAt ctx s arg
    let v ← liftRt s (Fetch (.map ctx.env) c)
    .ok (s.push v)
  | .loadFast => do
    let c ← constAt ctx s arg
    match c with
    | .str k => .ok (s.push ((ctx.env.lookup k).getD .nil))
    | _ => .error ⟨s.ip, "interface conversion"⟩
  | .loadEnv => .ok (s.push (.map ctx.env))
  | .fetch => do
    let (b, s) ← s.popE
    let (a, s) ← s.popE
    let v ← liftRt s (Fetch a b)
    .ok (s.push v)
  | .true_ => .ok (s.push (.bool true))
  | .false_ => .ok (s.push (.bool false))
  | .nil => .ok (s.push .nil)
  | .not => do
    let (v, s) ← s.popE
    match v with
    | .bool b => .ok (s.push (.bool !b))
    | _ => .error ⟨s.ip, "interface conversion"⟩
  | .equal => do
    let (b, s) ← s.popE
    let (a, s) ← s.popE
    .ok (s.push (.bool (Equal a b)))
  | .jump => .ok { s with ip := s.ip + arg }
  | .jumpIfTrue => do
    let v ← s.currentE
    match v with
    | .bool b => .ok (if b then { s with ip := s.ip + arg } else s)
    | _ => .error ⟨s.ip, "interface conversion"⟩
  | .jumpIfFalse => do
    let v ← s.currentE
    match v with
    | .bool b => .ok (if !b then { s with ip := s.ip + arg } else s)
    | _ => .error ⟨s.ip, "interface conversion"⟩
  | .jumpIfNil => do
    let v ← s.currentE
    .ok (if IsNil v then { s with ip := s.ip + arg } else s)
  | .jumpIfNotNil => do
    let v ← s.currentE
    .ok (if !IsNil v then { s with ip := s.ip + arg } else s)
  | .jumpIfEnd => do
    let sc ← s.scopeE
    .ok (if sc.index ≥ sc.len then { s with ip := s.ip + arg } else s)
  | .jumpBackward => .ok { s with ip := s.ip - arg }
  | .less => do
    let (b, s) ← s.popE
    let (a, s) ← s.popE
    let r ← liftRt s (Less a b)
    .ok (s.push (.bool r))
  | .more => do
    let (b, s) ← s.popE
    let (a, s) ← s.popE
    let r ← liftRt s (More a b)
    .ok (s.push (.bool r))
  | .lessOrEqual => do
    let (b, s) ← s.popE
    let (a, s) ← s.popE
    let r ← liftRt s (LessOrEqual a b)
    .ok (s.push (.bool r))
  | .moreOrEqual => do
    let (b, s) ← s.popE
    let (a, s) ← s.popE
    let r ← liftRt s (MoreOrEqual a b)
    .ok (s.push (.bool r))
  | .subtract => do
    let (b, s) ← s.popE
    let (a, s) ← s.popE
    let r ← liftRt s (Subtract a b)
    .ok (s.push r)
  | .range => do
    let (b, s) ← s.popE
    let (a, s) ← s.popE
    let mn ← liftRt s (ToInt a)
    let mx ← liftRt s (ToInt b)
    let size := mx - mn + 1
    let size := if size ≤ 0 then 0 else size
    let s ← s.memGrow (toUIntN size)
    .ok (s.push (.array (MakeRange mn mx)))
  | .matches => do
    let (b, s) ← s.popE
    let (a, s) ← s.popE
    if IsNil a || IsNil b then .ok (s.push (.bool false))
    else
      match b, a with
      | .str pat, .str str => do
        let m ← liftRt s (ctx.rmatch pat str)
        .ok (s.push (.bool m))
      | _, _ => .error ⟨s.ip, "interface conversion"⟩
  | .contains => do
    let (b, s) ← s.popE
    let (a, s) ← s.popE
    if IsNil a || IsNil b then .ok (s.push (.bool false))
    else
      match a, b with
      | .str x, .str y => .ok (s.push (.bool (goContains x y)))
      | _, _ => .error ⟨s.ip, "interface conversion"⟩
  | .startsWith => do
    let (b, s) ← s.popE
    let (a, s) ← s.popE
    if IsNil a || IsNil b then .ok (s.push (.bool false))
    else
      match a, b with
      | .str x, .str y => .ok (s.push (.bool (goHasPrefix x y)))
      | _, _ => .error ⟨s.ip, "interface conversion"⟩
  | .endsWith => do
    let (b, s) ← s.popE
    let (a, s) ← s.popE
    if IsNil a || IsNil b then .ok (s.push (.bool false))
    else
      match a, b with
      | .str x, .str y => .ok (s.push (.bool (goHasSuffix x y)))
      | _, _ => .error ⟨s.ip, "interface conversion"⟩
  | .slice => do
    let (vfrom, s) ← s.popE
    let (vto, s) ← s.popE
    let (node, s) ← s.popE
    let v ← liftRt s (Slice node vfrom vto)
    .ok (s.push v)
  | .array => do
    let (szv, s) ← s.popE
    match szv with
    | .int n =>
      do
        let s ← s.memGrow (toUIntN n)
        if n < 0 then .error ⟨s.ip, "makeslice: len out of range"⟩
        else if n.toNat ≤ s.stack.length then
          .ok { s with
            stack := .array ((s.stack.take n.toNat).reverse) ::
              s.stack.drop n.toNat }
        else .error ⟨s.ip, "index out of range"⟩
    | _ => .error ⟨s.ip, "interface conversion"⟩
  | .map => do
    let (szv, s) ← s.popE
    match szv with
    | .int n =>
      do
        let s ← s.memGrow (toUIntN n)
        let (m, rest) ← buildMap s.ip n.toNat s.stack []
        .ok { s with stack := .map m :: rest }
    | _ => .error ⟨s.ip, "interface conversion"⟩
  | .len => do
    let v ← s.currentE
    let l ← liftRt s (Len v)
    .ok (s.push (.int l))
  | .begin => do
    let (a, s) ← s.popE
    match a with
    | .array xs =>
      .ok { s with scopes := ⟨xs, xs.length, 0, 0, .nil⟩ :: s.scopes }
    | _ => .error ⟨s.ip, "reflect: call of reflect.Value.Len"⟩
  | .end_ =>
    match s.scopes with
    | _ :: rest => .ok { s with scopes := rest }
    | [] => .error ⟨s.ip, "index out of range"⟩
  | .pointer => do
    let sc ← s.scopeE
    if h : 0 ≤ sc.index ∧ sc.index.toNat < sc.array.length then
      .ok (s.push (sc.array.get ⟨sc.index.toNat, h.2⟩))
    else .error ⟨s.ip, "reflect: slice index out of range"⟩
  | .getIndex => do
    let sc ← s.scopeE
    .ok (s.push (.int sc.index))
  | .getCount => do
    let sc ← s.scopeE
    .ok (s.push (.int sc.count))
  | .getLen => do
    let sc ← s.scopeE
    .ok (s.push (.int sc.len))
  | .getAcc => do
    let sc ← s.scopeE
    .ok (s.push sc.acc)
  | .setAcc => do
    let sc ← s.scopeE
    let (v, s) ← s.popE
    .ok (s.setScope { sc with acc := v })
  | .setIndex => do
    let sc ← s.scopeE
    let (v, s) ← s.popE
    match v with
    | .int n => .ok (s.setScope { sc with index := n })
    | _ => .error ⟨s.ip, "interface conversion"⟩
  | .incrementIndex => do
    let sc ← s.scopeE
    .ok (s.setScope { sc with index := sc.index + 1 })
  | .decrementIndex => do
    let sc ← s.scopeE
    .ok (s.setScope { sc with index := sc.index - 1 })
  | .incrementCount => do
    let sc ← s.scopeE
    .ok (s.setScope { sc with count := sc.count + 1 })
  | .create =>
    match arg with
    | 1 => .ok (s.push (.groupAcc []))
    | 2 => do
      let _ ← s.scopeE
      let (v, s) ← s.popE
      match v with
      | .str "asc" => .ok (s.push (.sortAcc false [] []))
      | .str "desc" => .ok (s.push (.sortAcc true [] []))
      | .str _ => .error ⟨s.ip, "unknown order, use asc or desc"⟩
      | _ => .error ⟨s.ip, "interface conversion"⟩
    | _ => .error ⟨s.ip, "unknown OpCreate argument"⟩
  | .groupBy => do
    let sc ← s.scopeE
    let (key, s) ← s.popE
    if h : 0 ≤ sc.index ∧ sc.index.toNat < sc.array.length then
      let item := sc.array.get ⟨sc.index.toNat, h.2⟩
      match sc.acc with
      | .groupAcc entries =>
        .ok (s.setScope { sc with acc := .groupAcc (groupAppend entries key item) })
      | _ => .error ⟨s.ip, "interface conversion"⟩
    else .error ⟨s.ip, "reflect: slice index out of range"⟩
  | .sortBy => do
    let sc ← s.scopeE
    let (v, s) ← s.popE
    if h : 0 ≤ sc.index ∧ sc.index.toNat < sc.array.length then
      let item := sc.array.get ⟨sc.index.toNat, h.2⟩
      match sc.acc with
      | .sortAcc desc arr vals =>
        .ok (s.setScope { sc with acc := .sortAcc desc (arr ++ [item]) (vals ++ [v]) })
      | _ => .error ⟨s.ip, "interface conversion"⟩
    else .error ⟨s.ip, "reflect: slice index out of range"⟩
  | .sort => do
    let sc ← s.scopeE
    match sc.acc with
    | .sortAcc desc arr vals =>
      do
        let sorted := ctx.sortImpl desc arr vals
        let s ← s.memGrow (toUIntN sc.len)
        .ok (s.push (.array sorted))
    | _ => .error ⟨s.ip, "interface conversion"⟩

/-- One observation per executed instruction: the instruction's index and the
innermost iteration frame's `Index` at the instant the instruction was
fetched (`0` when no frame is active). -/
def obsOf (i : Int) (s : VMState) : Int × Int :=
  (i, match s.scopes with | sc :: _ => sc.index | [] => 0)

/-- Outcome of the interpreter loop: normal exit, a recovered panic, or fuel
exhaustion (an artifact of the embedding). -/
inductive RunResult where
  | ok (s : VMState)
  | fault (f : Fault)
  | timeout

/-- The fetch-decode-execute loop of `vm.Run` (`for vm.ip < len(bytecode)`),
instrumented with the list of executed instructions.  As in the source, the
opcode and argument are fetched at `vm.ip`, then `vm.ip += 1`, then the
instruction body runs. -/
def runTrace (ctx : Ctx) : Nat → VMState → List (Int × Int) × RunResult
  | 0, _ => ([], .timeout)
  | fuel + 1, s =>
    if (ctx.prog.bytecode.length : Int) ≤ s.ip then ([], .ok s)
    else
      if h : 0 ≤ s.ip ∧ s.ip.toNat < ctx.prog.bytecode.length then
        let op := ctx.prog.bytecode.get ⟨s.ip.toNat, h.2⟩
        match ctx.prog.arguments.get? s.ip.toNat with
        | none => ([], .fault ⟨s.ip, "index out of range"⟩)
        | some arg =>
          let o := obsOf s.ip s
          match execInstr ctx op arg { s with ip := s.ip + 1 } with
          | .error f => ([o], .fault f)
          | .ok s2 =>
            let (t, r) := runTrace ctx fuel s2
            (o :: t, r)
      else ([], .fault ⟨s.ip, "index out of range"⟩)

/-- Modelled from the spec: `conf.DefaultMemoryBudget` is not under `src/`;
the spec only requires a finite default budget ("default applied if zero").
No claim depends on the exact value chosen here. -/
def DefaultMemoryBudget : Nat := 1000000

/-- A surfaced runtime error: message plus the Location it was bound to. -/
structure RunError where
  location : Location
  message : String
deriving DecidableEq, Repr

/-- The deferred recovery in `vm.Run`: bind the panic to
`program.locations[vm.ip-1]` when that index is below the length (the source
checks only the upper bound; a negative index — unreachable for well-formed
programs — is modelled as the zero Location). -/
def recoverError (prog : Program) (f : Fault) : RunError :=
  let i := f.ip - 1
  if h : 0 ≤ i ∧ i.toNat < prog.locations.length then
    ⟨prog.locations.get ⟨i.toNat, h.2⟩, f.msg⟩
  else
    ⟨⟨0, 0⟩, f.msg⟩

/-- `vm.Run` with explicit fuel: build the initial state (fresh stack and
frame stack, zero memory counter, and the default budget substituted when
the configured budget is zero), run the loop, and either return the stack
top (or Go's nil `any`, i.e. `.nil`, when the stack is empty) with no
error, or — after recovering a panic — no value together with the recovered
error.  The outer `none` marks fuel exhaustion.  The first component is the
executed-instruction trace. -/
def runWithTrace (ctx : Ctx) (memoryBudget : Nat) (fuel : Nat) :
    List (Int × Int) × Option (Option Value × Option RunError) :=
  let budget := if memoryBudget = 0 then DefaultMemoryBudget else memoryBudget
  let s0 : VMState := ⟨[], [], 0, budget, 0⟩
  match runTrace ctx fuel s0 with
  | (t, .ok s) =>
    match s.stack with
    | v :: _ => (t, some (some v, none))
    | [] => (t, some (some .nil, none))
  | (t, .fault f) => (t, some (none, some (recoverError ctx.prog f)))
  | (t, .timeout) => (t, none)

/-- `vm.Run`: the result pair alone. -/
def run (ctx : Ctx) (memoryBudget : Nat) (fuel : Nat) :
    Option (Option Value × Option RunError) :=
  (runWithTrace ctx memoryBudget fuel).2

/-! ## The abstract syntax tree (`ast` package) and the compiler -/

/-- The AST node kinds the claims exercise.  Locations and the mutable
Nature slot are dropped (no verified claim reads them); `member` keeps the
`Optional` flag that encodes `?.`. -/
inductive Node where
  | nil
  | bool (b : Bool)
  | integer (n : Int)
  | str (s : String)
  | ident (name : String)
  | unary (op : String) (node : Node)
  | binary (op : String) (left : Node) (right : Node)
  | member (node : Node) (property : Node) (optional : Bool)
  | chain (node : Node)
  | array (nodes : List Node)
  | builtin (name : String) (args : List Node)

/-- The compiler's jump placeholder argument (`placeholder = 12345`). -/
def placeholder : Int := 12345

/-- The indexability test of `compiler.addConstant`: values of slice or map
kind (arrays, maps and the accumulator shapes, which are slices/maps at
runtime) cannot be Go map keys and are never deduplicated. -/
def indexable : Value → Bool
  | .array _ => false
  | .map _ => false
  | .sortAcc _ _ _ => false
  | .groupAcc _ => false
  | _ => true

/-- Go map-key equality on the indexable (scalar) constant kinds, used by
the constant pool's interning index. -/
def scalarEq : Value → Value → Bool
  | .nil, .nil => true
  | .bool a, .bool b => a == b
  | .int a, .int b => a == b
  | .str a, .str b => a == b
  | _, _ => false

/-- Compiler state: the growing parallel bytecode/argument/location arrays,
the constant pool, the per-chain placeholder lists (innermost chain at the
head; the source appends at the end of `c.chains`), and the node stack used
by `nodeParent` (current node at the head). -/
structure CState where
  bytecode : List Op
  arguments : List Int
  locations : List Location
  constants : List Value
  chains : List (List Nat)
  nodes : List Node

namespace CState

/-- `compiler.emit`/`emitLocation`: append the opcode, its argument and a
location, and return `len(c.bytecode)` *after* the append (one past the
instruction's index), exactly as the source does.  Node locations are not
modelled, so the zero location is recorded. -/
def emit (c : CState) (op : Op) (arg : Int) : CState × Nat :=
  let bytecode := c.bytecode ++ [op]
  ({ c with
      bytecode
      arguments := c.arguments ++ [arg]
      locations := c.locations ++ [⟨0, 0⟩] },
    bytecode.length)

/-- `compiler.patchJump`: write `len(c.bytecode) - placeholder` into
`c.arguments[placeholder-1]`. -/
def patchJump (c : CState) (ph : Nat) : CState :=
  let offset : Int := (c.bytecode.length : Int) - ph
  { c with arguments := c.arguments.set (ph - 1) offset }

/-- `compiler.calcBackwardJump`: `len(c.bytecode) + 1 - to`. -/
def calcBackwardJump (c : CState) (start : Nat) : Int :=
  (c.bytecode.length : Int) + 1 - start

/-- `compiler.addConstant`: scalar constants are interned by equality (the
`constantsIndex` map); slice/map-kinded constants are not indexable and are
appended without deduplication, exactly as the `reflect.Slice, reflect.Map,
reflect.Struct, reflect.Func` arm does. -/
def addConstant (c : CState) (v : Value) : CState × Int :=
  if indexable v then
    match c.constants.findIdx? (fun w => scalarEq w v) with
    | some p => (c, p)
    | none => ({ c with constants := c.constants ++ [v] }, c.constants.length)
  else
    ({ c with constants := c.constants ++ [v] }, c.constants.length)

/-- `compiler.emitPush`. -/
def emitPush (c : CState) (v : Value) : CState × Nat :=
  let (c, idx) := c.addConstant v
  c.emit .push idx

/-- `compiler.nodeParent`: the node below the current one on the node
stack. -/
def nodeParent (c : CState) : Option Node := c.nodes.get? 1

/-- `compiler.emitLoop`: the ascending loop template
`JumpIfEnd end; <body>; IncrementIndex; JumpBackward begin; end:` shared by
every higher-order builtin except `findLast`/`findLastIndex`. -/
def emitLoop (c : CState) (body : CState → CState) : CState :=
  let start := c.bytecode.length
  let (c, endPh) := c.emit .jumpIfEnd placeholder
  let c := body c
  let (c, _) := c.emit .incrementIndex 0
  let (c, _) := c.emit .jumpBackward (c.calcBackwardJump start)
  c.patchJump endPh

/-- `compiler.emitLoopBackwards`: the descending loop template used by
`findLast`/`findLastIndex`: the frame index is initialised to `len - 1`,
the loop runs while `index >= 0`, and the body is followed by
`DecrementIndex`. -/
def emitLoopBackwards (c : CState) (body : CState → CState) : CState :=
  let (c, _) := c.emit .getLen 0
  let (c, _) := c.emit .int 1
  let (c, _) := c.emit .subtract 0
  let (c, _) := c.emit .setIndex 0
  let start := c.bytecode.length
  let (c, _) := c.emit .getIndex 0
  let (c, _) := c.emit .int 0
  let (c, _) := c.emit .moreOrEqual 0
  let (c, endPh) := c.emit .jumpIfFalse placeholder
  let c := body c
  let (c, _) := c.emit .decrementIndex 0
  let (c, _) := c.emit .jumpBackward (c.calcBackwardJump start)
  c.patchJump endPh

end CState

/-- `compiler.compile` for the node kinds claim C2 exercises, specialised to
a fast-map environment (`map[string]any`), for which `checker.MethodIndex`
and `checker.FieldIndex` never succeed: member accesses therefore keep the
dynamic `OpFetch` path and no static field folding applies.  As in the
source, the node is pushed on the node stack around its own compilation
(for `nodeParent`).  Node kinds outside the modelled fragment (binary,
unary, array, builtin) are left uncompiled — no verified claim compiles
them. -/
def compileNode (c0 : CState) (node : Node) : CState :=
  let c := { c0 with nodes := node :: c0.nodes }
  let c :=
    match node with
    | .nil => (c.emit .nil 0).1
    | .bool b => if b then (c.emit .true_ 0).1 else (c.emit .false_ 0).1
    | .integer n => (c.emitPush (.int n)).1
    | .str s => (c.emitPush (.str s)).1
    | .ident name =>
      -- no local variables in the fragment; `$env` loads the environment,
      -- any other identifier takes the fast-map path
      if name = "$env" then (c.emit .loadEnv 0).1
      else
        let (c, idx) := c.addConstant (.str name)
        (c.emit .loadFast idx).1
    | .member base property opt =>
      let c := compileNode c base
      -- optional access inside a chain records a JumpIfNil placeholder
      let c :=
        if opt ∧ c.chains ≠ [] then
          let (c, ph) := c.emit .jumpIfNil placeholder
          match c.chains with
          | hd :: tl => { c with chains := (hd ++ [ph]) :: tl }
          | [] => c
        else c
      let c := compileNode c property
      (c.emit .fetch 0).1
    | .chain inner =>
      let c := { c with chains := [] :: c.chains }
      let c := compileNode c inner
      -- patch every recorded `?.` jump to the common landing site
      let c := (c.chains.headD []).foldl (fun (acc : CState) ph => acc.patchJump ph) c
      let isCoalesceOperand : Bool :=
        match c.nodeParent with
        | some (.binary op _ _) => op == "??"
        | _ => false
      let c :=
        if isCoalesceOperand then c
        else
          let (c, j) := c.emit .jumpIfNotNil placeholder
          let (c, _) := c.emit .pop 0
          let (c, _) := c.emit .nil 0
          c.patchJump j
      { c with chains := c.chains.tail }
    | .unary _ _ => c
    | .binary _ _ _ => c
    | .array _ => c
    | .builtin _ _ => c
  { c with nodes := c.nodes.tail }

/-- The empty compiler state. -/
def emptyCState : CState := ⟨[], [], [], [], [], []⟩

/-- `compiler.Compile` with a nil config (no final cast, no jump-merging
optimisation): compile the tree and assemble the program record. -/
def compileProgram (node : Node) : Program :=
  let c := compileNode emptyCState node
  ⟨c.bytecode, c.arguments, c.constants, c.locations⟩

/-- The ascending iteration template as every forward higher-order builtin
lowers it: `Begin` on the collection, `emitLoop` with a body that reads the
current element (`OpPointer`, here followed by `OpPop`), then `End`. -/
def forwardLoopProgram : Program :=
  let (c, _) := emptyCState.emit .begin 0
  let c := c.emitLoop (fun c =>
    let (c, _) := c.emit .pointer 0
    (c.emit .pop 0).1)
  let (c, _) := c.emit .end_ 0
  ⟨c.bytecode, c.arguments, c.constants, c.locations⟩

/-- The descending iteration template as `findLast`/`findLastIndex` lower
it: `Begin`, `emitLoopBackwards` with the same element-reading body, then
`End`. -/
def backwardLoopProgram : Program :=
  let (c, _) := emptyCState.emit .begin 0
  let c := c.emitLoopBackwards (fun c =>
    let (c, _) := c.emit .pointer 0
    (c.emit .pop 0).1)
  let (c, _) := c.emit .end_ 0
  ⟨c.bytecode, c.arguments, c.constants, c.locations⟩

/-- The higher-order builtins of the parser's `predicates` table. -/
def higherOrderBuiltins : List String :=
  ["all", "none", "any", "one", "filter", "map", "count", "sum", "find",
   "findIndex", "findLast", "findLastIndex", "groupBy", "sortBy", "reduce"]

/-- Which loop template `compiler.BuiltinNode` selects: only `findLast` and
`findLastIndex` lower through `emitLoopBackwards`; every other case of the
switch uses `emitLoop`. -/
def usesBackwardLoop : String → Bool
  | "findLast" => true
  | "findLastIndex" => true
  | _ => false

/-! ## The parser (`parser/parser.go` and `parser/operator`) -/

/-- Lexer tokens, with literal values already decoded (the lexer is outside
the verified claims).  Token streams produced by the lexer always end with a
single `eof` token. -/
inductive Tok where
  | number (n : Int)
  | ident (s : String)
  | operator (s : String)
  | eof
deriving DecidableEq, Repr

/-- `operator.Associativity`. -/
inductive Assoc where
  | left
  | right
deriving DecidableEq, Repr

/-- An `operator.Operator` table entry. -/
structure BinOp where
  prec : Int
  assoc : Assoc
deriving DecidableEq, Repr

/-- The binary operator table `operator.Binary`, complete. -/
def binaryTable : String → Option BinOp
  | "|" => some ⟨0, .left⟩
  | "or" => some ⟨10, .left⟩
  | "||" => some ⟨10, .left⟩
  | "and" => some ⟨15, .left⟩
  | "&&" => some ⟨15, .left⟩
  | "==" => some ⟨20, .left⟩
  | "!=" => some ⟨20, .left⟩
  | "<" => some ⟨20, .left⟩
  | ">" => some ⟨20, .left⟩
  | ">=" => some ⟨20, .left⟩
  | "<=" => some ⟨20, .left⟩
  | "in" => some ⟨20, .left⟩
  | "matches" => some ⟨20, .left⟩
  | "contains" => some ⟨20, .left⟩
  | "startsWith" => some ⟨20, .left⟩
  | "endsWith" => some ⟨20, .left⟩
  | ".." => some ⟨25, .left⟩
  | "+" => some ⟨30, .left⟩
  | "-" => some ⟨30, .left⟩
  | "*" => some ⟨60, .left⟩
  | "/" => some ⟨60, .left⟩
  | "%" => some ⟨60, .left⟩
  | "**" => some ⟨100, .right⟩
  | "^" => some ⟨100, .right⟩
  | "??" => some ⟨500, .left⟩
  | _ => none

/-- `operator.IsComparison`: exactly `<`, `>`, `>=`, `<=` — note that `==`
and `!=` are *not* in this set, so they never enter the chained-comparison
rewriting. -/
def IsComparison (op : String) : Bool :=
  op == "<" || op == ">" || op == ">=" || op == "<="

/-- Modelled from the spec: `conf.DefaultMaxNodes` is not under `src/`; the
spec fixes the default parser node limit at 10,000. -/
def DefaultMaxNodes : Nat := 10000

/-- The parser configuration fields the claims read (`conf.Config.MaxNodes`;
a `MaxNodes` of zero disables the limit, as in `checkNodeLimit`). -/
structure PConfig where
  maxNodes : Nat
deriving DecidableEq, Repr

/-- Parser state: token stream, cursor, current token, first recorded error
(`file.Error` modelled by its message; locations dropped), optional config
(`none` is Go's nil config), and the AST node counter. -/
structure PState where
  tokens : List Tok
  pos : Nat
  current : Tok
  err : Option String
  config : Option PConfig
  nodeCount : Nat

/-- `parser.error`/`errorAt`: only the first error is recorded. -/
def perror (p : PState) (msg : String) : PState :=
  match p.err with
  | none => { p with err := some msg }
  | some _ => p

/-- `parser.next`: advance the cursor; running past the end of the token
stream records "unexpected end of expression" and leaves `current`
unchanged. -/
def pnext (p0 : PState) : PState :=
  let p := { p0 with pos := p0.pos + 1 }
  if p.tokens.length ≤ p.pos then perror p "unexpected end of expression"
  else { p with current := p.tokens.getD p.pos .eof }

/-- `parser.checkNodeLimit`: bump the node counter; with a nil config the
default limit applies, otherwise a positive configured `MaxNodes` applies
(zero disables the check).  Exceeding the limit records a fatal error. -/
def checkNodeLimit (p0 : PState) : PState :=
  let p := { p0 with nodeCount := p0.nodeCount + 1 }
  match p.config with
  | none =>
    if DefaultMaxNodes < p.nodeCount then
      perror p "compilation failed: expression exceeds maximum allowed nodes"
    else p
  | some cfg =>
    if 0 < cfg.maxNodes ∧ cfg.maxNodes < p.nodeCount then
      perror p "compilation failed: expression exceeds maximum allowed nodes"
    else p
/-- `parser.createNode`: every node construction goes through
`checkNodeLimit`; the node is dropped (Go returns nil) when an error has
been recorded.  Locations are not modelled. -/
def createNode (p0 : PState) (n : Option Node) : PState × Option Node :=
  let p := checkNodeLimit p0
  match n, p.err with
  | some node, none => (p, some node)
  | _, _ => (p, none)

/-- Construction of a `BinaryNode` through `createNode`.  In the source the
children of a nil child are only ever nil when an error is already
recorded, in which case `createNode` drops the node anyway; the model folds
the two conditions together. -/
def createBinaryNode (p : PState) (op : String) (l r : Option Node) :
    PState × Option Node :=
  match l, r with
  | some ln, some rn => createNode p (some (.binary op ln rn))
  | _, _ => createNode p none

mutual

/-- `parser.parsePrimary`/`parseSecondary` restricted to the literal
fragment: integer literals and the `true`/`false`/`nil` identifier
literals, each advanced past first and then built via `createNode`, exactly
as in the source (these secondary cases return without postfix parsing).
Unary operators, brackets, pointers, `::`, plain identifiers, strings,
collection literals and postfix forms are outside the fragment and report
the source's "unexpected token" error. -/
def parsePrimary (fuel : Nat) (p : PState) : PState × Option Node :=
  match fuel with
  | 0 => (perror p "fuel exhausted", none)
  | _ + 1 =>
    match p.current with
    | .number n =>
      let p := pnext p
      createNode p (some (.integer n))
    | .ident "true" =>
      let p := pnext p
      createNode p (some (.bool true))
    | .ident "false" =>
      let p := pnext p
      createNode p (some (.bool false))
    | .ident "nil" =>
      let p := pnext p
      createNode p (some Node.nil)
    | _ => (perror p "unexpected token", none)

termination_by structural fuel

/-- `parser.parseExpression` on the fragment: parse a primary, then run the
binary-operator loop.  The `let`/`if` keyword forms and the trailing
`parseConditional` (both reachable only at precedence 0 with tokens outside
the fragment) and the `not <suffix>` combination are not modelled. -/
def parseExpression (fuel : Nat) (precedence : Int) (p : PState) :
    PState × Option Node :=
  match fuel with
  | 0 => (perror p "fuel exhausted", none)
  | fuel + 1 =>
    if p.err ≠ none then (p, none)
    else
      let (p, nodeLeft) := parsePrimary fuel p
      binaryLoop fuel precedence p nodeLeft ""

termination_by structural fuel

/-- The `for opToken.Is(Operator) && p.err == nil` loop of
`parseExpression`: look the operator up in `operator.Binary`; at sufficient
precedence consume it and either rewrite a comparison chain
(`IsComparison` → `parseComparison`), or parse the right operand at
`prec+1`/`prec` per associativity and build a `BinaryNode`.  The pipe
rewriting (`parseCall`) is outside the fragment; the `??` mixing guard is
kept (`errorAt` + `break`). -/
def binaryLoop (fuel : Nat) (precedence : Int) (p : PState)
    (nodeLeft : Option Node) (prevOperator : String) : PState × Option Node :=
  match fuel with
  | 0 => (perror p "fuel exhausted", none)
  | fuel + 1 =>
    match p.current with
    | .operator opVal =>
      if p.err ≠ none then (p, nodeLeft)
      else
        match binaryTable opVal with
        | some op =>
          if op.prec ≥ precedence then
            let p := pnext p
            if opVal = "|" then (perror p "unexpected token |", none)
            else if prevOperator = "??" ∧ opVal ≠ "??" then
              (perror p
                "Operator and coalesce expressions cannot be mixed", nodeLeft)
            else if IsComparison opVal then
              let (p, chained) := parseComparison fuel nodeLeft opVal op.prec p
              binaryLoop fuel precedence p chained opVal
            else
              let (p, nodeRight) :=
                match op.assoc with
                | .left => parseExpression fuel (op.prec + 1) p
                | .right => parseExpression fuel op.prec p
              let (p, newLeft) := createBinaryNode p opVal nodeLeft nodeRight
              match newLeft with
              | none => (p, none)
              | some _ => binaryLoop fuel precedence p newLeft opVal
          else (p, nodeLeft)
        | none => (p, nodeLeft)
    | _ => (p, nodeLeft)

termination_by structural fuel

/-- `parser.parseComparison`: entry into the chained-comparison loop. -/
def parseComparison (fuel : Nat) (left : Option Node) (tokenOp : String)
    (precedence : Int) (p : PState) : PState × Option Node :=
  match fuel with
  | 0 => (perror p "fuel exhausted", none)
  | fuel + 1 => comparisonChain fuel left tokenOp precedence p none

termination_by structural fuel

/-- The `for { … }` body of `parseComparison`: parse the right-hand operand
at `precedence+1`, build the comparison node, connect it to the running
result with `&&` (first iteration: the comparison itself), then — if the
next token is again a comparison operator and no error is recorded —
consume it and continue with the shared right operand as the new left
operand. -/
def comparisonChain (fuel : Nat) (left : Option Node) (tokenOp : String)
    (precedence : Int) (p : PState) (rootNode : Option Node) :
    PState × Option Node :=
  match fuel with
  | 0 => (perror p "fuel exhausted", none)
  | fuel + 1 =>
    let (p, comparator) := parseExpression fuel (precedence + 1) p
    let (p, cmpNode) := createBinaryNode p tokenOp left comparator
    match cmpNode with
    | none => (p, none)
    | some cn =>
      let (p, root) :=
        match rootNode with
        | none => (p, some cn)
        | some r => createNode p (some (.binary "&&" r cn))
      match root with
      | none => (p, none)
      | some _ =>
        let left := comparator
        match p.current with
        | .operator v =>
          if IsComparison v ∧ p.err = none then
            let p := pnext p
            comparisonChain fuel left v precedence p root
          else (p, root)
        | _ => (p, root)

termination_by structural fuel
end

/-- `parser.ParseWithConfig` on the fragment: start at the first token, run
the expression parser at precedence 0, and require the cursor to have
reached `EOF` ("unexpected token" otherwise).  The sequence layer
(`parseSequenceExpression`) only wraps `;`-separated expressions and is
outside the fragment. -/
def parseTokens (config : Option PConfig) (tokens : List Tok) (fuel : Nat) :
    PState × Option Node :=
  let p : PState :=
    { tokens
      pos := 0
      current := tokens.headD .eof
      err := none
      config
      nodeCount := 0 }
  let (p, node) := parseExpression fuel 0 p
  let p := if p.current = .eof then p else perror p "unexpected token"
  (p, node)

/-- The node-limit invariant of parser states, relative to the fixed
configuration `cfg` the parse was started with: the state still carries
`cfg`, and while no error is recorded the node counter respects the
applicable limit — `DefaultMaxNodes` for a nil config, `c.MaxNodes` for a
configured positive limit (a zero `MaxNodes` disables the check). -/
def nodeLimitOk (cfg : Option PConfig) (p : PState) : Prop :=
  p.config = cfg ∧
  (p.err = none →
    match cfg with
    | none => p.nodeCount ≤ DefaultMaxNodes
    | some c => 0 < c.maxNodes → p.nodeCount ≤ c.maxNodes)

/-! ## The optimizer (`optimizer/sum_array.go`) -/

/-- `optimizer.sumArrayFold`: a literal array `[e1, …, en]` becomes the
right-folded nested addition — for length > 2 the head plus the fold of the
tail, for length 2 the plain addition; shorter arrays panic in the source
(modelled by `none`; the visitor only calls this under its length guard). -/
def sumArrayFold (nodes : List Node) : Option Node :=
  match nodes with
  | a :: rest@(_ :: _ :: _) =>
    match sumArrayFold rest with
    | some r => some (.binary "+" a r)
    | none => none
  | [a, b] => some (.binary "+" a b)
  | _ => none

/-- `sumArray.Visit`: rewrite a `sum` call with exactly one argument that is
a literal array node of length ≥ 2 into the fold (`patchCopyType` installs
the replacement; nature copying is not modelled); every other node — other
builtins, `sum` with a predicate argument or a non-array argument, shorter
arrays — is left untouched. -/
def sumArrayVisit (node : Node) : Node :=
  match node with
  | .builtin "sum" [.array nodes] =>
    if 2 ≤ nodes.length then
      match sumArrayFold nodes with
      | some r => r
      | none => node
    else node
  | _ => node

/-- The right-folded shape `e1 + (e2 + (… + en))` exactly as the spec words
it, written as a direct fold for comparison with `sumArrayFold`. -/
def specRightFoldSum (a : Node) (rest : List Node) : Node :=
  match rest with
  | [] => a
  | b :: rest => .binary "+" a (specRightFoldSum b rest)

/-! ## Evaluation of the parsed fragment -/

/-- Evaluation of the fragment's expressions, mirroring the opcodes the
compiler emits for each form: literals push themselves; `==`/`!=` evaluate
both operands and apply `Equal` (`OpEqual`, plus `OpNot` for `!=`); the
four comparisons apply the runtime comparison helpers (`OpLess` …);
`&&`/`and` and `||`/`or` follow the `JumpIfFalse`/`JumpIfTrue`
short-circuit templates, whose peeked operand must be a bool
(`current().(bool)`); `??` follows the `JumpIfNotNil` template.  Operands
evaluate left-to-right, as compiled (spec §5). -/
def evalNode : Node → Except String Value
  | .nil => .ok .nil
  | .bool b => .ok (.bool b)
  | .integer n => .ok (.int n)
  | .str s => .ok (.str s)
  | .binary op l r =>
    match op with
    | "==" => do
      let a ← evalNode l
      let b ← evalNode r
      .ok (.bool (Equal a b))
    | "!=" => do
      let a ← evalNode l
      let b ← evalNode r
      .ok (.bool (!Equal a b))
    | "&&" => do
      let a ← evalNode l
      match a with
      | .bool false => .ok (.bool false)
      | .bool true => evalNode r
      | _ => .error "interface conversion"
    | "and" => do
      let a ← evalNode l
      match a with
      | .bool false => .ok (.bool false)
      | .bool true => evalNode r
      | _ => .error "interface conversion"
    | "||" => do
      let a ← evalNode l
      match a with
      | .bool true => .ok (.bool true)
      | .bool false => evalNode r
      | _ => .error "interface conversion"
    | "or" => do
      let a ← evalNode l
      match a with
      | .bool true => .ok (.bool true)
      | .bool false => evalNode r
      | _ => .error "interface conversion"
    | "<" => do
      let a ← evalNode l
      let b ← evalNode r
      let c ← Less a b
      .ok (.bool c)
    | ">" => do
      let a ← evalNode l
      let b ← evalNode r
      let c ← More a b
      .ok (.bool c)
    | "<=" => do
      let a ← evalNode l
      let b ← evalNode r
      let c ← LessOrEqual a b
      .ok (.bool c)
    | ">=" => do
      let a ← evalNode l
      let b ← evalNode r
      let c ← MoreOrEqual a b
      .ok (.bool c)
    | "??" => do
      let a ← evalNode l
      if IsNil a then evalNode r else .ok a
    | _ => .error "operator outside the modelled fragment"
  | _ => .error "node outside the modelled fragment"

/-! ## Program well-formedness (spec §8: bytecode parity, jump closure) -/

/-- Jump closure for one instruction: a relative jump's target
`i + 1 ± arg` stays inside `[0, len]` (`len` itself is the normal loop
exit). -/
def jumpTargetOk (len : Nat) (i : Nat) (op : Op) (arg : Int) : Bool :=
  match op with
  | .jump | .jumpIfTrue | .jumpIfFalse | .jumpIfNil | .jumpIfNotNil
  | .jumpIfEnd =>
    decide (0 ≤ (i : Int) + 1 + arg) && decide ((i : Int) + 1 + arg ≤ len)
  | .jumpBackward =>
    decide (0 ≤ (i : Int) + 1 - arg) && decide ((i : Int) + 1 - arg ≤ len)
  | _ => true

/-- The spec's §8 invariants of every compiled program: the parallel arrays
have equal length ("bytecode parity") and every jump is patched to a valid
target ("jump closure"). -/
def wellFormed (prog : Program) : Prop :=
  prog.arguments.length = prog.bytecode.length ∧
  prog.locations.length = prog.bytecode.length ∧
  ∀ i : Nat, ∀ h : i < prog.bytecode.length,
    jumpTargetOk prog.bytecode.length i (prog.bytecode.get ⟨i, h⟩)
      (prog.arguments.getD i 0) = true

instance (prog : Program) : Decidable (wellFormed prog) := by
  unfold wellFormed
  exact inferInstance

/-! # Theorems -/

/-- C8: at runtime, indexing an array/slice with a negative integer `i` is
interpreted as access at position `length + i`; only an index that is still
outside `[0, length)` after this adjustment raises the index-out-of-range
error. -/
theorem c8_fetch_negative_index (xs : List Value) (i adj : Int)
    (hadj : adj = if i < 0 then (xs.length : Int) + i else i) :
    (0 ≤ adj ∧ adj < (xs.length : Int) →
      Fetch (.array xs) (.int i) = .ok (xs.getD adj.toNat .nil)) ∧
    (¬(0 ≤ adj ∧ adj < (xs.length : Int)) →
      Fetch (.array xs) (.int i) = .error "index out of range") := by
  subst hadj
  constructor
  · rintro ⟨h0, hl⟩
    have hlt : (if i < 0 then (xs.length : Int) + i else i).toNat < xs.length := by
      omega
    simp only [Fetch, fetchIndexed, ToInt, bind, Except.bind]
    rw [if_neg (by omega)]
    rw [List.getD_eq_get?]
    rcases hget : xs.get? (if i < 0 then (xs.length : Int) + i else i).toNat with _ | v
    · exact absurd (List.get?_eq_none.mp hget) (by omega)
    · simp
  · intro h
    simp only [Fetch, fetchIndexed, ToInt, bind, Except.bind]
    rw [if_pos (by omega)]

/-- Witness for C8: in `[10, 20, 30]`, index `-1` re-bases to position 2. -/
theorem c8_fetch_negative_index_witness :
    Fetch (.array [.int 10, .int 20, .int 30]) (.int (-1)) = .ok (.int 30) := by
  have h := (c8_fetch_negative_index [.int 10, .int 20, .int 30] (-1) 2
    (by norm_num)).1 (by norm_num)
  simpa using h

/-- The clamping of `runtime.Slice` in closed form: the upper bound is the
re-based `to` clamped into `[0, length]`, the lower bound is the re-based
`from` clamped below by 0 and above by the upper bound. -/
theorem sliceBounds_eq (L i j : Int) :
    sliceBounds L i j =
      (min (max 0 (if i < 0 then L + i else i))
          (min L (max 0 (if j < 0 then L + j else j))),
        min L (max 0 (if j < 0 then L + j else j))) := by
  simp only [sliceBounds, Prod.mk.injEq]
  split_ifs <;> constructor <;> omega

/-- C9: the runtime slice operation is total on arrays/slices and strings
for all integer bounds: negative bounds re-base from the end, both bounds
are clamped into `[0, length]`, and a lower bound exceeding the upper bound
is pulled down to it, so slicing never raises and yields an empty result
instead. -/
theorem c9_slice_total (xs : List Value) (s : String) (i j : Int) :
    (∃ ys, Slice (.array xs) (.int i) (.int j) = .ok (.array ys) ∧
      ys.length =
        ((sliceBounds xs.length i j).2 - (sliceBounds xs.length i j).1).toNat) ∧
    (∃ ys, Slice (.str s) (.int i) (.int j) = .ok (.array ys)) ∧
    0 ≤ (sliceBounds (xs.length) i j).1 ∧
    (sliceBounds (xs.length) i j).1 ≤ (sliceBounds (xs.length) i j).2 ∧
    (sliceBounds (xs.length) i j).2 ≤ (xs.length : Int) ∧
    (min (xs.length : Int) (max 0 (if j < 0 then (xs.length : Int) + j else j)) <
        max 0 (if i < 0 then (xs.length : Int) + i else i) →
      Slice (.array xs) (.int i) (.int j) = .ok (.array [])) := by
  rcases hsb : sliceBounds ((xs.length : Nat) : Int) i j with ⟨A, B⟩
  have heq := sliceBounds_eq ((xs.length : Nat) : Int) i j
  rw [hsb] at heq
  rw [Prod.mk.injEq] at heq
  obtain ⟨hA, hB⟩ := heq
  have h0 : 0 ≤ A := by omega
  have hab : A ≤ B := by omega
  have hbl : B ≤ (xs.length : Int) := by omega
  have harr : Slice (.array xs) (.int i) (.int j) =
      .ok (.array ((xs.take B.toNat).drop A.toNat)) := by
    simp [Slice, ToInt, bind, Except.bind, hsb]
  refine ⟨⟨(xs.take B.toNat).drop A.toNat, harr, ?_⟩, ⟨_, rfl⟩,
    by simpa using h0, by simpa using hab, by simpa using hbl, ?_⟩
  · simp only [List.length_drop, List.length_take]
    omega
  · intro hlt
    rw [harr]
    have hempty : (xs.take B.toNat).drop A.toNat = [] := by
      apply List.drop_eq_nil_of_le
      simp only [List.length_take]
      omega
    rw [hempty]

/-- Witness for C9: slicing `[1, 2, 3]` with lower bound 5 and upper bound 2
yields the empty array rather than an error. -/
theorem c9_slice_total_witness :
    Slice (.array [.int 1, .int 2, .int 3]) (.int 5) (.int 2) =
      .ok (.array []) := by
  have h := (c9_slice_total [.int 1, .int 2, .int 3] "" 5 2).2.2.2.2.2
  exact h (by norm_num)

/-- C10: the `OpMatches`/`OpContains`/`OpStartsWith`/`OpEndsWith` opcode
bodies push `false` — rather than raising an error — whenever either popped
operand is nil. -/
theorem c10_nil_string_ops (ctx : Ctx) (s : VMState) (arg : Int)
    (a b : Value) (rest : List Value)
    (hstack : s.stack = b :: a :: rest) (hnil : IsNil a ∨ IsNil b) :
    execInstr ctx .matches arg s = .ok { s with stack := .bool false :: rest } ∧
    execInstr ctx .contains arg s = .ok { s with stack := .bool false :: rest } ∧
    execInstr ctx .startsWith arg s = .ok { s with stack := .bool false :: rest } ∧
    execInstr ctx .endsWith arg s = .ok { s with stack := .bool false :: rest } := by
  refine ⟨?_, ?_, ?_, ?_⟩ <;>
    rcases hnil with h | h <;>
      simp [execInstr, VMState.popE, VMState.push, bind, Except.bind, hstack, h]

/-- `optimizer.sumArrayFold` on an array of length ≥ 2 produces exactly the
spec's right fold. -/
theorem sumArrayFold_eq (a : Node) (rest : List Node) (h : rest ≠ []) :
    sumArrayFold (a :: rest) = some (specRightFoldSum a rest) := by
  induction rest generalizing a with
  | nil => exact absurd rfl h
  | cons b rest2 ih =>
    cases rest2 with
    | nil => simp [sumArrayFold, specRightFoldSum]
    | cons c rest3 =>
      have hb := ih b (by simp)
      simp only [sumArrayFold, specRightFoldSum] at hb ⊢
      rw [hb]

/-- C7: the sum-array patcher rewrites every call `sum([e1, …, en])` whose
single argument is a literal array of length `n ≥ 2` into the right-folded
nested addition `e1 + (e2 + (… + en))`, and leaves every node that is not of
that shape — in particular every other `sum` call — unchanged. -/
theorem c7_sum_array (a : Node) (rest : List Node) (hrest : rest ≠ [])
    (node : Node)
    (hother : ∀ nodes : List Node,
      node = Node.builtin "sum" [Node.array nodes] → nodes.length < 2) :
    sumArrayVisit (.builtin "sum" [.array (a :: rest)]) =
      specRightFoldSum a rest ∧
    sumArrayVisit node = node := by
  constructor
  · have hlen : 2 ≤ (a :: rest).length := by
      cases rest
      · exact absurd rfl hrest
      · simp
    simp only [sumArrayVisit, hlen, if_true, sumArrayFold_eq a rest hrest]
  · unfold sumArrayVisit
    split
    · rename_i nodes
      rw [if_neg]
      have := hother nodes rfl
      omega
    · rfl

/-- Witness for C7: `sum([1, 2, 3])` folds to `1 + (2 + 3)`, while
`sum([5])` (array shorter than 2) is left unchanged. -/
theorem c7_sum_array_witness :
    sumArrayVisit (.builtin "sum" [.array [.integer 1, .integer 2, .integer 3]]) =
      .binary "+" (.integer 1) (.binary "+" (.integer 2) (.integer 3)) ∧
    sumArrayVisit (.builtin "sum" [.array [.integer 5]]) =
      .builtin "sum" [.array [.integer 5]] := by
  have h := c7_sum_array (.integer 1) [.integer 2, .integer 3] (by simp)
    (.builtin "sum" [.array [.integer 5]])
    (by rintro nodes hn; simp only [Node.builtin.injEq, List.cons.injEq,
      Node.array.injEq, and_true, true_and] at hn; subst hn; simp)
  simpa [specRightFoldSum] using h

/-- `vm.memGrow` panics as soon as the grown counter reaches the budget
(no wrap-around within `uint` range). -/
theorem memGrow_fault (s : VMState) (size : Nat)
    (hlt : s.memory + size < 2 ^ 64) (hb : s.memoryBudget ≤ s.memory + size) :
    s.memGrow size = .error ⟨s.ip, "memory budget exceeded"⟩ := by
  simp only [VMState.memGrow]
  rw [Nat.mod_eq_of_lt hlt]
  simp [hb]

/-- `vm.memGrow` below the budget: the counter accrues exactly `size`. -/
theorem memGrow_ok (s : VMState) (size : Nat)
    (hlt : s.memory + size < 2 ^ 64) (hb : s.memory + size < s.memoryBudget) :
    s.memGrow size = .ok { s with memory := s.memory + size } := by
  simp only [VMState.memGrow]
  rw [Nat.mod_eq_of_lt hlt]
  simp [Nat.not_le.mpr hb]

/-- Go's `uint(n)` of a non-negative in-range `int` is `n` itself. -/
theorem toUIntN_eq (n : Int) (h0 : 0 ≤ n) (hlt : n < 2 ^ 64) :
    toUIntN n = n.toNat := by
  unfold toUIntN
  rw [Int.emod_eq_of_lt h0 (by exact_mod_cast hlt)]

/-- C4: the running allocation counter accrues each allocating opcode's
element count, evaluation fails with the fatal "memory budget exceeded"
error whenever the counter reaches (in particular: exceeds) the budget, and
a zero configured budget is replaced by the default budget. -/
theorem c4_memory_budget :
    (∀ ctx : Ctx, ∀ fuel : Nat, run ctx 0 fuel = run ctx DefaultMemoryBudget fuel) ∧
    0 < DefaultMemoryBudget ∧
    (∀ s : VMState, ∀ size : Nat, s.memory + size < 2 ^ 64 →
      (s.memoryBudget ≤ s.memory + size →
        s.memGrow size = .error ⟨s.ip, "memory budget exceeded"⟩) ∧
      (s.memory + size < s.memoryBudget →
        s.memGrow size = .ok { s with memory := s.memory + size })) ∧
    (∀ ctx s arg, ∀ n : Int, ∀ rest, s.stack = .int n :: rest → 0 ≤ n →
      s.memory + n.toNat < 2 ^ 64 →
      (s.memoryBudget ≤ s.memory + n.toNat →
        execInstr ctx .array arg s = .error ⟨s.ip, "memory budget exceeded"⟩) ∧
      (s.memory + n.toNat < s.memoryBudget → n.toNat ≤ rest.length →
        execInstr ctx .array arg s = .ok { s with
          stack := .array ((rest.take n.toNat).reverse) :: rest.drop n.toNat
          memory := s.memory + n.toNat })) ∧
    (∀ ctx s arg, ∀ n : Int, ∀ rest, s.stack = .int n :: rest → 0 ≤ n →
      s.memory + n.toNat < 2 ^ 64 →
      (s.memoryBudget ≤ s.memory + n.toNat →
        execInstr ctx .map arg s = .error ⟨s.ip, "memory budget exceeded"⟩) ∧
      (∀ m rest2, s.memory + n.toNat < s.memoryBudget →
        buildMap s.ip n.toNat rest [] = .ok (m, rest2) →
        execInstr ctx .map arg s = .ok { s with
          stack := .map m :: rest2
          memory := s.memory + n.toNat })) ∧
    (∀ ctx s arg, ∀ mn mx : Int, ∀ rest,
      s.stack = .int mx :: .int mn :: rest → 0 ≤ mx - mn + 1 →
      s.memory + (mx - mn + 1).toNat < 2 ^ 64 →
      (s.memoryBudget ≤ s.memory + (mx - mn + 1).toNat →
        execInstr ctx .range arg s = .error ⟨s.ip, "memory budget exceeded"⟩) ∧
      (s.memory + (mx - mn + 1).toNat < s.memoryBudget →
        execInstr ctx .range arg s = .ok { s with
          stack := .array (MakeRange mn mx) :: rest
          memory := s.memory + (mx - mn + 1).toNat })) ∧
    (∀ ctx s arg desc arr vals sc scs, s.scopes = sc :: scs →
      sc.acc = .sortAcc desc arr vals → 0 ≤ sc.len →
      s.memory + sc.len.toNat < 2 ^ 64 →
      (s.memoryBudget ≤ s.memory + sc.len.toNat →
        execInstr ctx .sort arg s = .error ⟨s.ip, "memory budget exceeded"⟩) ∧
      (s.memory + sc.len.toNat < s.memoryBudget →
        execInstr ctx .sort arg s = .ok { s with
          stack := .array (ctx.sortImpl desc arr vals) :: s.stack
          memory := s.memory + sc.len.toNat })) := by
  refine ⟨?_, by norm_num [DefaultMemoryBudget], ?_, ?_, ?_, ?_, ?_⟩
  · intro ctx fuel
    simp [run, runWithTrace, DefaultMemoryBudget]
  · intro s size hlt
    exact ⟨fun hb => memGrow_fault s size hlt hb, fun hb => memGrow_ok s size hlt hb⟩
  · intro ctx s arg n rest hstack h0 hlt
    have hn : toUIntN n = n.toNat := toUIntN_eq n h0 (by omega)
    constructor
    · intro hb
      have hg := memGrow_fault { s with stack := rest } n.toNat
        (by simpa using hlt) (by simpa using hb)
      simp [execInstr, VMState.popE, bind, Except.bind, hstack, hn, hg]
    · intro hb hlen
      have hg := memGrow_ok { s with stack := rest } n.toNat
        (by simpa using hlt) (by simpa using hb)
      simp [execInstr, VMState.popE, bind, Except.bind, hstack, hn, hg,
        Int.not_lt.mpr h0, hlen]
  · intro ctx s arg n rest hstack h0 hlt
    have hn : toUIntN n = n.toNat := toUIntN_eq n h0 (by omega)
    constructor
    · intro hb
      have hg := memGrow_fault { s with stack := rest } n.toNat
        (by simpa using hlt) (by simpa using hb)
      simp [execInstr, VMState.popE, bind, Except.bind, hstack, hn, hg]
    · intro m rest2 hb hbuild
      have hg := memGrow_ok { s with stack := rest } n.toNat
        (by simpa using hlt) (by simpa using hb)
      simp [execInstr, VMState.popE, bind, Except.bind, hstack, hn, hg, hbuild]
  · intro ctx s arg mn mx rest hstack h0 hlt
    have hsz : (if mx - mn + 1 ≤ 0 then 0 else mx - mn + 1) = mx - mn + 1 := by
      omega
    have hn : toUIntN (mx - mn + 1) = (mx - mn + 1).toNat :=
      toUIntN_eq _ h0 (by omega)
    constructor
    · intro hb
      have hg := memGrow_fault { s with stack := rest } (mx - mn + 1).toNat
        (by simpa using hlt) (by simpa using hb)
      simp [execInstr, VMState.popE, bind, Except.bind, hstack, liftRt, ToInt,
        hsz, hn, hg]
    · intro hb
      have hg := memGrow_ok { s with stack := rest } (mx - mn + 1).toNat
        (by simpa using hlt) (by simpa using hb)
      simp [execInstr, VMState.popE, bind, Except.bind, hstack, liftRt, ToInt,
        hsz, hn, hg, VMState.push]
  · intro ctx s arg desc arr vals sc scs hsc hacc h0 hlt
    have hn : toUIntN sc.len = sc.len.toNat := toUIntN_eq _ h0 (by omega)
    constructor
    · intro hb
      have hg := memGrow_fault s sc.len.toNat hlt hb
      simp [execInstr, VMState.scopeE, bind, Except.bind, hsc, hacc, hn, hg]
    · intro hb
      have hg := memGrow_ok s sc.len.toNat hlt hb
      simp [execInstr, VMState.scopeE, bind, Except.bind, hsc, hacc, hn, hg,
        VMState.push]

/-- Witness for C4: with budget 3, allocating a 5-element array panics with
the fatal memory-budget error. -/
theorem c4_memory_budget_witness :
    VMState.memGrow ⟨[], [], 0, 3, 7⟩ 5 = .error ⟨7, "memory budget exceeded"⟩ := by
  have h := ((c4_memory_budget.2.2.1 ⟨[], [], 0, 3, 7⟩ 5 (by norm_num)).1 (by norm_num))
  simpa using h

/-- One successful fetch-decode-execute step of the interpreter loop. -/
theorem runTrace_step (ctx : Ctx) (fuel fuel' : Nat) (s s' : VMState)
    (op : Op) (arg : Int)
    (hfuel : fuel = fuel' + 1)
    (hip : 0 ≤ s.ip) (hlt : s.ip.toNat < ctx.prog.bytecode.length)
    (hop : ctx.prog.bytecode.get ⟨s.ip.toNat, hlt⟩ = op)
    (harg : ctx.prog.arguments.get? s.ip.toNat = some arg)
    (hexec : execInstr ctx op arg { s with ip := s.ip + 1 } = .ok s') :
    runTrace ctx fuel s =
      ((obsOf s.ip s) :: (runTrace ctx fuel' s').1,
        (runTrace ctx fuel' s').2) := by
  subst hfuel
  have hnd : ¬ ((ctx.prog.bytecode.length : Int) ≤ s.ip) := by omega
  simp only [runTrace]
  rw [if_neg hnd, dif_pos (And.intro hip hlt), harg, hop]
  simp only [hexec]

/-- A fetch-decode-execute step whose instruction body panics: the loop
stops with the fault, the trace ending at the faulting instruction. -/
theorem runTrace_step_fault (ctx : Ctx) (fuel fuel' : Nat) (s : VMState)
    (op : Op) (arg : Int) (f : Fault)
    (hfuel : fuel = fuel' + 1)
    (hip : 0 ≤ s.ip) (hlt : s.ip.toNat < ctx.prog.bytecode.length)
    (hop : ctx.prog.bytecode.get ⟨s.ip.toNat, hlt⟩ = op)
    (harg : ctx.prog.arguments.get? s.ip.toNat = some arg)
    (hexec : execInstr ctx op arg { s with ip := s.ip + 1 } = .error f) :
    runTrace ctx fuel s = ([obsOf s.ip s], .fault f) := by
  subst hfuel
  have hnd : ¬ ((ctx.prog.bytecode.length : Int) ≤ s.ip) := by omega
  simp only [runTrace]
  rw [if_neg hnd, dif_pos (And.intro hip hlt), harg, hop]
  simp only [hexec]

/-- Normal loop exit: the instruction pointer has run past the end. -/
theorem runTrace_done (ctx : Ctx) (fuel fuel' : Nat) (s : VMState)
    (hfuel : fuel = fuel' + 1)
    (hip : (ctx.prog.bytecode.length : Int) ≤ s.ip) :
    runTrace ctx fuel s = ([], .ok s) := by
  subst hfuel
  simp only [runTrace]
  rw [if_pos hip]

/-- Ascending-loop invariant for the `emitLoop` template (compiled as
`forwardLoopProgram`): from the loop head (`JumpIfEnd`, instruction 1) with
frame index `i` where `i + k = n`, the loop performs `k` more passes, the
body (instruction 2) observing the frame indices `i, i+1, …, n-1` in that
order, then pops the frame and halts. -/
theorem forwardLoop_visits (env : List (String × Value))
    (rm : String → String → Except String Bool)
    (si : Bool → List Value → List Value → List Value)
    (P : Program) (hPf : P = forwardLoopProgram)
    (xs : List Value) (k : Nat) :
    ∀ i : Nat, i + k = xs.length →
    ∀ st scs cnt acc mem bud,
    ∃ t, runTrace ⟨P, env, rm, si⟩ (5 * k + 3)
        ⟨st, ⟨xs, xs.length, (i : Int), cnt, acc⟩ :: scs, mem, bud, 1⟩ =
        (t, .ok ⟨st, scs, mem, bud, 7⟩) ∧
      (t.filter (fun o => o.1 = 2)).map Prod.snd =
        (List.range' i k).map Int.ofNat := by
  have hP : P = ⟨[.begin, .jumpIfEnd, .pointer, .pop, .incrementIndex,
      .jumpBackward, .end_], [0, 4, 0, 0, 0, 5, 0], [],
      List.replicate 7 ⟨0, 0⟩⟩ := by rw [hPf]; rfl
  subst hP
  induction k with
  | zero =>
    intro i hik st scs cnt acc mem bud
    refine ⟨[(1, (i : Int)), (6, (i : Int))], ?_, by simp⟩
    rw [runTrace_step ⟨⟨[.begin, .jumpIfEnd, .pointer, .pop, .incrementIndex,
      .jumpBackward, .end_], [0, 4, 0, 0, 0, 5, 0], [],
      List.replicate 7 ⟨0, 0⟩⟩, env, rm, si⟩ (5 * 0 + 3) 2
      ⟨st, ⟨xs, xs.length, (i : Int), cnt, acc⟩ :: scs, mem, bud, 1⟩
      ⟨st, ⟨xs, xs.length, (i : Int), cnt, acc⟩ :: scs, mem, bud, 6⟩
      .jumpIfEnd 4 (by norm_num) (by simp) (by simp) rfl rfl
      (by simp only [execInstr, VMState.scopeE, bind, Except.bind]
          rw [if_pos (by simp; omega)]
          try norm_num)]
    rw [runTrace_step ⟨⟨[.begin, .jumpIfEnd, .pointer, .pop, .incrementIndex,
      .jumpBackward, .end_], [0, 4, 0, 0, 0, 5, 0], [],
      List.replicate 7 ⟨0, 0⟩⟩, env, rm, si⟩ 2 1
      ⟨st, ⟨xs, xs.length, (i : Int), cnt, acc⟩ :: scs, mem, bud, 6⟩
      ⟨st, scs, mem, bud, 7⟩
      .end_ 0 rfl (by simp) (by simp) rfl rfl
      (by simp [execInstr])]
    rw [runTrace_done ⟨⟨[.begin, .jumpIfEnd, .pointer, .pop, .incrementIndex,
      .jumpBackward, .end_], [0, 4, 0, 0, 0, 5, 0], [],
      List.replicate 7 ⟨0, 0⟩⟩, env, rm, si⟩ 1 0
      ⟨st, scs, mem, bud, 7⟩ rfl (by simp)]
    simp [obsOf]
  | succ k ih =>
    intro i hik st scs cnt acc mem bud
    have hin : i < xs.length := by omega
    obtain ⟨t, ht, hfilter⟩ := ih (i + 1) (by omega) st scs cnt acc mem bud
    have hrun : runTrace ⟨⟨[.begin, .jumpIfEnd, .pointer, .pop, .incrementIndex,
      .jumpBackward, .end_], [0, 4, 0, 0, 0, 5, 0], [],
      List.replicate 7 ⟨0, 0⟩⟩, env, rm, si⟩ (5 * (k + 1) + 3)
        ⟨st, ⟨xs, xs.length, (i : Int), cnt, acc⟩ :: scs, mem, bud, 1⟩ =
        ((1, (i : Int)) :: (2, (i : Int)) :: (3, (i : Int)) :: (4, (i : Int))
            :: (5, ((i + 1 : Nat) : Int)) :: t,
          .ok ⟨st, scs, mem, bud, 7⟩) := by
      rw [runTrace_step ⟨⟨[.begin, .jumpIfEnd, .pointer, .pop, .incrementIndex,
      .jumpBackward, .end_], [0, 4, 0, 0, 0, 5, 0], [],
      List.replicate 7 ⟨0, 0⟩⟩, env, rm, si⟩ (5 * (k + 1) + 3) (5 * k + 7)
        ⟨st, ⟨xs, xs.length, (i : Int), cnt, acc⟩ :: scs, mem, bud, 1⟩
        ⟨st, ⟨xs, xs.length, (i : Int), cnt, acc⟩ :: scs, mem, bud, 2⟩
        .jumpIfEnd 4 (by omega) (by simp) (by simp) rfl rfl
        (by simp only [execInstr, VMState.scopeE, bind, Except.bind]
            rw [if_neg (by simp; omega)]
            try norm_num)]
      rw [runTrace_step ⟨⟨[.begin, .jumpIfEnd, .pointer, .pop, .incrementIndex,
      .jumpBackward, .end_], [0, 4, 0, 0, 0, 5, 0], [],
      List.replicate 7 ⟨0, 0⟩⟩, env, rm, si⟩ (5 * k + 7) (5 * k + 6)
        ⟨st, ⟨xs, xs.length, (i : Int), cnt, acc⟩ :: scs, mem, bud, 2⟩
        ⟨xs.get ⟨i, hin⟩ :: st, ⟨xs, xs.length, (i : Int), cnt, acc⟩ :: scs, mem, bud, 3⟩
        .pointer 0 (by omega) (by simp) (by simp) rfl rfl
        (by simp only [execInstr, VMState.scopeE, bind, Except.bind]
            rw [dif_pos (by constructor <;> simp <;> omega)]
            simp [VMState.push]
            try norm_num)]
      rw [runTrace_step ⟨⟨[.begin, .jumpIfEnd, .pointer, .pop, .incrementIndex,
      .jumpBackward, .end_], [0, 4, 0, 0, 0, 5, 0], [],
      List.replicate 7 ⟨0, 0⟩⟩, env, rm, si⟩ (5 * k + 6) (5 * k + 5)
        ⟨xs.get ⟨i, hin⟩ :: st, ⟨xs, xs.length, (i : Int), cnt, acc⟩ :: scs, mem, bud, 3⟩
        ⟨st, ⟨xs, xs.length, (i : Int), cnt, acc⟩ :: scs, mem, bud, 4⟩
        .pop 0 (by omega) (by simp) (by simp) rfl rfl
        (by simp [execInstr, VMState.popE, bind, Except.bind] <;> norm_num)]
      rw [runTrace_step ⟨⟨[.begin, .jumpIfEnd, .pointer, .pop, .incrementIndex,
      .jumpBackward, .end_], [0, 4, 0, 0, 0, 5, 0], [],
      List.replicate 7 ⟨0, 0⟩⟩, env, rm, si⟩ (5 * k + 5) (5 * k + 4)
        ⟨st, ⟨xs, xs.length, (i : Int), cnt, acc⟩ :: scs, mem, bud, 4⟩
        ⟨st, ⟨xs, xs.length, ((i + 1 : Nat) : Int), cnt, acc⟩ :: scs, mem, bud, 5⟩
        .incrementIndex 0 (by omega) (by simp) (by simp) rfl rfl
        (by simp [execInstr, VMState.scopeE, VMState.setScope, bind,
              Except.bind] <;> push_cast <;> omega)]
      rw [runTrace_step ⟨⟨[.begin, .jumpIfEnd, .pointer, .pop, .incrementIndex,
      .jumpBackward, .end_], [0, 4, 0, 0, 0, 5, 0], [],
      List.replicate 7 ⟨0, 0⟩⟩, env, rm, si⟩ (5 * k + 4) (5 * k + 3)
        ⟨st, ⟨xs, xs.length, ((i + 1 : Nat) : Int), cnt, acc⟩ :: scs, mem, bud, 5⟩
        ⟨st, ⟨xs, xs.length, ((i + 1 : Nat) : Int), cnt, acc⟩ :: scs, mem, bud, 1⟩
        .jumpBackward 5 (by omega) (by simp) (by simp) rfl rfl
        (by simp [execInstr] <;> norm_num)]
      rw [ht]
      simp [obsOf]
    refine ⟨_, hrun, ?_⟩
    rw [List.range'_succ]
    simp [hfilter]

/-- Descending-loop invariant for the `emitLoopBackwards` template
(compiled as `backwardLoopProgram`): from the loop head (instruction 5,
`GetIndex`) with frame index `j - 1`, the loop performs `j` more passes,
the body (instruction 9) observing the frame indices `j-1, j-2, …, 0` in
that order, then pops the frame and halts. -/
theorem backwardLoop_visits (env : List (String × Value))
    (rm : String → String → Except String Bool)
    (si : Bool → List Value → List Value → List Value)
    (P : Program) (hPb : P = backwardLoopProgram)
    (xs : List Value) (j : Nat) :
    j ≤ xs.length →
    ∀ st scs cnt acc mem bud,
    ∃ t fstack, runTrace ⟨P, env, rm, si⟩ (8 * j + 6)
        ⟨st, ⟨xs, xs.length, (j : Int) - 1, cnt, acc⟩ :: scs, mem, bud, 5⟩ =
        (t, .ok ⟨fstack, scs, mem, bud, 14⟩) ∧
      (t.filter (fun o => o.1 = 9)).map Prod.snd =
        ((List.range j).reverse).map Int.ofNat := by
  have hP : P = ⟨[.begin, .getLen, .int, .subtract, .setIndex, .getIndex,
      .int, .moreOrEqual, .jumpIfFalse, .pointer, .pop, .decrementIndex,
      .jumpBackward, .end_],
      [0, 0, 1, 0, 0, 0, 0, 0, 4, 0, 0, 0, 8, 0], [],
      List.replicate 14 ⟨0, 0⟩⟩ := by rw [hPb]; rfl
  subst hP
  induction j with
  | zero =>
    intro hj st scs cnt acc mem bud
    refine ⟨[(5, ((0 : Nat) : Int) - 1), (6, ((0 : Nat) : Int) - 1),
      (7, ((0 : Nat) : Int) - 1), (8, ((0 : Nat) : Int) - 1),
      (13, ((0 : Nat) : Int) - 1)], .bool false :: st, ?_, by simp⟩
    rw [runTrace_step ⟨⟨[.begin, .getLen, .int, .subtract, .setIndex, .getIndex, .int,
      .moreOrEqual, .jumpIfFalse, .pointer, .pop, .decrementIndex,
      .jumpBackward, .end_],
      [0, 0, 1, 0, 0, 0, 0, 0, 4, 0, 0, 0, 8, 0], [],
      List.replicate 14 ⟨0, 0⟩⟩, env, rm, si⟩ (8 * 0 + 6) 5
      ⟨st, ⟨xs, xs.length, ((0 : Nat) : Int) - 1, cnt, acc⟩ :: scs, mem, bud, 5⟩
      ⟨.int (((0 : Nat) : Int) - 1) :: st, ⟨xs, xs.length, ((0 : Nat) : Int) - 1, cnt, acc⟩ :: scs, mem, bud, 6⟩
      .getIndex 0 (by norm_num) (by simp) (by simp) rfl rfl
      (by simp [execInstr, VMState.scopeE, VMState.push, bind, Except.bind])]
    rw [runTrace_step ⟨⟨[.begin, .getLen, .int, .subtract, .setIndex, .getIndex, .int,
      .moreOrEqual, .jumpIfFalse, .pointer, .pop, .decrementIndex,
      .jumpBackward, .end_],
      [0, 0, 1, 0, 0, 0, 0, 0, 4, 0, 0, 0, 8, 0], [],
      List.replicate 14 ⟨0, 0⟩⟩, env, rm, si⟩ 5 4
      ⟨.int (((0 : Nat) : Int) - 1) :: st, ⟨xs, xs.length, ((0 : Nat) : Int) - 1, cnt, acc⟩ :: scs, mem, bud, 6⟩
      ⟨.int 0 :: .int (((0 : Nat) : Int) - 1) :: st, ⟨xs, xs.length, ((0 : Nat) : Int) - 1, cnt, acc⟩ :: scs, mem, bud, 7⟩
      .int 0 rfl (by simp) (by simp) rfl rfl
      (by simp [execInstr, VMState.push])]
    rw [runTrace_step ⟨⟨[.begin, .getLen, .int, .subtract, .setIndex, .getIndex, .int,
      .moreOrEqual, .jumpIfFalse, .pointer, .pop, .decrementIndex,
      .jumpBackward, .end_],
      [0, 0, 1, 0, 0, 0, 0, 0, 4, 0, 0, 0, 8, 0], [],
      List.replicate 14 ⟨0, 0⟩⟩, env, rm, si⟩ 4 3
      ⟨.int 0 :: .int (((0 : Nat) : Int) - 1) :: st, ⟨xs, xs.length, ((0 : Nat) : Int) - 1, cnt, acc⟩ :: scs, mem, bud, 7⟩
      ⟨.bool false :: st, ⟨xs, xs.length, ((0 : Nat) : Int) - 1, cnt, acc⟩ :: scs, mem, bud, 8⟩
      .moreOrEqual 0 rfl (by simp) (by simp) rfl rfl
      (by simp [execInstr, VMState.popE, VMState.push, MoreOrEqual, liftRt,
        bind, Except.bind])]
    rw [runTrace_step ⟨⟨[.begin, .getLen, .int, .subtract, .setIndex, .getIndex, .int,
      .moreOrEqual, .jumpIfFalse, .pointer, .pop, .decrementIndex,
      .jumpBackward, .end_],
      [0, 0, 1, 0, 0, 0, 0, 0, 4, 0, 0, 0, 8, 0], [],
      List.replicate 14 ⟨0, 0⟩⟩, env, rm, si⟩ 3 2
      ⟨.bool false :: st, ⟨xs, xs.length, ((0 : Nat) : Int) - 1, cnt, acc⟩ :: scs, mem, bud, 8⟩
      ⟨.bool false :: st, ⟨xs, xs.length, ((0 : Nat) : Int) - 1, cnt, acc⟩ :: scs, mem, bud, 13⟩
      .jumpIfFalse 4 rfl (by simp) (by simp) rfl rfl
      (by simp [execInstr, VMState.currentE, bind, Except.bind]
          try norm_num)]
    rw [runTrace_step ⟨⟨[.begin, .getLen, .int, .subtract, .setIndex, .getIndex, .int,
      .moreOrEqual, .jumpIfFalse, .pointer, .pop, .decrementIndex,
      .jumpBackward, .end_],
      [0, 0, 1, 0, 0, 0, 0, 0, 4, 0, 0, 0, 8, 0], [],
      List.replicate 14 ⟨0, 0⟩⟩, env, rm, si⟩ 2 1
      ⟨.bool false :: st, ⟨xs, xs.length, ((0 : Nat) : Int) - 1, cnt, acc⟩ :: scs, mem, bud, 13⟩
      ⟨.bool false :: st, scs, mem, bud, 14⟩
      .end_ 0 rfl (by simp) (by simp) rfl rfl
      (by simp [execInstr])]
    rw [runTrace_done ⟨⟨[.begin, .getLen, .int, .subtract, .setIndex, .getIndex, .int,
      .moreOrEqual, .jumpIfFalse, .pointer, .pop, .decrementIndex,
      .jumpBackward, .end_],
      [0, 0, 1, 0, 0, 0, 0, 0, 4, 0, 0, 0, 8, 0], [],
      List.replicate 14 ⟨0, 0⟩⟩, env, rm, si⟩ 1 0
      ⟨.bool false :: st, scs, mem, bud, 14⟩ rfl (by simp)]
    simp [obsOf]
  | succ j ih =>
    intro hj st scs cnt acc mem bud
    have hjn : j < xs.length := by omega
    obtain ⟨t, fstack, ht, hfilter⟩ :=
      ih (by omega) (.bool true :: st) scs cnt acc mem bud
    have hrun : runTrace ⟨⟨[.begin, .getLen, .int, .subtract, .setIndex, .getIndex, .int,
      .moreOrEqual, .jumpIfFalse, .pointer, .pop, .decrementIndex,
      .jumpBackward, .end_],
      [0, 0, 1, 0, 0, 0, 0, 0, 4, 0, 0, 0, 8, 0], [],
      List.replicate 14 ⟨0, 0⟩⟩, env, rm, si⟩ (8 * (j + 1) + 6)
        ⟨st, ⟨xs, xs.length, ((j + 1 : Nat) : Int) - 1, cnt, acc⟩ :: scs, mem, bud, 5⟩ =
        ((5, ((j + 1 : Nat) : Int) - 1) :: (6, ((j + 1 : Nat) : Int) - 1)
            :: (7, ((j + 1 : Nat) : Int) - 1) :: (8, ((j + 1 : Nat) : Int) - 1)
            :: (9, ((j + 1 : Nat) : Int) - 1) :: (10, ((j + 1 : Nat) : Int) - 1)
            :: (11, ((j + 1 : Nat) : Int) - 1) :: (12, (j : Int) - 1) :: t,
          .ok ⟨fstack, scs, mem, bud, 14⟩) := by
      rw [runTrace_step ⟨⟨[.begin, .getLen, .int, .subtract, .setIndex, .getIndex, .int,
      .moreOrEqual, .jumpIfFalse, .pointer, .pop, .decrementIndex,
      .jumpBackward, .end_],
      [0, 0, 1, 0, 0, 0, 0, 0, 4, 0, 0, 0, 8, 0], [],
      List.replicate 14 ⟨0, 0⟩⟩, env, rm, si⟩ (8 * (j + 1) + 6) (8 * j + 13)
        ⟨st, ⟨xs, xs.length, ((j + 1 : Nat) : Int) - 1, cnt, acc⟩ :: scs, mem, bud, 5⟩
        ⟨.int ((j : Nat) : Int) :: st, ⟨xs, xs.length, ((j + 1 : Nat) : Int) - 1, cnt, acc⟩ :: scs, mem, bud, 6⟩
        .getIndex 0 (by omega) (by simp) (by simp) rfl rfl
        (by simp [execInstr, VMState.scopeE, VMState.push, bind,
              Except.bind] <;> omega)]
      rw [runTrace_step ⟨⟨[.begin, .getLen, .int, .subtract, .setIndex, .getIndex, .int,
      .moreOrEqual, .jumpIfFalse, .pointer, .pop, .decrementIndex,
      .jumpBackward, .end_],
      [0, 0, 1, 0, 0, 0, 0, 0, 4, 0, 0, 0, 8, 0], [],
      List.replicate 14 ⟨0, 0⟩⟩, env, rm, si⟩ (8 * j + 13) (8 * j + 12)
        ⟨.int ((j : Nat) : Int) :: st, ⟨xs, xs.length, ((j + 1 : Nat) : Int) - 1, cnt, acc⟩ :: scs, mem, bud, 6⟩
        ⟨.int 0 :: .int ((j : Nat) : Int) :: st, ⟨xs, xs.length, ((j + 1 : Nat) : Int) - 1, cnt, acc⟩ :: scs, mem, bud, 7⟩
        .int 0 (by omega) (by simp) (by simp) rfl rfl
        (by simp [execInstr, VMState.push])]
      rw [runTrace_step ⟨⟨[.begin, .getLen, .int, .subtract, .setIndex, .getIndex, .int,
      .moreOrEqual, .jumpIfFalse, .pointer, .pop, .decrementIndex,
      .jumpBackward, .end_],
      [0, 0, 1, 0, 0, 0, 0, 0, 4, 0, 0, 0, 8, 0], [],
      List.replicate 14 ⟨0, 0⟩⟩, env, rm, si⟩ (8 * j + 12) (8 * j + 11)
        ⟨.int 0 :: .int ((j : Nat) : Int) :: st, ⟨xs, xs.length, ((j + 1 : Nat) : Int) - 1, cnt, acc⟩ :: scs, mem, bud, 7⟩
        ⟨.bool true :: st, ⟨xs, xs.length, ((j + 1 : Nat) : Int) - 1, cnt, acc⟩ :: scs, mem, bud, 8⟩
        .moreOrEqual 0 (by omega) (by simp) (by simp) rfl rfl
        (by simp [execInstr, VMState.popE, VMState.push, MoreOrEqual, liftRt,
              bind, Except.bind] <;> omega)]
      rw [runTrace_step ⟨⟨[.begin, .getLen, .int, .subtract, .setIndex, .getIndex, .int,
      .moreOrEqual, .jumpIfFalse, .pointer, .pop, .decrementIndex,
      .jumpBackward, .end_],
      [0, 0, 1, 0, 0, 0, 0, 0, 4, 0, 0, 0, 8, 0], [],
      List.replicate 14 ⟨0, 0⟩⟩, env, rm, si⟩ (8 * j + 11) (8 * j + 10)
        ⟨.bool true :: st, ⟨xs, xs.length, ((j + 1 : Nat) : Int) - 1, cnt, acc⟩ :: scs, mem, bud, 8⟩
        ⟨.bool true :: st, ⟨xs, xs.length, ((j + 1 : Nat) : Int) - 1, cnt, acc⟩ :: scs, mem, bud, 9⟩
        .jumpIfFalse 4 (by omega) (by simp) (by simp) rfl rfl
        (by simp [execInstr, VMState.currentE, bind, Except.bind]
            try norm_num)]
      rw [runTrace_step ⟨⟨[.begin, .getLen, .int, .subtract, .setIndex, .getIndex, .int,
      .moreOrEqual, .jumpIfFalse, .pointer, .pop, .decrementIndex,
      .jumpBackward, .end_],
      [0, 0, 1, 0, 0, 0, 0, 0, 4, 0, 0, 0, 8, 0], [],
      List.replicate 14 ⟨0, 0⟩⟩, env, rm, si⟩ (8 * j + 10) (8 * j + 9)
        ⟨.bool true :: st, ⟨xs, xs.length, ((j + 1 : Nat) : Int) - 1, cnt, acc⟩ :: scs, mem, bud, 9⟩
        ⟨xs.get ⟨j, hjn⟩ :: .bool true :: st, ⟨xs, xs.length, ((j + 1 : Nat) : Int) - 1, cnt, acc⟩ :: scs, mem, bud, 10⟩
        .pointer 0 (by omega) (by simp) (by simp) rfl rfl
        (by simp only [execInstr, VMState.scopeE, bind, Except.bind]
            rw [dif_pos (by constructor <;> simp <;> omega)]
            simp [VMState.push] <;> omega)]
      rw [runTrace_step ⟨⟨[.begin, .getLen, .int, .subtract, .setIndex, .getIndex, .int,
      .moreOrEqual, .jumpIfFalse, .pointer, .pop, .decrementIndex,
      .jumpBackward, .end_],
      [0, 0, 1, 0, 0, 0, 0, 0, 4, 0, 0, 0, 8, 0], [],
      List.replicate 14 ⟨0, 0⟩⟩, env, rm, si⟩ (8 * j + 9) (8 * j + 8)
        ⟨xs.get ⟨j, hjn⟩ :: .bool true :: st, ⟨xs, xs.length, ((j + 1 : Nat) : Int) - 1, cnt, acc⟩ :: scs, mem, bud, 10⟩
        ⟨.bool true :: st, ⟨xs, xs.length, ((j + 1 : Nat) : Int) - 1, cnt, acc⟩ :: scs, mem, bud, 11⟩
        .pop 0 (by omega) (by simp) (by simp) rfl rfl
        (by simp [execInstr, VMState.popE, bind, Except.bind])]
      rw [runTrace_step ⟨⟨[.begin, .getLen, .int, .subtract, .setIndex, .getIndex, .int,
      .moreOrEqual, .jumpIfFalse, .pointer, .pop, .decrementIndex,
      .jumpBackward, .end_],
      [0, 0, 1, 0, 0, 0, 0, 0, 4, 0, 0, 0, 8, 0], [],
      List.replicate 14 ⟨0, 0⟩⟩, env, rm, si⟩ (8 * j + 8) (8 * j + 7)
        ⟨.bool true :: st, ⟨xs, xs.length, ((j + 1 : Nat) : Int) - 1, cnt, acc⟩ :: scs, mem, bud, 11⟩
        ⟨.bool true :: st, ⟨xs, xs.length, ((j : Nat) : Int) - 1, cnt, acc⟩ :: scs, mem, bud, 12⟩
        .decrementIndex 0 (by omega) (by simp) (by simp) rfl rfl
        (by simp [execInstr, VMState.scopeE, VMState.setScope, bind,
              Except.bind] <;> omega)]
      rw [runTrace_step ⟨⟨[.begin, .getLen, .int, .subtract, .setIndex, .getIndex, .int,
      .moreOrEqual, .jumpIfFalse, .pointer, .pop, .decrementIndex,
      .jumpBackward, .end_],
      [0, 0, 1, 0, 0, 0, 0, 0, 4, 0, 0, 0, 8, 0], [],
      List.replicate 14 ⟨0, 0⟩⟩, env, rm, si⟩ (8 * j + 7) (8 * j + 6)
        ⟨.bool true :: st, ⟨xs, xs.length, ((j : Nat) : Int) - 1, cnt, acc⟩ :: scs, mem, bud, 12⟩
        ⟨.bool true :: st, ⟨xs, xs.length, ((j : Nat) : Int) - 1, cnt, acc⟩ :: scs, mem, bud, 5⟩
        .jumpBackward 8 (by omega) (by simp) (by simp) rfl rfl
        (by simp [execInstr] <;> norm_num)]
      rw [ht]
      simp [obsOf]
    refine ⟨_, fstack, hrun, ?_⟩
    rw [List.range_succ]
    simp [hfilter]

/-- C6: every higher-order builtin's compiled loop iterates its collection
in ascending index order — the frame index starts at 0 (`OpBegin`) and is
incremented each pass — except `findLast`/`findLastIndex`, whose
`emitLoopBackwards` template initialises the index to `length - 1` and
decrements it, iterating in descending order.  Instruction 2 (resp. 9) is
the loop-body start of the forward (resp. backward) template; the map of
frame indices observed there is exactly ascending (resp. descending). -/
theorem c6_iteration_order (env : List (String × Value))
    (rm : String → String → Except String Bool)
    (si : Bool → List Value → List Value → List Value)
    (bud : Nat) (xs : List Value) :
    (∀ name ∈ higherOrderBuiltins,
      usesBackwardLoop name =
        (name == "findLast" || name == "findLastIndex")) ∧
    (∃ t s, runTrace ⟨forwardLoopProgram, env, rm, si⟩ (5 * xs.length + 4)
        ⟨[.array xs], [], 0, bud, 0⟩ = (t, .ok s) ∧
      (t.filter (fun o => o.1 = 2)).map Prod.snd =
        (List.range xs.length).map Int.ofNat) ∧
    (∃ t s, runTrace ⟨backwardLoopProgram, env, rm, si⟩ (8 * xs.length + 11)
        ⟨[.array xs], [], 0, bud, 0⟩ = (t, .ok s) ∧
      (t.filter (fun o => o.1 = 9)).map Prod.snd =
        ((List.range xs.length).reverse).map Int.ofNat) := by
  refine ⟨by decide, ?_, ?_⟩
  · obtain ⟨t, ht, hf⟩ := forwardLoop_visits env rm si forwardLoopProgram rfl
      xs xs.length 0 (by omega) [] [] 0 .nil 0 bud
    refine ⟨(0, 0) :: t, ⟨[], [], 0, bud, 7⟩, ?_, ?_⟩
    · rw [runTrace_step ⟨forwardLoopProgram, env, rm, si⟩ (5 * xs.length + 4) (5 * xs.length + 3)
        ⟨[.array xs], [], 0, bud, 0⟩
        ⟨[], ⟨xs, xs.length, ((0 : Nat) : Int), 0, .nil⟩ :: [], 0, bud, 1⟩
        .begin 0 (by omega) (by norm_num)
        (by show (0 : Int).toNat < 7; norm_num) rfl rfl
        (by simp [execInstr, VMState.popE, bind, Except.bind])]
      rw [ht]
      simp [obsOf]
    · simp [hf, List.range_eq_range']
  · obtain ⟨t, fstack, ht, hf⟩ := backwardLoop_visits env rm si
      backwardLoopProgram rfl xs xs.length (by omega) [] [] 0 .nil 0 bud
    refine ⟨(0, 0) :: (1, 0) :: (2, 0) :: (3, 0) :: (4, 0) :: t,
      ⟨fstack, [], 0, bud, 14⟩, ?_, ?_⟩
    · rw [runTrace_step ⟨backwardLoopProgram, env, rm, si⟩ (8 * xs.length + 11) (8 * xs.length + 10)
        ⟨[.array xs], [], 0, bud, 0⟩
        ⟨[], ⟨xs, xs.length, 0, 0, .nil⟩ :: [], 0, bud, 1⟩
        .begin 0 (by omega) (by norm_num)
        (by show (0 : Int).toNat < 14; norm_num) rfl rfl
        (by simp [execInstr, VMState.popE, bind, Except.bind])]
      rw [runTrace_step ⟨backwardLoopProgram, env, rm, si⟩ (8 * xs.length + 10) (8 * xs.length + 9)
        ⟨[], ⟨xs, xs.length, 0, 0, .nil⟩ :: [], 0, bud, 1⟩
        ⟨[.int (xs.length : Int)], ⟨xs, xs.length, 0, 0, .nil⟩ :: [], 0,
          bud, 2⟩
        .getLen 0 (by omega) (by norm_num)
        (by show (1 : Int).toNat < 14; norm_num) rfl rfl
        (by simp [execInstr, VMState.scopeE, VMState.push, bind, Except.bind])]
      rw [runTrace_step ⟨backwardLoopProgram, env, rm, si⟩ (8 * xs.length + 9) (8 * xs.length + 8)
        ⟨[.int (xs.length : Int)], ⟨xs, xs.length, 0, 0, .nil⟩ :: [], 0,
          bud, 2⟩
        ⟨[.int 1, .int (xs.length : Int)], ⟨xs, xs.length, 0, 0, .nil⟩ :: [],
          0, bud, 3⟩
        .int 1 (by omega) (by norm_num)
        (by show (2 : Int).toNat < 14; norm_num) rfl rfl
        (by simp [execInstr, VMState.push])]
      rw [runTrace_step ⟨backwardLoopProgram, env, rm, si⟩ (8 * xs.length + 8) (8 * xs.length + 7)
        ⟨[.int 1, .int (xs.length : Int)], ⟨xs, xs.length, 0, 0, .nil⟩ :: [],
          0, bud, 3⟩
        ⟨[.int ((xs.length : Int) - 1)], ⟨xs, xs.length, 0, 0, .nil⟩ :: [],
          0, bud, 4⟩
        .subtract 0 (by omega) (by norm_num)
        (by show (3 : Int).toNat < 14; norm_num) rfl rfl
        (by simp [execInstr, VMState.popE, VMState.push, Subtract, liftRt,
          bind, Except.bind])]
      rw [runTrace_step ⟨backwardLoopProgram, env, rm, si⟩ (8 * xs.length + 7) (8 * xs.length + 6)
        ⟨[.int ((xs.length : Int) - 1)], ⟨xs, xs.length, 0, 0, .nil⟩ :: [],
          0, bud, 4⟩
        ⟨[], ⟨xs, xs.length, ((xs.length : Nat) : Int) - 1, 0, .nil⟩ :: [],
          0, bud, 5⟩
        .setIndex 0 (by omega) (by norm_num)
        (by show (4 : Int).toNat < 14; norm_num) rfl rfl
        (by simp [execInstr, VMState.scopeE, VMState.setScope, VMState.popE,
          bind, Except.bind])]
      rw [ht]
      simp [obsOf]
    · simp [hf]

/-- Witness for C6: `findLast` is one of the two backward-iterating
builtins. -/
theorem c6_iteration_order_witness :
    usesBackwardLoop "findLast" =
      ("findLast" == "findLast" || "findLast" == "findLastIndex") :=
  (c6_iteration_order [] (fun _ _ => .ok false) (fun _ arr _ => arr) 0 []).1
    "findLast" (by decide)

/-- C2: for the expression `a?.b.c` compiled against a fast-map environment,
whenever the value of `a` is nil (absent or explicitly nil) — the
environment, the memory budget and the host callbacks being arbitrary — the
whole expression evaluates to nil and no sub-expression of `.b.c` is
evaluated: the executed instructions are exactly the load of `a`, the
recorded `JumpIfNil` (which jumps over both property fetches to the common
landing site), and the landing/nil-replacement tail — never an `OpFetch`. -/
theorem c2_chain_short_circuit (env : List (String × Value))
    (rm : String → String → Except String Bool)
    (si : Bool → List Value → List Value → List Value) (mb : Nat)
    (prog : Program) (ctx : Ctx)
    (hnil : (env.lookup "a").getD .nil = .nil)
    (hprog : prog = compileProgram
      (.chain (.member (.member (.ident "a") (.str "b") true)
        (.str "c") false)))
    (hctx : ctx = ⟨prog, env, rm, si⟩) :
    prog.bytecode = [.loadFast, .jumpIfNil, .push, .fetch, .push, .fetch,
      .jumpIfNotNil, .pop, .nil] ∧
    (runWithTrace ctx mb 6).2 = some (some .nil, none) ∧
    (runWithTrace ctx mb 6).1.map Prod.fst = [0, 1, 6, 7, 8] ∧
    ∀ o ∈ (runWithTrace ctx mb 6).1,
      prog.bytecode.getD o.1.toNat .invalid ≠ .fetch := by
  have hprog' : prog = ⟨[.loadFast, .jumpIfNil, .push, .fetch, .push, .fetch,
      .jumpIfNotNil, .pop, .nil],
      [0, 4, 1, 0, 2, 0, 2, 0, 0],
      [.str "a", .str "b", .str "c"],
      List.replicate 9 ⟨0, 0⟩⟩ := by
    rw [hprog]
    rfl
  clear hprog
  subst hctx
  subst hprog'
  set B := if mb = 0 then DefaultMemoryBudget else mb with hB
  set P : Program := ⟨[.loadFast, .jumpIfNil, .push, .fetch, .push, .fetch,
      .jumpIfNotNil, .pop, .nil],
      [0, 4, 1, 0, 2, 0, 2, 0, 0],
      [.str "a", .str "b", .str "c"],
      List.replicate 9 ⟨0, 0⟩⟩ with hP
  set ctx : Ctx := ⟨P, env, rm, si⟩ with hctx2
  have hrun : runTrace ctx 6 ⟨[], [], 0, B, 0⟩ =
      ([(0, 0), (1, 0), (6, 0), (7, 0), (8, 0)],
        .ok ⟨[.nil], [], 0, B, 9⟩) := by
    rw [runTrace_step ctx 6 5 ⟨[], [], 0, B, 0⟩ ⟨[.nil], [], 0, B, 1⟩
      .loadFast 0 rfl (by norm_num) (by norm_num) rfl rfl
      (by simp [execInstr, constAt, VMState.push, bind, Except.bind, hctx2,
        hP, hnil])]
    rw [runTrace_step ctx 5 4 ⟨[.nil], [], 0, B, 1⟩ ⟨[.nil], [], 0, B, 6⟩
      .jumpIfNil 4 rfl (by norm_num) (by norm_num) rfl rfl
      (by simp [execInstr, VMState.currentE, IsNil, bind, Except.bind])]
    rw [runTrace_step ctx 4 3 ⟨[.nil], [], 0, B, 6⟩ ⟨[.nil], [], 0, B, 7⟩
      .jumpIfNotNil 2 rfl (by norm_num) (by norm_num) rfl rfl
      (by simp [execInstr, VMState.currentE, IsNil, bind, Except.bind])]
    rw [runTrace_step ctx 3 2 ⟨[.nil], [], 0, B, 7⟩ ⟨[], [], 0, B, 8⟩
      .pop 0 rfl (by norm_num) (by norm_num) rfl rfl
      (by simp [execInstr, VMState.popE, bind, Except.bind])]
    rw [runTrace_step ctx 2 1 ⟨[], [], 0, B, 8⟩ ⟨[.nil], [], 0, B, 9⟩
      .nil 0 rfl (by norm_num) (by norm_num) rfl rfl
      (by simp [execInstr, VMState.push])]
    rw [runTrace_done ctx 1 0 ⟨[.nil], [], 0, B, 9⟩ rfl (by simp [hctx2, hP])]
    simp [obsOf]
  refine ⟨by rw [hP], ?_, ?_, ?_⟩
  · simp only [runWithTrace, ← hB, hrun]
  · simp only [runWithTrace, ← hB, hrun]
    rfl
  · intro o ho
    simp only [runWithTrace, ← hB, hrun] at ho
    simp at ho
    rcases ho with h | h | h | h | h <;> subst h <;> decide

/-- Witness for C2: `a?.b.c` with `a` bound to nil in the environment. -/
theorem c2_chain_short_circuit_witness :
    (runWithTrace ⟨compileProgram
        (.chain (.member (.member (.ident "a") (.str "b") true)
          (.str "c") false)),
        [("a", .nil)], fun _ _ => .ok false, fun _ arr _ => arr⟩ 0 6).2 =
      some (some .nil, none) := by
  have h := c2_chain_short_circuit [("a", .nil)]
    (fun _ _ => .ok false) (fun _ arr _ => arr) 0
    (compileProgram (.chain (.member (.member (.ident "a") (.str "b") true)
      (.str "c") false))) _
    rfl rfl rfl
  exact h.2.1

/-- Witness for C10: `nil contains "x"` evaluates to `false`. -/
theorem c10_nil_string_ops_witness :
    execInstr ⟨⟨[], [], [], []⟩, [], fun _ _ => .ok false, fun _ arr _ => arr⟩
        .contains 0 ⟨[.str "x", .nil], [], 0, 10, 1⟩ =
      .ok ⟨[.bool false], [], 0, 10, 1⟩ := by
  have h := (c10_nil_string_ops
    ⟨⟨[], [], [], []⟩, [], fun _ _ => .ok false, fun _ arr _ => arr⟩
    ⟨[.str "x", .nil], [], 0, 10, 1⟩ 0 .nil (.str "x") [] rfl (Or.inl rfl)).2.1
  simpa using h


/-- The `BEq Value` instance is `Value.beq` definitionally. -/
theorem value_beq_unfold (a b : Value) : (a == b) = Value.beq a b := rfl

/-- Short-circuit `&&` on two boolean-valued operands evaluates to their
conjunction. -/
theorem evalNode_and_bool (l r : Node) (x y : Bool)
    (hl : evalNode l = .ok (.bool x)) (hr : evalNode r = .ok (.bool y)) :
    evalNode (.binary "&&" l r) = .ok (.bool (x && y)) := by
  cases x <;> simp [evalNode, hl, hr, bind, Except.bind]

/-- Each of the four comparison operators evaluates to some boolean on
integer-literal operands. -/
theorem evalNode_cmp_int (op : String) (hop : op ∈ ["<", "<=", ">", ">="])
    (a b : Int) :
    ∃ x : Bool,
      evalNode (.binary op (.integer a) (.integer b)) = .ok (.bool x) := by
  simp only [List.mem_cons, List.not_mem_nil, or_false] at hop
  rcases hop with rfl | rfl | rfl | rfl
  · exact ⟨decide (a < b), by simp [evalNode, Less, bind, Except.bind]⟩
  · exact ⟨decide (a ≤ b), by simp [evalNode, LessOrEqual, bind, Except.bind]⟩
  · exact ⟨decide (a > b), by simp [evalNode, More, bind, Except.bind]⟩
  · exact ⟨decide (a ≥ b), by simp [evalNode, MoreOrEqual, bind, Except.bind]⟩

theorem parsePrimary_succ (fuel : Nat) (p : PState) :
    parsePrimary (fuel + 1) p =
      match p.current with
      | .number n =>
        let p := pnext p
        createNode p (some (.integer n))
      | .ident "true" =>
        let p := pnext p
        createNode p (some (.bool true))
      | .ident "false" =>
        let p := pnext p
        createNode p (some (.bool false))
      | .ident "nil" =>
        let p := pnext p
        createNode p (some Node.nil)
      | _ => (perror p "unexpected token", none) := rfl

theorem parseExpression_succ (fuel : Nat) (precedence : Int) (p : PState) :
    parseExpression (fuel + 1) precedence p =
      if p.err ≠ none then (p, none)
      else
        let (p, nodeLeft) := parsePrimary fuel p
        binaryLoop fuel precedence p nodeLeft "" := rfl

theorem binaryLoop_succ (fuel : Nat) (precedence : Int) (p : PState)
    (nodeLeft : Option Node) (prevOperator : String) :
    binaryLoop (fuel + 1) precedence p nodeLeft prevOperator =
      match p.current with
      | .operator opVal =>
        if p.err ≠ none then (p, nodeLeft)
        else
          match binaryTable opVal with
          | some op =>
            if op.prec ≥ precedence then
              let p := pnext p
              if opVal = "|" then (perror p "unexpected token |", none)
              else if prevOperator = "??" ∧ opVal ≠ "??" then
                (perror p
                  "Operator and coalesce expressions cannot be mixed", nodeLeft)
              else if IsComparison opVal then
                let (p, chained) := parseComparison fuel nodeLeft opVal op.prec p
                binaryLoop fuel precedence p chained opVal
              else
                let (p, nodeRight) :=
                  match op.assoc with
                  | .left => parseExpression fuel (op.prec + 1) p
                  | .right => parseExpression fuel op.prec p
                let (p, newLeft) := createBinaryNode p opVal nodeLeft nodeRight
                match newLeft with
                | none => (p, none)
                | some _ => binaryLoop fuel precedence p newLeft opVal
            else (p, nodeLeft)
          | none => (p, nodeLeft)
      | _ => (p, nodeLeft) := rfl

theorem parseComparison_succ (fuel : Nat) (left : Option Node)
    (tokenOp : String) (precedence : Int) (p : PState) :
    parseComparison (fuel + 1) left tokenOp precedence p =
      comparisonChain fuel left tokenOp precedence p none := rfl

theorem comparisonChain_succ (fuel : Nat) (left : Option Node)
    (tokenOp : String) (precedence : Int) (p : PState)
    (rootNode : Option Node) :
    comparisonChain (fuel + 1) left tokenOp precedence p rootNode =
      (let (p, comparator) := parseExpression fuel (precedence + 1) p
       let (p, cmpNode) := createBinaryNode p tokenOp left comparator
       match cmpNode with
       | none => (p, none)
       | some cn =>
         let (p, root) :=
           match rootNode with
           | none => (p, some cn)
           | some r => createNode p (some (.binary "&&" r cn))
         match root with
         | none => (p, none)
         | some _ =>
           let left := comparator
           match p.current with
           | .operator v =>
             if IsComparison v ∧ p.err = none then
               let p := pnext p
               comparisonChain fuel left v precedence p root
             else (p, root)
           | _ => (p, root)) := rfl

/-- One-shot computation of the chained-comparison parse `a op1 b op2 c`
for any two operators from the comparison table row `⟨20, left⟩` that
`IsComparison` accepts: the parse succeeds with six nodes and yields
`(a op1 b) && (b op2 c)` with the shared middle operand. -/
theorem parse_chain (f : Nat) (a b c : Int) (op1 op2 : String)
    (ht1 : binaryTable op1 = some ⟨20, .left⟩)
    (ht2 : binaryTable op2 = some ⟨20, .left⟩)
    (hc1 : IsComparison op1 = true) (hc2 : IsComparison op2 = true)
    (hp1 : op1 ≠ "|") :
    parseTokens none [Tok.number a, Tok.operator op1, Tok.number b,
        Tok.operator op2, Tok.number c, Tok.eof] (f + 9) =
      ((⟨[Tok.number a, Tok.operator op1, Tok.number b, Tok.operator op2, Tok.number c, Tok.eof], 5, Tok.eof, none, none, 6⟩ : PState), some (Node.binary "&&" (Node.binary op1 (Node.integer a) (Node.integer b)) (Node.binary op2 (Node.integer b) (Node.integer c)))) := by
  have h1 : parsePrimary (f+8) (⟨[Tok.number a, Tok.operator op1, Tok.number b, Tok.operator op2, Tok.number c, Tok.eof], 0, Tok.number a, none, none, 0⟩ : PState) = ((⟨[Tok.number a, Tok.operator op1, Tok.number b, Tok.operator op2, Tok.number c, Tok.eof], 1, Tok.operator op1, none, none, 1⟩ : PState), some (Node.integer a)) := rfl
  have h2a : parsePrimary (f+4) (⟨[Tok.number a, Tok.operator op1, Tok.number b, Tok.operator op2, Tok.number c, Tok.eof], 2, Tok.number b, none, none, 1⟩ : PState) = ((⟨[Tok.number a, Tok.operator op1, Tok.number b, Tok.operator op2, Tok.number c, Tok.eof], 3, Tok.operator op2, none, none, 2⟩ : PState), some (Node.integer b)) := rfl
  have h3a : parsePrimary (f+3) (⟨[Tok.number a, Tok.operator op1, Tok.number b, Tok.operator op2, Tok.number c, Tok.eof], 4, Tok.number c, none, none, 3⟩ : PState) = ((⟨[Tok.number a, Tok.operator op1, Tok.number b, Tok.operator op2, Tok.number c, Tok.eof], 5, Tok.eof, none, none, 4⟩ : PState), some (Node.integer c)) := rfl
  have h2b : binaryLoop (f+4) 21 (⟨[Tok.number a, Tok.operator op1, Tok.number b, Tok.operator op2, Tok.number c, Tok.eof], 3, Tok.operator op2, none, none, 2⟩ : PState) (some (Node.integer b)) "" = ((⟨[Tok.number a, Tok.operator op1, Tok.number b, Tok.operator op2, Tok.number c, Tok.eof], 3, Tok.operator op2, none, none, 2⟩ : PState), some (Node.integer b)) := by
    rw [show f+4 = (f+3)+1 from rfl, binaryLoop_succ]
    simp [ht2]
  have h3b : binaryLoop (f+3) 21 (⟨[Tok.number a, Tok.operator op1, Tok.number b, Tok.operator op2, Tok.number c, Tok.eof], 5, Tok.eof, none, none, 4⟩ : PState) (some (Node.integer c)) "" = ((⟨[Tok.number a, Tok.operator op1, Tok.number b, Tok.operator op2, Tok.number c, Tok.eof], 5, Tok.eof, none, none, 4⟩ : PState), some (Node.integer c)) := by
    rw [show f+3 = (f+2)+1 from rfl, binaryLoop_succ]
  have hE2 : parseExpression (f+5) 21 (⟨[Tok.number a, Tok.operator op1, Tok.number b, Tok.operator op2, Tok.number c, Tok.eof], 2, Tok.number b, none, none, 1⟩ : PState) = ((⟨[Tok.number a, Tok.operator op1, Tok.number b, Tok.operator op2, Tok.number c, Tok.eof], 3, Tok.operator op2, none, none, 2⟩ : PState), some (Node.integer b)) := by
    rw [show f+5 = (f+4)+1 from rfl, parseExpression_succ]
    simp [h2a, h2b]
  have hE3 : parseExpression (f+4) 21 (⟨[Tok.number a, Tok.operator op1, Tok.number b, Tok.operator op2, Tok.number c, Tok.eof], 4, Tok.number c, none, none, 3⟩ : PState) = ((⟨[Tok.number a, Tok.operator op1, Tok.number b, Tok.operator op2, Tok.number c, Tok.eof], 5, Tok.eof, none, none, 4⟩ : PState), some (Node.integer c)) := by
    rw [show f+4 = (f+3)+1 from rfl, parseExpression_succ]
    simp [h3a, h3b]
  have hC2 : createBinaryNode (⟨[Tok.number a, Tok.operator op1, Tok.number b, Tok.operator op2, Tok.number c, Tok.eof], 5, Tok.eof, none, none, 4⟩ : PState) op2 (some (Node.integer b)) (some (Node.integer c)) =
      ((⟨[Tok.number a, Tok.operator op1, Tok.number b, Tok.operator op2, Tok.number c, Tok.eof], 5, Tok.eof, none, none, 5⟩ : PState), some (Node.binary op2 (Node.integer b) (Node.integer c))) := rfl
  have hC1 : createBinaryNode (⟨[Tok.number a, Tok.operator op1, Tok.number b, Tok.operator op2, Tok.number c, Tok.eof], 3, Tok.operator op2, none, none, 2⟩ : PState) op1 (some (Node.integer a)) (some (Node.integer b)) =
      ((⟨[Tok.number a, Tok.operator op1, Tok.number b, Tok.operator op2, Tok.number c, Tok.eof], 3, Tok.operator op2, none, none, 3⟩ : PState), some (Node.binary op1 (Node.integer a) (Node.integer b))) := rfl
  have hCh2 : comparisonChain (f+5) (some (Node.integer b)) op2 20 (⟨[Tok.number a, Tok.operator op1, Tok.number b, Tok.operator op2, Tok.number c, Tok.eof], 4, Tok.number c, none, none, 3⟩ : PState) (some (Node.binary op1 (Node.integer a) (Node.integer b))) =
      ((⟨[Tok.number a, Tok.operator op1, Tok.number b, Tok.operator op2, Tok.number c, Tok.eof], 5, Tok.eof, none, none, 6⟩ : PState), some (Node.binary "&&" (Node.binary op1 (Node.integer a) (Node.integer b)) (Node.binary op2 (Node.integer b) (Node.integer c)))) := by
    rw [show f+5 = (f+4)+1 from rfl, comparisonChain_succ]
    simp [hE3, hC2, createNode, checkNodeLimit, DefaultMaxNodes]
  have hCh1 : comparisonChain (f+6) (some (Node.integer a)) op1 20 (⟨[Tok.number a, Tok.operator op1, Tok.number b, Tok.operator op2, Tok.number c, Tok.eof], 2, Tok.number b, none, none, 1⟩ : PState) none =
      ((⟨[Tok.number a, Tok.operator op1, Tok.number b, Tok.operator op2, Tok.number c, Tok.eof], 5, Tok.eof, none, none, 6⟩ : PState), some (Node.binary "&&" (Node.binary op1 (Node.integer a) (Node.integer b)) (Node.binary op2 (Node.integer b) (Node.integer c)))) := by
    rw [show f+6 = (f+5)+1 from rfl, comparisonChain_succ]
    simp [hE2, hC1, hc2, pnext, hCh2]
  have hPC : parseComparison (f+7) (some (Node.integer a)) op1 20 (⟨[Tok.number a, Tok.operator op1, Tok.number b, Tok.operator op2, Tok.number c, Tok.eof], 2, Tok.number b, none, none, 1⟩ : PState) =
      ((⟨[Tok.number a, Tok.operator op1, Tok.number b, Tok.operator op2, Tok.number c, Tok.eof], 5, Tok.eof, none, none, 6⟩ : PState), some (Node.binary "&&" (Node.binary op1 (Node.integer a) (Node.integer b)) (Node.binary op2 (Node.integer b) (Node.integer c)))) := by
    rw [show f+7 = (f+6)+1 from rfl, parseComparison_succ, hCh1]
  have hBL2 : binaryLoop (f+7) 0 (⟨[Tok.number a, Tok.operator op1, Tok.number b, Tok.operator op2, Tok.number c, Tok.eof], 5, Tok.eof, none, none, 6⟩ : PState) (some (Node.binary "&&" (Node.binary op1 (Node.integer a) (Node.integer b)) (Node.binary op2 (Node.integer b) (Node.integer c)))) op1 =
      ((⟨[Tok.number a, Tok.operator op1, Tok.number b, Tok.operator op2, Tok.number c, Tok.eof], 5, Tok.eof, none, none, 6⟩ : PState), some (Node.binary "&&" (Node.binary op1 (Node.integer a) (Node.integer b)) (Node.binary op2 (Node.integer b) (Node.integer c)))) := by
    rw [show f+7 = (f+6)+1 from rfl, binaryLoop_succ]
  have hBL1 : binaryLoop (f+8) 0 (⟨[Tok.number a, Tok.operator op1, Tok.number b, Tok.operator op2, Tok.number c, Tok.eof], 1, Tok.operator op1, none, none, 1⟩ : PState) (some (Node.integer a)) "" = ((⟨[Tok.number a, Tok.operator op1, Tok.number b, Tok.operator op2, Tok.number c, Tok.eof], 5, Tok.eof, none, none, 6⟩ : PState), some (Node.binary "&&" (Node.binary op1 (Node.integer a) (Node.integer b)) (Node.binary op2 (Node.integer b) (Node.integer c)))) := by
    rw [show f+8 = (f+7)+1 from rfl, binaryLoop_succ]
    simp [ht1, hp1, hc1, pnext, hPC, hBL2]
  have hE1 : parseExpression (f+9) 0 (⟨[Tok.number a, Tok.operator op1, Tok.number b, Tok.operator op2, Tok.number c, Tok.eof], 0, Tok.number a, none, none, 0⟩ : PState) = ((⟨[Tok.number a, Tok.operator op1, Tok.number b, Tok.operator op2, Tok.number c, Tok.eof], 5, Tok.eof, none, none, 6⟩ : PState), some (Node.binary "&&" (Node.binary op1 (Node.integer a) (Node.integer b)) (Node.binary op2 (Node.integer b) (Node.integer c)))) := by
    rw [show f+9 = (f+8)+1 from rfl, parseExpression_succ]
    simp [h1, hBL1]
  simp [parseTokens, hE1]


/-- C1 (counterexample): the claim admits `==` as a chaining operator, but
`operator.IsComparison` holds only for `<`, `>`, `>=`, `<=`, so
`parseComparison` is never entered for `==`.  Concretely,
`true == false == false` parses without error as the left association
`(true == false) == false`, which evaluates to `true`, whereas the claim's
right-hand side is the conjunction of `true == false` (i.e. `false`) and
`false == false` (i.e. `true`) — namely `false`: the two sides differ. -/
theorem c1_counterexample :
    (parseTokens none [.ident "true", .operator "==", .ident "false",
        .operator "==", .ident "false", .eof] 30).2 =
      some (.binary "==" (.binary "==" (.bool true) (.bool false))
        (.bool false)) ∧
    (parseTokens none [.ident "true", .operator "==", .ident "false",
        .operator "==", .ident "false", .eof] 30).1.err = none ∧
    evalNode (.binary "==" (.binary "==" (.bool true) (.bool false))
        (.bool false)) = .ok (.bool true) ∧
    evalNode (.binary "==" (.bool true) (.bool false)) = .ok (.bool false) ∧
    evalNode (.binary "==" (.bool false) (.bool false)) = .ok (.bool true) ∧
    Value.bool true ≠ Value.bool (false && true) ∧
    IsComparison "==" = false := by
  refine ⟨rfl, rfl, ?_, ?_, ?_, by simp, rfl⟩ <;>
    simp [evalNode, Equal, value_beq_unfold, Value.beq, bind, Except.bind]

/-- C1 (amended): restricted to the operators that `operator.IsComparison`
actually accepts — `<`, `<=`, `>`, `>=` — the chained-comparison law holds:
`a op1 b op2 c` parses (without error) to `(a op1 b) && (b op2 c)` with the
middle operand shared, and the chain evaluates to the conjunction of the
two comparisons. -/
theorem c1_chained_comparison_amended (a b c : Int) (op1 op2 : String)
    (h1 : op1 ∈ ["<", "<=", ">", ">="]) (h2 : op2 ∈ ["<", "<=", ">", ">="]) :
    (parseTokens none [.number a, .operator op1, .number b, .operator op2,
        .number c, .eof] 30).2 =
      some (.binary "&&" (.binary op1 (.integer a) (.integer b))
        (.binary op2 (.integer b) (.integer c))) ∧
    (parseTokens none [.number a, .operator op1, .number b, .operator op2,
        .number c, .eof] 30).1.err = none ∧
    ∃ x y : Bool,
      evalNode (.binary op1 (.integer a) (.integer b)) = .ok (.bool x) ∧
      evalNode (.binary op2 (.integer b) (.integer c)) = .ok (.bool y) ∧
      evalNode (.binary "&&" (.binary op1 (.integer a) (.integer b))
          (.binary op2 (.integer b) (.integer c))) = .ok (.bool (x && y)) := by
  have hm1 := h1
  have hm2 := h2
  simp only [List.mem_cons, List.not_mem_nil, or_false] at hm1 hm2
  have ht1 : binaryTable op1 = some ⟨20, .left⟩ := by
    rcases hm1 with rfl | rfl | rfl | rfl <;> rfl
  have ht2 : binaryTable op2 = some ⟨20, .left⟩ := by
    rcases hm2 with rfl | rfl | rfl | rfl <;> rfl
  have hc1 : IsComparison op1 = true := by
    rcases hm1 with rfl | rfl | rfl | rfl <;> rfl
  have hc2 : IsComparison op2 = true := by
    rcases hm2 with rfl | rfl | rfl | rfl <;> rfl
  have hp1 : op1 ≠ "|" := by
    rcases hm1 with rfl | rfl | rfl | rfl <;> decide
  have hp := parse_chain 21 a b c op1 op2 ht1 ht2 hc1 hc2 hp1
  obtain ⟨x, hx⟩ := evalNode_cmp_int op1 h1 a b
  obtain ⟨y, hy⟩ := evalNode_cmp_int op2 h2 b c
  refine ⟨?_, ?_, x, y, hx, hy,
    evalNode_and_bool (.binary op1 (.integer a) (.integer b))
      (.binary op2 (.integer b) (.integer c)) x y hx hy⟩
  · rw [show (30 : Nat) = 21 + 9 from rfl, hp]
  · rw [show (30 : Nat) = 21 + 9 from rfl, hp]

/-- Witness for the amended C1 at `1 < 2 <= 3`. -/
theorem c1_chained_comparison_amended_witness :
    ("<" ∈ (["<", "<=", ">", ">="] : List String)) ∧
    ("<=" ∈ (["<", "<=", ">", ">="] : List String)) ∧
    ((parseTokens none [.number 1, .operator "<", .number 2, .operator "<=",
        .number 3, .eof] 30).2 =
      some (.binary "&&" (.binary "<" (.integer 1) (.integer 2))
        (.binary "<=" (.integer 2) (.integer 3))) ∧
    (parseTokens none [.number 1, .operator "<", .number 2, .operator "<=",
        .number 3, .eof] 30).1.err = none ∧
    ∃ x y : Bool,
      evalNode (.binary "<" (.integer 1) (.integer 2)) = .ok (.bool x) ∧
      evalNode (.binary "<=" (.integer 2) (.integer 3)) = .ok (.bool y) ∧
      evalNode (.binary "&&" (.binary "<" (.integer 1) (.integer 2))
          (.binary "<=" (.integer 2) (.integer 3))) = .ok (.bool (x && y))) :=
  ⟨by decide, by decide,
    c1_chained_comparison_amended 1 2 3 "<" "<=" (by decide) (by decide)⟩


/-- `parser.next`, written without the intermediate `let`. -/
theorem pnext_eq (p : PState) :
    pnext p =
      if p.tokens.length ≤ p.pos + 1 then
        perror { p with pos := p.pos + 1 } "unexpected end of expression"
      else
        { p with
          pos := p.pos + 1
          current := p.tokens.getD (p.pos + 1) Tok.eof } := rfl

/-- The successor unfolding of `binaryLoop` with the pair destructurings
written as projections (definitionally equal by structure eta). -/
theorem binaryLoop_succP (fuel : Nat) (precedence : Int) (p : PState)
    (nodeLeft : Option Node) (prevOperator : String) :
    binaryLoop (fuel + 1) precedence p nodeLeft prevOperator =
      match p.current with
      | .operator opVal =>
        if p.err ≠ none then (p, nodeLeft)
        else
          match binaryTable opVal with
          | some op =>
            if op.prec ≥ precedence then
              if opVal = "|" then (perror (pnext p) "unexpected token |", none)
              else if prevOperator = "??" ∧ opVal ≠ "??" then
                (perror (pnext p)
                  "Operator and coalesce expressions cannot be mixed", nodeLeft)
              else if IsComparison opVal then
                binaryLoop fuel precedence
                  (parseComparison fuel nodeLeft opVal op.prec (pnext p)).1
                  (parseComparison fuel nodeLeft opVal op.prec (pnext p)).2
                  opVal
              else
                match (createBinaryNode (match op.assoc with
                     | Assoc.left => parseExpression fuel (op.prec + 1) (pnext p)
                     | Assoc.right => parseExpression fuel op.prec (pnext p)).1 opVal nodeLeft (match op.assoc with
                     | Assoc.left => parseExpression fuel (op.prec + 1) (pnext p)
                     | Assoc.right => parseExpression fuel op.prec (pnext p)).2).2 with
                | none => ((createBinaryNode (match op.assoc with
                     | Assoc.left => parseExpression fuel (op.prec + 1) (pnext p)
                     | Assoc.right => parseExpression fuel op.prec (pnext p)).1 opVal nodeLeft (match op.assoc with
                     | Assoc.left => parseExpression fuel (op.prec + 1) (pnext p)
                     | Assoc.right => parseExpression fuel op.prec (pnext p)).2).1, none)
                | some _ =>
                  binaryLoop fuel precedence (createBinaryNode (match op.assoc with
                     | Assoc.left => parseExpression fuel (op.prec + 1) (pnext p)
                     | Assoc.right => parseExpression fuel op.prec (pnext p)).1 opVal nodeLeft (match op.assoc with
                     | Assoc.left => parseExpression fuel (op.prec + 1) (pnext p)
                     | Assoc.right => parseExpression fuel op.prec (pnext p)).2).1 (createBinaryNode (match op.assoc with
                     | Assoc.left => parseExpression fuel (op.prec + 1) (pnext p)
                     | Assoc.right => parseExpression fuel op.prec (pnext p)).1 opVal nodeLeft (match op.assoc with
                     | Assoc.left => parseExpression fuel (op.prec + 1) (pnext p)
                     | Assoc.right => parseExpression fuel op.prec (pnext p)).2).2 opVal
            else (p, nodeLeft)
          | none => (p, nodeLeft)
      | _ => (p, nodeLeft) := rfl

/-- The successor unfolding of `comparisonChain` with the pair
destructurings written as projections (definitionally equal by structure
eta). -/
theorem comparisonChain_succP (fuel : Nat) (left : Option Node)
    (tokenOp : String) (precedence : Int) (p : PState)
    (rootNode : Option Node) :
    comparisonChain (fuel + 1) left tokenOp precedence p rootNode =
      match (createBinaryNode (parseExpression fuel (precedence + 1) p).1 tokenOp left (parseExpression fuel (precedence + 1) p).2).2 with
      | none => ((createBinaryNode (parseExpression fuel (precedence + 1) p).1 tokenOp left (parseExpression fuel (precedence + 1) p).2).1, none)
      | some cn =>
        match (match rootNode with
           | none => ((createBinaryNode (parseExpression fuel (precedence + 1) p).1 tokenOp left (parseExpression fuel (precedence + 1) p).2).1, some cn)
           | some r => createNode (createBinaryNode (parseExpression fuel (precedence + 1) p).1 tokenOp left (parseExpression fuel (precedence + 1) p).2).1 (some (Node.binary "&&" r cn))).2 with
        | none => ((match rootNode with
           | none => ((createBinaryNode (parseExpression fuel (precedence + 1) p).1 tokenOp left (parseExpression fuel (precedence + 1) p).2).1, some cn)
           | some r => createNode (createBinaryNode (parseExpression fuel (precedence + 1) p).1 tokenOp left (parseExpression fuel (precedence + 1) p).2).1 (some (Node.binary "&&" r cn))).1, none)
        | some _ =>
          match (match rootNode with
           | none => ((createBinaryNode (parseExpression fuel (precedence + 1) p).1 tokenOp left (parseExpression fuel (precedence + 1) p).2).1, some cn)
           | some r => createNode (createBinaryNode (parseExpression fuel (precedence + 1) p).1 tokenOp left (parseExpression fuel (precedence + 1) p).2).1 (some (Node.binary "&&" r cn))).1.current with
          | .operator v =>
            if IsComparison v ∧ (match rootNode with
           | none => ((createBinaryNode (parseExpression fuel (precedence + 1) p).1 tokenOp left (parseExpression fuel (precedence + 1) p).2).1, some cn)
           | some r => createNode (createBinaryNode (parseExpression fuel (precedence + 1) p).1 tokenOp left (parseExpression fuel (precedence + 1) p).2).1 (some (Node.binary "&&" r cn))).1.err = none then
              comparisonChain fuel (parseExpression fuel (precedence + 1) p).2 v precedence (pnext (match rootNode with
           | none => ((createBinaryNode (parseExpression fuel (precedence + 1) p).1 tokenOp left (parseExpression fuel (precedence + 1) p).2).1, some cn)
           | some r => createNode (createBinaryNode (parseExpression fuel (precedence + 1) p).1 tokenOp left (parseExpression fuel (precedence + 1) p).2).1 (some (Node.binary "&&" r cn))).1) (match rootNode with
           | none => ((createBinaryNode (parseExpression fuel (precedence + 1) p).1 tokenOp left (parseExpression fuel (precedence + 1) p).2).1, some cn)
           | some r => createNode (createBinaryNode (parseExpression fuel (precedence + 1) p).1 tokenOp left (parseExpression fuel (precedence + 1) p).2).1 (some (Node.binary "&&" r cn))).2
            else ((match rootNode with
           | none => ((createBinaryNode (parseExpression fuel (precedence + 1) p).1 tokenOp left (parseExpression fuel (precedence + 1) p).2).1, some cn)
           | some r => createNode (createBinaryNode (parseExpression fuel (precedence + 1) p).1 tokenOp left (parseExpression fuel (precedence + 1) p).2).1 (some (Node.binary "&&" r cn))).1, (match rootNode with
           | none => ((createBinaryNode (parseExpression fuel (precedence + 1) p).1 tokenOp left (parseExpression fuel (precedence + 1) p).2).1, some cn)
           | some r => createNode (createBinaryNode (parseExpression fuel (precedence + 1) p).1 tokenOp left (parseExpression fuel (precedence + 1) p).2).1 (some (Node.binary "&&" r cn))).2)
          | _ => ((match rootNode with
           | none => ((createBinaryNode (parseExpression fuel (precedence + 1) p).1 tokenOp left (parseExpression fuel (precedence + 1) p).2).1, some cn)
           | some r => createNode (createBinaryNode (parseExpression fuel (precedence + 1) p).1 tokenOp left (parseExpression fuel (precedence + 1) p).2).1 (some (Node.binary "&&" r cn))).1, (match rootNode with
           | none => ((createBinaryNode (parseExpression fuel (precedence + 1) p).1 tokenOp left (parseExpression fuel (precedence + 1) p).2).1, some cn)
           | some r => createNode (createBinaryNode (parseExpression fuel (precedence + 1) p).1 tokenOp left (parseExpression fuel (precedence + 1) p).2).1 (some (Node.binary "&&" r cn))).2) := rfl
/-- `parser.error` never removes an error: the resulting state always has
one recorded. -/
theorem perror_err (p : PState) (m : String) : (perror p m).err ≠ none := by
  unfold perror
  split <;> simp_all

/-- `parser.error` leaves the configuration unchanged. -/
theorem perror_config (p : PState) (m : String) :
    (perror p m).config = p.config := by
  unfold perror
  split <;> rfl

/-- `parser.error` preserves the node-limit invariant (the error part
becomes vacuous). -/
theorem nodeLimitOk_perror (cfg : Option PConfig) (p : PState) (m : String)
    (h : nodeLimitOk cfg p) : nodeLimitOk cfg (perror p m) :=
  ⟨by rw [perror_config]; exact h.1,
    fun herr => absurd herr (perror_err p m)⟩

/-- `checkNodeLimit` leaves the configuration unchanged. -/
theorem checkNodeLimit_config (p : PState) :
    (checkNodeLimit p).config = p.config := by
  unfold checkNodeLimit
  rcases hcfg : p.config with _ | c <;> simp only [hcfg] <;> split <;>
    simp [perror_config, hcfg]

/-- `checkNodeLimit` establishes the node-limit invariant: either the
bumped counter passes the applicable check, or a fatal error is
recorded. -/
theorem nodeLimitOk_checkNodeLimit (cfg : Option PConfig) (p : PState)
    (hcfg : p.config = cfg) : nodeLimitOk cfg (checkNodeLimit p) := by
  refine ⟨by rw [checkNodeLimit_config]; exact hcfg, fun herr => ?_⟩
  rcases cfg with _ | c
  · by_cases hlt : DefaultMaxNodes < p.nodeCount + 1
    · simp only [checkNodeLimit, hcfg, if_pos hlt] at herr
      exact absurd herr (perror_err _ _)
    · simp only [checkNodeLimit, hcfg, if_neg hlt] at herr ⊢
      omega
  · intro hpos
    by_cases hlt : 0 < c.maxNodes ∧ c.maxNodes < p.nodeCount + 1
    · simp only [checkNodeLimit, hcfg, if_pos hlt] at herr
      exact absurd herr (perror_err _ _)
    · simp only [checkNodeLimit, hcfg, if_neg hlt]
      rw [Classical.not_and_iff_or_not_not] at hlt
      rcases hlt with h | h
      · exact absurd hpos h
      · omega

/-- `createNode` returns the `checkNodeLimit`-bumped state in every
branch. -/
theorem createNode_fst (p : PState) (n : Option Node) :
    (createNode p n).1 = checkNodeLimit p := by
  rcases n with _ | node <;>
    rcases herr : (checkNodeLimit p).err with _ | e <;>
      simp [createNode, herr]

/-- The state component of `createNode` satisfies the invariant. -/
theorem nodeLimitOk_createNode (cfg : Option PConfig) (p : PState)
    (n : Option Node) (hcfg : p.config = cfg) :
    nodeLimitOk cfg (createNode p n).1 := by
  rw [createNode_fst]
  exact nodeLimitOk_checkNodeLimit cfg p hcfg

/-- `createBinaryNode` returns the `checkNodeLimit`-bumped state in every
branch. -/
theorem createBinaryNode_fst (p : PState) (op : String) (l r : Option Node) :
    (createBinaryNode p op l r).1 = checkNodeLimit p := by
  rcases l with _ | ln <;> rcases r with _ | rn <;>
    simp [createBinaryNode, createNode_fst]

/-- The state component of `createBinaryNode` satisfies the invariant. -/
theorem nodeLimitOk_createBinaryNode (cfg : Option PConfig) (p : PState)
    (op : String) (l r : Option Node) (hcfg : p.config = cfg) :
    nodeLimitOk cfg (createBinaryNode p op l r).1 := by
  rw [createBinaryNode_fst]
  exact nodeLimitOk_checkNodeLimit cfg p hcfg

/-- `next` preserves the node-limit invariant. -/
theorem nodeLimitOk_pnext (cfg : Option PConfig) (p : PState)
    (h : nodeLimitOk cfg p) : nodeLimitOk cfg (pnext p) := by
  rw [pnext_eq]
  split
  · exact nodeLimitOk_perror cfg _ _ ⟨h.1, h.2⟩
  · exact ⟨h.1, h.2⟩

/-- The node-limit invariant is preserved by every function of the mutual
parser: no parse ever leaves an error-free state whose node counter
exceeds the applicable limit. -/
theorem parser_inv (cfg : Option PConfig) (fuel : Nat) :
    (∀ p, nodeLimitOk cfg p → nodeLimitOk cfg (parsePrimary fuel p).1) ∧
    (∀ prec p, nodeLimitOk cfg p →
      nodeLimitOk cfg (parseExpression fuel prec p).1) ∧
    (∀ prec p nl prev, nodeLimitOk cfg p →
      nodeLimitOk cfg (binaryLoop fuel prec p nl prev).1) ∧
    (∀ l t pr p, nodeLimitOk cfg p →
      nodeLimitOk cfg (parseComparison fuel l t pr p).1) ∧
    (∀ l t pr p r, nodeLimitOk cfg p →
      nodeLimitOk cfg (comparisonChain fuel l t pr p r).1) := by
  induction fuel with
  | zero =>
    exact ⟨fun p hp => nodeLimitOk_perror cfg _ _ hp,
      fun prec p hp => nodeLimitOk_perror cfg _ _ hp,
      fun prec p nl prev hp => nodeLimitOk_perror cfg _ _ hp,
      fun l t pr p hp => nodeLimitOk_perror cfg _ _ hp,
      fun l t pr p r hp => nodeLimitOk_perror cfg _ _ hp⟩
  | succ f ih =>
    obtain ⟨ih1, ih2, ih3, ih4, ih5⟩ := ih
    refine ⟨fun p hp => ?_, fun prec p hp => ?_, fun prec p nl prev hp => ?_,
      fun l t pr p hp => ?_, fun l t pr p r hp => ?_⟩
    · rw [parsePrimary_succ]
      split <;> first
        | exact nodeLimitOk_createNode cfg _ _ (nodeLimitOk_pnext cfg _ hp).1
        | exact nodeLimitOk_perror cfg _ _ hp
    · rw [parseExpression_succ]
      split
      · exact hp
      · exact ih3 _ _ _ _ (ih1 p hp)
    · rw [binaryLoop_succP]
      repeat' split
      all_goals
        first
        | exact hp
        | exact nodeLimitOk_perror cfg _ _ (nodeLimitOk_pnext cfg _ hp)
        | exact ih3 _ _ _ _ (ih4 _ _ _ _ (nodeLimitOk_pnext cfg _ hp))
        | exact nodeLimitOk_createBinaryNode cfg _ _ _ _
            (ih2 _ _ (nodeLimitOk_pnext cfg _ hp)).1
        | exact ih3 _ _ _ _ (nodeLimitOk_createBinaryNode cfg _ _ _ _
            (ih2 _ _ (nodeLimitOk_pnext cfg _ hp)).1)
    · rw [parseComparison_succ]
      exact ih5 _ _ _ _ _ hp
    · rw [comparisonChain_succP]
      repeat' split
      all_goals
        first
        | exact nodeLimitOk_createBinaryNode cfg _ _ _ _ (ih2 _ _ hp).1
        | exact nodeLimitOk_createNode cfg _ _
            (nodeLimitOk_createBinaryNode cfg _ _ _ _ (ih2 _ _ hp).1).1
        | exact ih5 _ _ _ _ _ (nodeLimitOk_pnext cfg _
            (nodeLimitOk_createBinaryNode cfg _ _ _ _ (ih2 _ _ hp).1))
        | exact ih5 _ _ _ _ _ (nodeLimitOk_pnext cfg _
            (nodeLimitOk_createNode cfg _ _
              (nodeLimitOk_createBinaryNode cfg _ _ _ _ (ih2 _ _ hp).1).1))

/-- The state returned by `ParseWithConfig`, written with projections. -/
theorem parseTokens_fst (config : Option PConfig) (tokens : List Tok)
    (fuel : Nat) :
    (parseTokens config tokens fuel).1 =
      (if (parseExpression fuel 0
            { tokens := tokens, pos := 0, current := tokens.headD .eof,
              err := none, config := config, nodeCount := 0 }).1.current =
          Tok.eof
       then (parseExpression fuel 0
            { tokens := tokens, pos := 0, current := tokens.headD .eof,
              err := none, config := config, nodeCount := 0 }).1
       else perror (parseExpression fuel 0
            { tokens := tokens, pos := 0, current := tokens.headD .eof,
              err := none, config := config, nodeCount := 0 }).1
         "unexpected token") := rfl

/-- The final state of every parse satisfies the node-limit invariant. -/
theorem nodeLimitOk_parseTokens (config : Option PConfig) (tokens : List Tok)
    (fuel : Nat) : nodeLimitOk config (parseTokens config tokens fuel).1 := by
  have hinit : nodeLimitOk config
      { tokens := tokens, pos := 0, current := tokens.headD .eof,
        err := none, config := config, nodeCount := 0 } := by
    refine ⟨rfl, fun _ => ?_⟩
    rcases config with _ | c
    · simp
    · intro hpos
      simp
  rw [parseTokens_fst]
  split
  · exact (parser_inv config fuel).2.1 0 _ hinit
  · exact nodeLimitOk_perror config _ _
      ((parser_inv config fuel).2.1 0 _ hinit)

/-- `perror` leaves the node counter unchanged. -/
theorem perror_nodeCount (p : PState) (m : String) :
    (perror p m).nodeCount = p.nodeCount := by
  unfold perror
  split <;> rfl

/-- `checkNodeLimit` always increments the node counter by one. -/
theorem checkNodeLimit_nodeCount (p : PState) :
    (checkNodeLimit p).nodeCount = p.nodeCount + 1 := by
  unfold checkNodeLimit
  rcases hcfg : p.config with _ | c <;> simp only [hcfg] <;> split <;>
    simp [perror_nodeCount]

/-- C5: `createNode` funnels every AST-node construction through
`checkNodeLimit`, which increments the parser's node counter; with a nil
configuration the default limit of 10,000 nodes applies, with a configured
positive `MaxNodes` that limit applies, and any parse whose final node
count exceeds the applicable limit has recorded a fatal error. -/
theorem c5_node_limit :
    (∀ p : PState, (checkNodeLimit p).nodeCount = p.nodeCount + 1) ∧
    (∀ (p : PState) (n : Option Node),
      ((createNode p n).1).nodeCount = p.nodeCount + 1) ∧
    DefaultMaxNodes = 10000 ∧
    (∀ (tokens : List Tok) (fuel : Nat),
      DefaultMaxNodes < (parseTokens none tokens fuel).1.nodeCount →
      (parseTokens none tokens fuel).1.err ≠ none) ∧
    (∀ cfg : PConfig, 0 < cfg.maxNodes →
      ∀ (tokens : List Tok) (fuel : Nat),
      cfg.maxNodes < (parseTokens (some cfg) tokens fuel).1.nodeCount →
      (parseTokens (some cfg) tokens fuel).1.err ≠ none) := by
  refine ⟨checkNodeLimit_nodeCount,
    fun p n => by rw [createNode_fst, checkNodeLimit_nodeCount], rfl,
    fun tokens fuel hover herr => ?_, fun cfg hpos tokens fuel hover herr => ?_⟩
  · have h := (nodeLimitOk_parseTokens none tokens fuel).2 herr
    simp only at h
    omega
  · have h := (nodeLimitOk_parseTokens (some cfg) tokens fuel).2 herr hpos
    omega

/-- Witness for C5: with a configured limit of 3 nodes, parsing `1+2+3`
(which needs five nodes) exceeds the limit and records an error. -/
theorem c5_node_limit_witness :
    (0 < (⟨3⟩ : PConfig).maxNodes) ∧
    ((⟨3⟩ : PConfig).maxNodes <
      (parseTokens (some ⟨3⟩) [.number 1, .operator "+", .number 2,
        .operator "+", .number 3, .eof] 30).1.nodeCount) ∧
    (parseTokens (some ⟨3⟩) [.number 1, .operator "+", .number 2,
        .operator "+", .number 3, .eof] 30).1.err ≠ none :=
  ⟨by decide, by decide,
    c5_node_limit.2.2.2.2 ⟨3⟩ (by decide)
      [.number 1, .operator "+", .number 2, .operator "+", .number 3, .eof]
      30 (by decide)⟩

/-- Every panic inside the `OpMap` popping loop carries the instruction
pointer it was given. -/
theorem buildMap_fault_ip (ip : Int) :
    ∀ (n : Nat) (st : List Value) (m : List (String × Value)) (f : Fault),
      buildMap ip n st m = .error f → f.ip = ip := by
  intro n
  induction n with
  | zero =>
    intro st m f h
    have h2 : (Except.ok (m, st) : Except Fault _) = .error f := h
    exact Except.noConfusion h2
  | succ k ih =>
    intro st m f h
    rcases st with _ | ⟨v, st1⟩
    · have h2 : (Except.error ⟨ip, "index out of range"⟩ :
          Except Fault (List (String × Value) × List Value)) = .error f := h
      injection h2 with h3
      rw [← h3]
    · rcases st1 with _ | ⟨key, rest⟩
      · have h2 : (Except.error ⟨ip, "index out of range"⟩ :
            Except Fault (List (String × Value) × List Value)) = .error f := h
        injection h2 with h3
        rw [← h3]
      · cases key <;>
          first
          | exact ih _ _ _ h
          | (have h2 : (Except.error ⟨ip, "interface conversion"⟩ :
                Except Fault (List (String × Value) × List Value)) =
                .error f := h
             injection h2 with h3
             rw [← h3])

/-- A pop that panics does so at the state's instruction pointer. -/
theorem popE_fault_ip (s : VMState) (f : Fault) (h : s.popE = .error f) :
    f.ip = s.ip := by
  unfold VMState.popE at h
  split at h
  · exact Except.noConfusion h
  · injection h with h2
    rw [← h2]

/-- A successful pop leaves the instruction pointer unchanged. -/
theorem popE_ok_ip (s : VMState) (a : Value × VMState)
    (h : s.popE = .ok a) : a.2.ip = s.ip := by
  unfold VMState.popE at h
  split at h
  · injection h with h2
    rw [← h2]
  · exact Except.noConfusion h

/-- A peek that panics does so at the state's instruction pointer. -/
theorem currentE_fault_ip (s : VMState) (f : Fault)
    (h : s.currentE = .error f) : f.ip = s.ip := by
  unfold VMState.currentE at h
  split at h
  · exact Except.noConfusion h
  · injection h with h2
    rw [← h2]

/-- A frame read that panics does so at the state's instruction pointer. -/
theorem scopeE_fault_ip (s : VMState) (f : Fault)
    (h : s.scopeE = .error f) : f.ip = s.ip := by
  unfold VMState.scopeE at h
  split at h
  · exact Except.noConfusion h
  · injection h with h2
    rw [← h2]

/-- A constant read that panics does so at the state's instruction
pointer. -/
theorem constAt_fault_ip (ctx : Ctx) (s : VMState) (arg : Int) (f : Fault)
    (h : constAt ctx s arg = .error f) : f.ip = s.ip := by
  unfold constAt at h
  split at h
  · exact Except.noConfusion h
  · injection h with h2
    rw [← h2]

/-- A lifted runtime panic is raised at the state's instruction pointer. -/
theorem liftRt_fault_ip (s : VMState) (r : Except String α) (f : Fault)
    (h : liftRt s r = .error f) : f.ip = s.ip := by
  cases r with
  | ok a => exact Except.noConfusion h
  | error m =>
    have h2 : (Except.error ⟨s.ip, m⟩ : Except Fault α) = .error f := h
    injection h2 with h3
    rw [← h3]

/-- A memory-budget panic is raised at the state's instruction pointer. -/
theorem memGrow_fault_ip (s : VMState) (n : Nat) (f : Fault)
    (h : s.memGrow n = .error f) : f.ip = s.ip := by
  simp only [VMState.memGrow] at h
  split at h
  · injection h with h2
    rw [← h2]
  · exact Except.noConfusion h

/-- A successful memory-counter bump leaves the instruction pointer
unchanged. -/
theorem memGrow_ok_ip (s : VMState) (n : Nat) (s2 : VMState)
    (h : s.memGrow n = .ok s2) : s2.ip = s.ip := by
  simp only [VMState.memGrow] at h
  split at h
  · exact Except.noConfusion h
  · injection h with h2
    rw [← h2]

set_option maxHeartbeats 1600000 in
/-- Every panic raised by an instruction body carries the instruction
pointer of the state the body started from: no opcode moves `vm.ip` before
panicking. -/
theorem execInstr_fault_ip (ctx : Ctx) (op : Op) (arg : Int) (s : VMState)
    (f : Fault) (h : execInstr ctx op arg s = .error f) : f.ip = s.ip := by
  cases op with
  | «invalid» =>
    injection h with h2
    rw [← h2]
  | «push» =>
    simp only [execInstr] at h
    rcases hconst : constAt ctx s arg with fc | c <;>
      simp only [hconst, bind, Except.bind, VMState.popE, VMState.currentE, VMState.scopeE, VMState.push, VMState.setScope] at h <;>
      (repeat' split at h) <;>
      first
      | exact Except.noConfusion h
      | (injection h with h2
         rw [← h2]
         done)
      | (injection h with h2
         rw [← h2]
         exact constAt_fault_ip ctx s arg fc hconst)
      | (injection h with h2
         subst h2
         rename_i heq
         exact liftRt_fault_ip _ _ _ heq)
  | «int» =>
    exact Except.noConfusion h
  | «pop» =>
    simp only [execInstr] at h
    rcases hst : s.stack with _ | ⟨v1, st1⟩ <;>
      simp only [hst, bind, Except.bind, VMState.popE, VMState.currentE, VMState.scopeE, VMState.push, VMState.setScope] at h <;>
      (repeat' split at h) <;>
      first
      | exact Except.noConfusion h
      | (injection h with h2
         rw [← h2]
         done)
      | (injection h with h2
         subst h2
         rename_i heq
         first
         | exact buildMap_fault_ip _ _ _ _ _ heq
         | exact liftRt_fault_ip _ _ _ heq
         | exact memGrow_fault_ip _ _ _ heq)
      | (injection h with h2
         rw [← h2]
         solve_by_elim [buildMap_fault_ip, liftRt_fault_ip, memGrow_fault_ip,
           memGrow_ok_ip, Eq.trans])
      | (injection h with h2
         rw [← h2]
         rename_i v hok x e heq
         exact (buildMap_fault_ip _ _ _ _ _ heq).trans
           ((memGrow_ok_ip _ _ _ hok).trans rfl))
  | «nil» =>
    exact Except.noConfusion h
  | «true_» =>
    exact Except.noConfusion h
  | «false_» =>
    exact Except.noConfusion h
  | «loadFast» =>
    simp only [execInstr] at h
    rcases hconst : constAt ctx s arg with fc | c <;>
      simp only [hconst, bind, Except.bind, VMState.popE, VMState.currentE, VMState.scopeE, VMState.push, VMState.setScope] at h <;>
      (repeat' split at h) <;>
      first
      | exact Except.noConfusion h
      | (injection h with h2
         rw [← h2]
         done)
      | (injection h with h2
         rw [← h2]
         exact constAt_fault_ip ctx s arg fc hconst)
      | (injection h with h2
         subst h2
         rename_i heq
         exact liftRt_fault_ip _ _ _ heq)
  | «loadConst» =>
    simp only [execInstr] at h
    rcases hconst : constAt ctx s arg with fc | c <;>
      simp only [hconst, bind, Except.bind, VMState.popE, VMState.currentE, VMState.scopeE, VMState.push, VMState.setScope] at h <;>
      (repeat' split at h) <;>
      first
      | exact Except.noConfusion h
      | (injection h with h2
         rw [← h2]
         done)
      | (injection h with h2
         rw [← h2]
         exact constAt_fault_ip ctx s arg fc hconst)
      | (injection h with h2
         subst h2
         rename_i heq
         exact liftRt_fault_ip _ _ _ heq)
  | «loadEnv» =>
    exact Except.noConfusion h
  | «fetch» =>
    simp only [execInstr] at h
    rcases hst : s.stack with _ | ⟨v1, _ | ⟨v2, st2⟩⟩ <;>
      simp only [hst, bind, Except.bind, VMState.popE, VMState.currentE, VMState.scopeE, VMState.push, VMState.setScope] at h <;>
      (repeat' split at h) <;>
      first
      | exact Except.noConfusion h
      | (injection h with h2
         rw [← h2]
         done)
      | (injection h with h2
         subst h2
         rename_i heq
         first
         | exact buildMap_fault_ip _ _ _ _ _ heq
         | exact liftRt_fault_ip _ _ _ heq
         | exact memGrow_fault_ip _ _ _ heq)
      | (injection h with h2
         rw [← h2]
         solve_by_elim [buildMap_fault_ip, liftRt_fault_ip, memGrow_fault_ip,
           memGrow_ok_ip, Eq.trans])
      | (injection h with h2
         rw [← h2]
         rename_i v hok x e heq
         exact (buildMap_fault_ip _ _ _ _ _ heq).trans
           ((memGrow_ok_ip _ _ _ hok).trans rfl))
  | «jump» =>
    exact Except.noConfusion h
  | «jumpIfTrue» =>
    simp only [execInstr] at h
    rcases hst : s.stack with _ | ⟨v1, st1⟩ <;>
      simp only [hst, bind, Except.bind, VMState.popE, VMState.currentE, VMState.scopeE, VMState.push, VMState.setScope] at h <;>
      (repeat' split at h) <;>
      first
      | exact Except.noConfusion h
      | (injection h with h2
         rw [← h2]
         done)
      | (injection h with h2
         subst h2
         rename_i heq
         first
         | exact buildMap_fault_ip _ _ _ _ _ heq
         | exact liftRt_fault_ip _ _ _ heq
         | exact memGrow_fault_ip _ _ _ heq)
      | (injection h with h2
         rw [← h2]
         solve_by_elim [buildMap_fault_ip, liftRt_fault_ip, memGrow_fault_ip,
           memGrow_ok_ip, Eq.trans])
      | (injection h with h2
         rw [← h2]
         rename_i v hok x e heq
         exact (buildMap_fault_ip _ _ _ _ _ heq).trans
           ((memGrow_ok_ip _ _ _ hok).trans rfl))
  | «jumpIfFalse» =>
    simp only [execInstr] at h
    rcases hst : s.stack with _ | ⟨v1, st1⟩ <;>
      simp only [hst, bind, Except.bind, VMState.popE, VMState.currentE, VMState.scopeE, VMState.push, VMState.setScope] at h <;>
      (repeat' split at h) <;>
      first
      | exact Except.noConfusion h
      | (injection h with h2
         rw [← h2]
         done)
      | (injection h with h2
         subst h2
         rename_i heq
         first
         | exact buildMap_fault_ip _ _ _ _ _ heq
         | exact liftRt_fault_ip _ _ _ heq
         | exact memGrow_fault_ip _ _ _ heq)
      | (injection h with h2
         rw [← h2]
         solve_by_elim [buildMap_fault_ip, liftRt_fault_ip, memGrow_fault_ip,
           memGrow_ok_ip, Eq.trans])
      | (injection h with h2
         rw [← h2]
         rename_i v hok x e heq
         exact (buildMap_fault_ip _ _ _ _ _ heq).trans
           ((memGrow_ok_ip _ _ _ hok).trans rfl))
  | «jumpIfNil» =>
    simp only [execInstr] at h
    rcases hst : s.stack with _ | ⟨v1, st1⟩ <;>
      simp only [hst, bind, Except.bind, VMState.popE, VMState.currentE, VMState.scopeE, VMState.push, VMState.setScope] at h <;>
      (repeat' split at h) <;>
      first
      | exact Except.noConfusion h
      | (injection h with h2
         rw [← h2]
         done)
      | (injection h with h2
         subst h2
         rename_i heq
         first
         | exact buildMap_fault_ip _ _ _ _ _ heq
         | exact liftRt_fault_ip _ _ _ heq
         | exact memGrow_fault_ip _ _ _ heq)
      | (injection h with h2
         rw [← h2]
         solve_by_elim [buildMap_fault_ip, liftRt_fault_ip, memGrow_fault_ip,
           memGrow_ok_ip, Eq.trans])
      | (injection h with h2
         rw [← h2]
         rename_i v hok x e heq
         exact (buildMap_fault_ip _ _ _ _ _ heq).trans
           ((memGrow_ok_ip _ _ _ hok).trans rfl))
  | «jumpIfNotNil» =>
    simp only [execInstr] at h
    rcases hst : s.stack with _ | ⟨v1, st1⟩ <;>
      simp only [hst, bind, Except.bind, VMState.popE, VMState.currentE, VMState.scopeE, VMState.push, VMState.setScope] at h <;>
      (repeat' split at h) <;>
      first
      | exact Except.noConfusion h
      | (injection h with h2
         rw [← h2]
         done)
      | (injection h with h2
         subst h2
         rename_i heq
         first
         | exact buildMap_fault_ip _ _ _ _ _ heq
         | exact liftRt_fault_ip _ _ _ heq
         | exact memGrow_fault_ip _ _ _ heq)
      | (injection h with h2
         rw [← h2]
         solve_by_elim [buildMap_fault_ip, liftRt_fault_ip, memGrow_fault_ip,
           memGrow_ok_ip, Eq.trans])
      | (injection h with h2
         rw [← h2]
         rename_i v hok x e heq
         exact (buildMap_fault_ip _ _ _ _ _ heq).trans
           ((memGrow_ok_ip _ _ _ hok).trans rfl))
  | «jumpIfEnd» =>
    simp only [execInstr] at h
    rcases hsc : s.scopes with _ | ⟨sc0, scs⟩ <;>
      simp only [hsc, bind, Except.bind, VMState.popE, VMState.currentE, VMState.scopeE, VMState.push, VMState.setScope] at h <;>
      (repeat' split at h) <;>
      first
      | exact Except.noConfusion h
      | (injection h with h2
         rw [← h2]
         done)
      | (injection h with h2
         subst h2
         rename_i heq
         first
         | exact buildMap_fault_ip _ _ _ _ _ heq
         | exact liftRt_fault_ip _ _ _ heq
         | exact memGrow_fault_ip _ _ _ heq)
      | (injection h with h2
         rw [← h2]
         solve_by_elim [buildMap_fault_ip, liftRt_fault_ip, memGrow_fault_ip,
           memGrow_ok_ip, Eq.trans])
      | (injection h with h2
         rw [← h2]
         rename_i v hok x e heq
         exact (buildMap_fault_ip _ _ _ _ _ heq).trans
           ((memGrow_ok_ip _ _ _ hok).trans rfl))
  | «jumpBackward» =>
    exact Except.noConfusion h
  | «equal» =>
    simp only [execInstr] at h
    rcases hst : s.stack with _ | ⟨v1, _ | ⟨v2, st2⟩⟩ <;>
      simp only [hst, bind, Except.bind, VMState.popE, VMState.currentE, VMState.scopeE, VMState.push, VMState.setScope] at h <;>
      (repeat' split at h) <;>
      first
      | exact Except.noConfusion h
      | (injection h with h2
         rw [← h2]
         done)
      | (injection h with h2
         subst h2
         rename_i heq
         first
         | exact buildMap_fault_ip _ _ _ _ _ heq
         | exact liftRt_fault_ip _ _ _ heq
         | exact memGrow_fault_ip _ _ _ heq)
      | (injection h with h2
         rw [← h2]
         solve_by_elim [buildMap_fault_ip, liftRt_fault_ip, memGrow_fault_ip,
           memGrow_ok_ip, Eq.trans])
      | (injection h with h2
         rw [← h2]
         rename_i v hok x e heq
         exact (buildMap_fault_ip _ _ _ _ _ heq).trans
           ((memGrow_ok_ip _ _ _ hok).trans rfl))
  | «not» =>
    simp only [execInstr] at h
    rcases hst : s.stack with _ | ⟨v1, st1⟩ <;>
      simp only [hst, bind, Except.bind, VMState.popE, VMState.currentE, VMState.scopeE, VMState.push, VMState.setScope] at h <;>
      (repeat' split at h) <;>
      first
      | exact Except.noConfusion h
      | (injection h with h2
         rw [← h2]
         done)
      | (injection h with h2
         subst h2
         rename_i heq
         first
         | exact buildMap_fault_ip _ _ _ _ _ heq
         | exact liftRt_fault_ip _ _ _ heq
         | exact memGrow_fault_ip _ _ _ heq)
      | (injection h with h2
         rw [← h2]
         solve_by_elim [buildMap_fault_ip, liftRt_fault_ip, memGrow_fault_ip,
           memGrow_ok_ip, Eq.trans])
      | (injection h with h2
         rw [← h2]
         rename_i v hok x e heq
         exact (buildMap_fault_ip _ _ _ _ _ heq).trans
           ((memGrow_ok_ip _ _ _ hok).trans rfl))
  | «less» =>
    simp only [execInstr] at h
    rcases hst : s.stack with _ | ⟨v1, _ | ⟨v2, st2⟩⟩ <;>
      simp only [hst, bind, Except.bind, VMState.popE, VMState.currentE, VMState.scopeE, VMState.push, VMState.setScope] at h <;>
      (repeat' split at h) <;>
      first
      | exact Except.noConfusion h
      | (injection h with h2
         rw [← h2]
         done)
      | (injection h with h2
         subst h2
         rename_i heq
         first
         | exact buildMap_fault_ip _ _ _ _ _ heq
         | exact liftRt_fault_ip _ _ _ heq
         | exact memGrow_fault_ip _ _ _ heq)
      | (injection h with h2
         rw [← h2]
         solve_by_elim [buildMap_fault_ip, liftRt_fault_ip, memGrow_fault_ip,
           memGrow_ok_ip, Eq.trans])
      | (injection h with h2
         rw [← h2]
         rename_i v hok x e heq
         exact (buildMap_fault_ip _ _ _ _ _ heq).trans
           ((memGrow_ok_ip _ _ _ hok).trans rfl))
  | «more» =>
    simp only [execInstr] at h
    rcases hst : s.stack with _ | ⟨v1, _ | ⟨v2, st2⟩⟩ <;>
      simp only [hst, bind, Except.bind, VMState.popE, VMState.currentE, VMState.scopeE, VMState.push, VMState.setScope] at h <;>
      (repeat' split at h) <;>
      first
      | exact Except.noConfusion h
      | (injection h with h2
         rw [← h2]
         done)
      | (injection h with h2
         subst h2
         rename_i heq
         first
         | exact buildMap_fault_ip _ _ _ _ _ heq
         | exact liftRt_fault_ip _ _ _ heq
         | exact memGrow_fault_ip _ _ _ heq)
      | (injection h with h2
         rw [← h2]
         solve_by_elim [buildMap_fault_ip, liftRt_fault_ip, memGrow_fault_ip,
           memGrow_ok_ip, Eq.trans])
      | (injection h with h2
         rw [← h2]
         rename_i v hok x e heq
         exact (buildMap_fault_ip _ _ _ _ _ heq).trans
           ((memGrow_ok_ip _ _ _ hok).trans rfl))
  | «lessOrEqual» =>
    simp only [execInstr] at h
    rcases hst : s.stack with _ | ⟨v1, _ | ⟨v2, st2⟩⟩ <;>
      simp only [hst, bind, Except.bind, VMState.popE, VMState.currentE, VMState.scopeE, VMState.push, VMState.setScope] at h <;>
      (repeat' split at h) <;>
      first
      | exact Except.noConfusion h
      | (injection h with h2
         rw [← h2]
         done)
      | (injection h with h2
         subst h2
         rename_i heq
         first
         | exact buildMap_fault_ip _ _ _ _ _ heq
         | exact liftRt_fault_ip _ _ _ heq
         | exact memGrow_fault_ip _ _ _ heq)
      | (injection h with h2
         rw [← h2]
         solve_by_elim [buildMap_fault_ip, liftRt_fault_ip, memGrow_fault_ip,
           memGrow_ok_ip, Eq.trans])
      | (injection h with h2
         rw [← h2]
         rename_i v hok x e heq
         exact (buildMap_fault_ip _ _ _ _ _ heq).trans
           ((memGrow_ok_ip _ _ _ hok).trans rfl))
  | «moreOrEqual» =>
    simp only [execInstr] at h
    rcases hst : s.stack with _ | ⟨v1, _ | ⟨v2, st2⟩⟩ <;>
      simp only [hst, bind, Except.bind, VMState.popE, VMState.currentE, VMState.scopeE, VMState.push, VMState.setScope] at h <;>
      (repeat' split at h) <;>
      first
      | exact Except.noConfusion h
      | (injection h with h2
         rw [← h2]
         done)
      | (injection h with h2
         subst h2
         rename_i heq
         first
         | exact buildMap_fault_ip _ _ _ _ _ heq
         | exact liftRt_fault_ip _ _ _ heq
         | exact memGrow_fault_ip _ _ _ heq)
      | (injection h with h2
         rw [← h2]
         solve_by_elim [buildMap_fault_ip, liftRt_fault_ip, memGrow_fault_ip,
           memGrow_ok_ip, Eq.trans])
      | (injection h with h2
         rw [← h2]
         rename_i v hok x e heq
         exact (buildMap_fault_ip _ _ _ _ _ heq).trans
           ((memGrow_ok_ip _ _ _ hok).trans rfl))
  | «subtract» =>
    simp only [execInstr] at h
    rcases hst : s.stack with _ | ⟨v1, _ | ⟨v2, st2⟩⟩ <;>
      simp only [hst, bind, Except.bind, VMState.popE, VMState.currentE, VMState.scopeE, VMState.push, VMState.setScope] at h <;>
      (repeat' split at h) <;>
      first
      | exact Except.noConfusion h
      | (injection h with h2
         rw [← h2]
         done)
      | (injection h with h2
         subst h2
         rename_i heq
         first
         | exact buildMap_fault_ip _ _ _ _ _ heq
         | exact liftRt_fault_ip _ _ _ heq
         | exact memGrow_fault_ip _ _ _ heq)
      | (injection h with h2
         rw [← h2]
         solve_by_elim [buildMap_fault_ip, liftRt_fault_ip, memGrow_fault_ip,
           memGrow_ok_ip, Eq.trans])
      | (injection h with h2
         rw [← h2]
         rename_i v hok x e heq
         exact (buildMap_fault_ip _ _ _ _ _ heq).trans
           ((memGrow_ok_ip _ _ _ hok).trans rfl))
  | «matches» =>
    simp only [execInstr] at h
    rcases hst : s.stack with _ | ⟨v1, _ | ⟨v2, st2⟩⟩ <;>
      simp only [hst, bind, Except.bind, VMState.popE, VMState.currentE, VMState.scopeE, VMState.push, VMState.setScope] at h <;>
      (repeat' split at h) <;>
      first
      | exact Except.noConfusion h
      | (injection h with h2
         rw [← h2]
         done)
      | (injection h with h2
         subst h2
         rename_i heq
         first
         | exact buildMap_fault_ip _ _ _ _ _ heq
         | exact liftRt_fault_ip _ _ _ heq
         | exact memGrow_fault_ip _ _ _ heq)
      | (injection h with h2
         rw [← h2]
         solve_by_elim [buildMap_fault_ip, liftRt_fault_ip, memGrow_fault_ip,
           memGrow_ok_ip, Eq.trans])
      | (injection h with h2
         rw [← h2]
         rename_i v hok x e heq
         exact (buildMap_fault_ip _ _ _ _ _ heq).trans
           ((memGrow_ok_ip _ _ _ hok).trans rfl))
  | «contains» =>
    simp only [execInstr] at h
    rcases hst : s.stack with _ | ⟨v1, _ | ⟨v2, st2⟩⟩ <;>
      simp only [hst, bind, Except.bind, VMState.popE, VMState.currentE, VMState.scopeE, VMState.push, VMState.setScope] at h <;>
      (repeat' split at h) <;>
      first
      | exact Except.noConfusion h
      | (injection h with h2
         rw [← h2]
         done)
      | (injection h with h2
         subst h2
         rename_i heq
         first
         | exact buildMap_fault_ip _ _ _ _ _ heq
         | exact liftRt_fault_ip _ _ _ heq
         | exact memGrow_fault_ip _ _ _ heq)
      | (injection h with h2
         rw [← h2]
         solve_by_elim [buildMap_fault_ip, liftRt_fault_ip, memGrow_fault_ip,
           memGrow_ok_ip, Eq.trans])
      | (injection h with h2
         rw [← h2]
         rename_i v hok x e heq
         exact (buildMap_fault_ip _ _ _ _ _ heq).trans
           ((memGrow_ok_ip _ _ _ hok).trans rfl))
  | «startsWith» =>
    simp only [execInstr] at h
    rcases hst : s.stack with _ | ⟨v1, _ | ⟨v2, st2⟩⟩ <;>
      simp only [hst, bind, Except.bind, VMState.popE, VMState.currentE, VMState.scopeE, VMState.push, VMState.setScope] at h <;>
      (repeat' split at h) <;>
      first
      | exact Except.noConfusion h
      | (injection h with h2
         rw [← h2]
         done)
      | (injection h with h2
         subst h2
         rename_i heq
         first
         | exact buildMap_fault_ip _ _ _ _ _ heq
         | exact liftRt_fault_ip _ _ _ heq
         | exact memGrow_fault_ip _ _ _ heq)
      | (injection h with h2
         rw [← h2]
         solve_by_elim [buildMap_fault_ip, liftRt_fault_ip, memGrow_fault_ip,
           memGrow_ok_ip, Eq.trans])
      | (injection h with h2
         rw [← h2]
         rename_i v hok x e heq
         exact (buildMap_fault_ip _ _ _ _ _ heq).trans
           ((memGrow_ok_ip _ _ _ hok).trans rfl))
  | «endsWith» =>
    simp only [execInstr] at h
    rcases hst : s.stack with _ | ⟨v1, _ | ⟨v2, st2⟩⟩ <;>
      simp only [hst, bind, Except.bind, VMState.popE, VMState.currentE, VMState.scopeE, VMState.push, VMState.setScope] at h <;>
      (repeat' split at h) <;>
      first
      | exact Except.noConfusion h
      | (injection h with h2
         rw [← h2]
         done)
      | (injection h with h2
         subst h2
         rename_i heq
         first
         | exact buildMap_fault_ip _ _ _ _ _ heq
         | exact liftRt_fault_ip _ _ _ heq
         | exact memGrow_fault_ip _ _ _ heq)
      | (injection h with h2
         rw [← h2]
         solve_by_elim [buildMap_fault_ip, liftRt_fault_ip, memGrow_fault_ip,
           memGrow_ok_ip, Eq.trans])
      | (injection h with h2
         rw [← h2]
         rename_i v hok x e heq
         exact (buildMap_fault_ip _ _ _ _ _ heq).trans
           ((memGrow_ok_ip _ _ _ hok).trans rfl))
  | «slice» =>
    simp only [execInstr] at h
    rcases hst : s.stack with _ | ⟨v1, _ | ⟨v2, _ | ⟨v3, st3⟩⟩⟩ <;>
      simp only [hst, bind, Except.bind, VMState.popE, VMState.currentE, VMState.scopeE, VMState.push, VMState.setScope] at h <;>
      (repeat' split at h) <;>
      first
      | exact Except.noConfusion h
      | (injection h with h2
         rw [← h2]
         done)
      | (injection h with h2
         subst h2
         rename_i heq
         first
         | exact buildMap_fault_ip _ _ _ _ _ heq
         | exact liftRt_fault_ip _ _ _ heq
         | exact memGrow_fault_ip _ _ _ heq)
      | (injection h with h2
         rw [← h2]
         solve_by_elim [buildMap_fault_ip, liftRt_fault_ip, memGrow_fault_ip,
           memGrow_ok_ip, Eq.trans])
      | (injection h with h2
         rw [← h2]
         rename_i v hok x e heq
         exact (buildMap_fault_ip _ _ _ _ _ heq).trans
           ((memGrow_ok_ip _ _ _ hok).trans rfl))
  | «array» =>
    simp only [execInstr] at h
    rcases hst : s.stack with _ | ⟨v1, st1⟩ <;>
      simp only [hst, bind, Except.bind, VMState.popE, VMState.currentE, VMState.scopeE, VMState.push, VMState.setScope] at h <;>
      (repeat' split at h) <;>
      first
      | exact Except.noConfusion h
      | (injection h with h2
         rw [← h2]
         done)
      | (injection h with h2
         subst h2
         rename_i heq
         first
         | exact buildMap_fault_ip _ _ _ _ _ heq
         | exact liftRt_fault_ip _ _ _ heq
         | exact memGrow_fault_ip _ _ _ heq)
      | (injection h with h2
         rw [← h2]
         solve_by_elim [buildMap_fault_ip, liftRt_fault_ip, memGrow_fault_ip,
           memGrow_ok_ip, Eq.trans])
      | (injection h with h2
         rw [← h2]
         rename_i v hok x e heq
         exact (buildMap_fault_ip _ _ _ _ _ heq).trans
           ((memGrow_ok_ip _ _ _ hok).trans rfl))
  | «map» =>
    simp only [execInstr] at h
    rcases hst : s.stack with _ | ⟨v1, st1⟩ <;>
      simp only [hst, bind, Except.bind, VMState.popE, VMState.currentE, VMState.scopeE, VMState.push, VMState.setScope] at h <;>
      (repeat' split at h) <;>
      first
      | exact Except.noConfusion h
      | (injection h with h2
         rw [← h2]
         done)
      | (injection h with h2
         subst h2
         rename_i heq
         first
         | exact buildMap_fault_ip _ _ _ _ _ heq
         | exact liftRt_fault_ip _ _ _ heq
         | exact memGrow_fault_ip _ _ _ heq)
      | (injection h with h2
         rw [← h2]
         solve_by_elim [buildMap_fault_ip, liftRt_fault_ip, memGrow_fault_ip,
           memGrow_ok_ip, Eq.trans])
      | (injection h with h2
         rw [← h2]
         rename_i v hok x e heq
         exact (buildMap_fault_ip _ _ _ _ _ heq).trans
           ((memGrow_ok_ip _ _ _ hok).trans rfl))
  | «range» =>
    simp only [execInstr] at h
    rcases hst : s.stack with _ | ⟨v1, _ | ⟨v2, st2⟩⟩ <;>
      simp only [hst, bind, Except.bind, VMState.popE, VMState.currentE, VMState.scopeE, VMState.push, VMState.setScope] at h <;>
      (repeat' split at h) <;>
      first
      | exact Except.noConfusion h
      | (injection h with h2
         rw [← h2]
         done)
      | (injection h with h2
         subst h2
         rename_i heq
         first
         | exact buildMap_fault_ip _ _ _ _ _ heq
         | exact liftRt_fault_ip _ _ _ heq
         | exact memGrow_fault_ip _ _ _ heq)
      | (injection h with h2
         rw [← h2]
         solve_by_elim [buildMap_fault_ip, liftRt_fault_ip, memGrow_fault_ip,
           memGrow_ok_ip, Eq.trans])
      | (injection h with h2
         rw [← h2]
         rename_i v hok x e heq
         exact (buildMap_fault_ip _ _ _ _ _ heq).trans
           ((memGrow_ok_ip _ _ _ hok).trans rfl))
  | «len» =>
    simp only [execInstr] at h
    rcases hst : s.stack with _ | ⟨v1, st1⟩ <;>
      simp only [hst, bind, Except.bind, VMState.popE, VMState.currentE, VMState.scopeE, VMState.push, VMState.setScope] at h <;>
      (repeat' split at h) <;>
      first
      | exact Except.noConfusion h
      | (injection h with h2
         rw [← h2]
         done)
      | (injection h with h2
         subst h2
         rename_i heq
         first
         | exact buildMap_fault_ip _ _ _ _ _ heq
         | exact liftRt_fault_ip _ _ _ heq
         | exact memGrow_fault_ip _ _ _ heq)
      | (injection h with h2
         rw [← h2]
         solve_by_elim [buildMap_fault_ip, liftRt_fault_ip, memGrow_fault_ip,
           memGrow_ok_ip, Eq.trans])
      | (injection h with h2
         rw [← h2]
         rename_i v hok x e heq
         exact (buildMap_fault_ip _ _ _ _ _ heq).trans
           ((memGrow_ok_ip _ _ _ hok).trans rfl))
  | «begin» =>
    simp only [execInstr] at h
    rcases hst : s.stack with _ | ⟨v1, st1⟩ <;>
      simp only [hst, bind, Except.bind, VMState.popE, VMState.currentE, VMState.scopeE, VMState.push, VMState.setScope] at h <;>
      (repeat' split at h) <;>
      first
      | exact Except.noConfusion h
      | (injection h with h2
         rw [← h2]
         done)
      | (injection h with h2
         subst h2
         rename_i heq
         first
         | exact buildMap_fault_ip _ _ _ _ _ heq
         | exact liftRt_fault_ip _ _ _ heq
         | exact memGrow_fault_ip _ _ _ heq)
      | (injection h with h2
         rw [← h2]
         solve_by_elim [buildMap_fault_ip, liftRt_fault_ip, memGrow_fault_ip,
           memGrow_ok_ip, Eq.trans])
      | (injection h with h2
         rw [← h2]
         rename_i v hok x e heq
         exact (buildMap_fault_ip _ _ _ _ _ heq).trans
           ((memGrow_ok_ip _ _ _ hok).trans rfl))
  | «end_» =>
    simp only [execInstr] at h
    rcases hsc : s.scopes with _ | ⟨sc0, scs⟩ <;>
      simp only [hsc, bind, Except.bind, VMState.popE, VMState.currentE, VMState.scopeE, VMState.push, VMState.setScope] at h <;>
      (repeat' split at h) <;>
      first
      | exact Except.noConfusion h
      | (injection h with h2
         rw [← h2]
         done)
      | (injection h with h2
         subst h2
         rename_i heq
         first
         | exact buildMap_fault_ip _ _ _ _ _ heq
         | exact liftRt_fault_ip _ _ _ heq
         | exact memGrow_fault_ip _ _ _ heq)
      | (injection h with h2
         rw [← h2]
         solve_by_elim [buildMap_fault_ip, liftRt_fault_ip, memGrow_fault_ip,
           memGrow_ok_ip, Eq.trans])
      | (injection h with h2
         rw [← h2]
         rename_i v hok x e heq
         exact (buildMap_fault_ip _ _ _ _ _ heq).trans
           ((memGrow_ok_ip _ _ _ hok).trans rfl))
  | «pointer» =>
    simp only [execInstr] at h
    rcases hsc : s.scopes with _ | ⟨sc0, scs⟩ <;>
      simp only [hsc, bind, Except.bind, VMState.popE, VMState.currentE, VMState.scopeE, VMState.push, VMState.setScope] at h <;>
      (repeat' split at h) <;>
      first
      | exact Except.noConfusion h
      | (injection h with h2
         rw [← h2]
         done)
      | (injection h with h2
         subst h2
         rename_i heq
         first
         | exact buildMap_fault_ip _ _ _ _ _ heq
         | exact liftRt_fault_ip _ _ _ heq
         | exact memGrow_fault_ip _ _ _ heq)
      | (injection h with h2
         rw [← h2]
         solve_by_elim [buildMap_fault_ip, liftRt_fault_ip, memGrow_fault_ip,
           memGrow_ok_ip, Eq.trans])
      | (injection h with h2
         rw [← h2]
         rename_i v hok x e heq
         exact (buildMap_fault_ip _ _ _ _ _ heq).trans
           ((memGrow_ok_ip _ _ _ hok).trans rfl))
  | «getIndex» =>
    simp only [execInstr] at h
    rcases hsc : s.scopes with _ | ⟨sc0, scs⟩ <;>
      simp only [hsc, bind, Except.bind, VMState.popE, VMState.currentE, VMState.scopeE, VMState.push, VMState.setScope] at h <;>
      (repeat' split at h) <;>
      first
      | exact Except.noConfusion h
      | (injection h with h2
         rw [← h2]
         done)
      | (injection h with h2
         subst h2
         rename_i heq
         first
         | exact buildMap_fault_ip _ _ _ _ _ heq
         | exact liftRt_fault_ip _ _ _ heq
         | exact memGrow_fault_ip _ _ _ heq)
      | (injection h with h2
         rw [← h2]
         solve_by_elim [buildMap_fault_ip, liftRt_fault_ip, memGrow_fault_ip,
           memGrow_ok_ip, Eq.trans])
      | (injection h with h2
         rw [← h2]
         rename_i v hok x e heq
         exact (buildMap_fault_ip _ _ _ _ _ heq).trans
           ((memGrow_ok_ip _ _ _ hok).trans rfl))
  | «getCount» =>
    simp only [execInstr] at h
    rcases hsc : s.scopes with _ | ⟨sc0, scs⟩ <;>
      simp only [hsc, bind, Except.bind, VMState.popE, VMState.currentE, VMState.scopeE, VMState.push, VMState.setScope] at h <;>
      (repeat' split at h) <;>
      first
      | exact Except.noConfusion h
      | (injection h with h2
         rw [← h2]
         done)
      | (injection h with h2
         subst h2
         rename_i heq
         first
         | exact buildMap_fault_ip _ _ _ _ _ heq
         | exact liftRt_fault_ip _ _ _ heq
         | exact memGrow_fault_ip _ _ _ heq)
      | (injection h with h2
         rw [← h2]
         solve_by_elim [buildMap_fault_ip, liftRt_fault_ip, memGrow_fault_ip,
           memGrow_ok_ip, Eq.trans])
      | (injection h with h2
         rw [← h2]
         rename_i v hok x e heq
         exact (buildMap_fault_ip _ _ _ _ _ heq).trans
           ((memGrow_ok_ip _ _ _ hok).trans rfl))
  | «getLen» =>
    simp only [execInstr] at h
    rcases hsc : s.scopes with _ | ⟨sc0, scs⟩ <;>
      simp only [hsc, bind, Except.bind, VMState.popE, VMState.currentE, VMState.scopeE, VMState.push, VMState.setScope] at h <;>
      (repeat' split at h) <;>
      first
      | exact Except.noConfusion h
      | (injection h with h2
         rw [← h2]
         done)
      | (injection h with h2
         subst h2
         rename_i heq
         first
         | exact buildMap_fault_ip _ _ _ _ _ heq
         | exact liftRt_fault_ip _ _ _ heq
         | exact memGrow_fault_ip _ _ _ heq)
      | (injection h with h2
         rw [← h2]
         solve_by_elim [buildMap_fault_ip, liftRt_fault_ip, memGrow_fault_ip,
           memGrow_ok_ip, Eq.trans])
      | (injection h with h2
         rw [← h2]
         rename_i v hok x e heq
         exact (buildMap_fault_ip _ _ _ _ _ heq).trans
           ((memGrow_ok_ip _ _ _ hok).trans rfl))
  | «getAcc» =>
    simp only [execInstr] at h
    rcases hsc : s.scopes with _ | ⟨sc0, scs⟩ <;>
      simp only [hsc, bind, Except.bind, VMState.popE, VMState.currentE, VMState.scopeE, VMState.push, VMState.setScope] at h <;>
      (repeat' split at h) <;>
      first
      | exact Except.noConfusion h
      | (injection h with h2
         rw [← h2]
         done)
      | (injection h with h2
         subst h2
         rename_i heq
         first
         | exact buildMap_fault_ip _ _ _ _ _ heq
         | exact liftRt_fault_ip _ _ _ heq
         | exact memGrow_fault_ip _ _ _ heq)
      | (injection h with h2
         rw [← h2]
         solve_by_elim [buildMap_fault_ip, liftRt_fault_ip, memGrow_fault_ip,
           memGrow_ok_ip, Eq.trans])
      | (injection h with h2
         rw [← h2]
         rename_i v hok x e heq
         exact (buildMap_fault_ip _ _ _ _ _ heq).trans
           ((memGrow_ok_ip _ _ _ hok).trans rfl))
  | «setAcc» =>
    simp only [execInstr] at h
    rcases hsc : s.scopes with _ | ⟨sc0, scs⟩ <;>
      rcases hst : s.stack with _ | ⟨v1, st1⟩ <;>
      simp only [hsc, hst, bind, Except.bind, VMState.popE, VMState.currentE, VMState.scopeE, VMState.push, VMState.setScope] at h <;>
      (repeat' split at h) <;>
      first
      | exact Except.noConfusion h
      | (injection h with h2
         rw [← h2]
         done)
      | (injection h with h2
         subst h2
         rename_i heq
         first
         | exact buildMap_fault_ip _ _ _ _ _ heq
         | exact liftRt_fault_ip _ _ _ heq
         | exact memGrow_fault_ip _ _ _ heq)
      | (injection h with h2
         rw [← h2]
         solve_by_elim [buildMap_fault_ip, liftRt_fault_ip, memGrow_fault_ip,
           memGrow_ok_ip, Eq.trans])
      | (injection h with h2
         rw [← h2]
         rename_i v hok x e heq
         exact (buildMap_fault_ip _ _ _ _ _ heq).trans
           ((memGrow_ok_ip _ _ _ hok).trans rfl))
  | «setIndex» =>
    simp only [execInstr] at h
    rcases hsc : s.scopes with _ | ⟨sc0, scs⟩ <;>
      rcases hst : s.stack with _ | ⟨v1, st1⟩ <;>
      simp only [hsc, hst, bind, Except.bind, VMState.popE, VMState.currentE, VMState.scopeE, VMState.push, VMState.setScope] at h <;>
      (repeat' split at h) <;>
      first
      | exact Except.noConfusion h
      | (injection h with h2
         rw [← h2]
         done)
      | (injection h with h2
         subst h2
         rename_i heq
         first
         | exact buildMap_fault_ip _ _ _ _ _ heq
         | exact liftRt_fault_ip _ _ _ heq
         | exact memGrow_fault_ip _ _ _ heq)
      | (injection h with h2
         rw [← h2]
         solve_by_elim [buildMap_fault_ip, liftRt_fault_ip, memGrow_fault_ip,
           memGrow_ok_ip, Eq.trans])
      | (injection h with h2
         rw [← h2]
         rename_i v hok x e heq
         exact (buildMap_fault_ip _ _ _ _ _ heq).trans
           ((memGrow_ok_ip _ _ _ hok).trans rfl))
  | «incrementIndex» =>
    simp only [execInstr] at h
    rcases hsc : s.scopes with _ | ⟨sc0, scs⟩ <;>
      simp only [hsc, bind, Except.bind, VMState.popE, VMState.currentE, VMState.scopeE, VMState.push, VMState.setScope] at h <;>
      (repeat' split at h) <;>
      first
      | exact Except.noConfusion h
      | (injection h with h2
         rw [← h2]
         done)
      | (injection h with h2
         subst h2
         rename_i heq
         first
         | exact buildMap_fault_ip _ _ _ _ _ heq
         | exact liftRt_fault_ip _ _ _ heq
         | exact memGrow_fault_ip _ _ _ heq)
      | (injection h with h2
         rw [← h2]
         solve_by_elim [buildMap_fault_ip, liftRt_fault_ip, memGrow_fault_ip,
           memGrow_ok_ip, Eq.trans])
      | (injection h with h2
         rw [← h2]
         rename_i v hok x e heq
         exact (buildMap_fault_ip _ _ _ _ _ heq).trans
           ((memGrow_ok_ip _ _ _ hok).trans rfl))
  | «decrementIndex» =>
    simp only [execInstr] at h
    rcases hsc : s.scopes with _ | ⟨sc0, scs⟩ <;>
      simp only [hsc, bind, Except.bind, VMState.popE, VMState.currentE, VMState.scopeE, VMState.push, VMState.setScope] at h <;>
      (repeat' split at h) <;>
      first
      | exact Except.noConfusion h
      | (injection h with h2
         rw [← h2]
         done)
      | (injection h with h2
         subst h2
         rename_i heq
         first
         | exact buildMap_fault_ip _ _ _ _ _ heq
         | exact liftRt_fault_ip _ _ _ heq
         | exact memGrow_fault_ip _ _ _ heq)
      | (injection h with h2
         rw [← h2]
         solve_by_elim [buildMap_fault_ip, liftRt_fault_ip, memGrow_fault_ip,
           memGrow_ok_ip, Eq.trans])
      | (injection h with h2
         rw [← h2]
         rename_i v hok x e heq
         exact (buildMap_fault_ip _ _ _ _ _ heq).trans
           ((memGrow_ok_ip _ _ _ hok).trans rfl))
  | «incrementCount» =>
    simp only [execInstr] at h
    rcases hsc : s.scopes with _ | ⟨sc0, scs⟩ <;>
      simp only [hsc, bind, Except.bind, VMState.popE, VMState.currentE, VMState.scopeE, VMState.push, VMState.setScope] at h <;>
      (repeat' split at h) <;>
      first
      | exact Except.noConfusion h
      | (injection h with h2
         rw [← h2]
         done)
      | (injection h with h2
         subst h2
         rename_i heq
         first
         | exact buildMap_fault_ip _ _ _ _ _ heq
         | exact liftRt_fault_ip _ _ _ heq
         | exact memGrow_fault_ip _ _ _ heq)
      | (injection h with h2
         rw [← h2]
         solve_by_elim [buildMap_fault_ip, liftRt_fault_ip, memGrow_fault_ip,
           memGrow_ok_ip, Eq.trans])
      | (injection h with h2
         rw [← h2]
         rename_i v hok x e heq
         exact (buildMap_fault_ip _ _ _ _ _ heq).trans
           ((memGrow_ok_ip _ _ _ hok).trans rfl))
  | «create» =>
    simp only [execInstr] at h
    rcases hsc : s.scopes with _ | ⟨sc0, scs⟩ <;>
      rcases hst : s.stack with _ | ⟨v1, st1⟩ <;>
      simp only [hsc, hst, bind, Except.bind, VMState.popE, VMState.currentE, VMState.scopeE, VMState.push, VMState.setScope] at h <;>
      (repeat' split at h) <;>
      first
      | exact Except.noConfusion h
      | (injection h with h2
         rw [← h2]
         done)
      | (injection h with h2
         subst h2
         rename_i heq
         first
         | exact buildMap_fault_ip _ _ _ _ _ heq
         | exact liftRt_fault_ip _ _ _ heq
         | exact memGrow_fault_ip _ _ _ heq)
      | (injection h with h2
         rw [← h2]
         solve_by_elim [buildMap_fault_ip, liftRt_fault_ip, memGrow_fault_ip,
           memGrow_ok_ip, Eq.trans])
      | (injection h with h2
         rw [← h2]
         rename_i v hok x e heq
         exact (buildMap_fault_ip _ _ _ _ _ heq).trans
           ((memGrow_ok_ip _ _ _ hok).trans rfl))
  | «groupBy» =>
    simp only [execInstr] at h
    rcases hsc : s.scopes with _ | ⟨sc0, scs⟩ <;>
      rcases hst : s.stack with _ | ⟨v1, st1⟩ <;>
      simp only [hsc, hst, bind, Except.bind, VMState.popE, VMState.currentE, VMState.scopeE, VMState.push, VMState.setScope] at h <;>
      (repeat' split at h) <;>
      first
      | exact Except.noConfusion h
      | (injection h with h2
         rw [← h2]
         done)
      | (injection h with h2
         subst h2
         rename_i heq
         first
         | exact buildMap_fault_ip _ _ _ _ _ heq
         | exact liftRt_fault_ip _ _ _ heq
         | exact memGrow_fault_ip _ _ _ heq)
      | (injection h with h2
         rw [← h2]
         solve_by_elim [buildMap_fault_ip, liftRt_fault_ip, memGrow_fault_ip,
           memGrow_ok_ip, Eq.trans])
      | (injection h with h2
         rw [← h2]
         rename_i v hok x e heq
         exact (buildMap_fault_ip _ _ _ _ _ heq).trans
           ((memGrow_ok_ip _ _ _ hok).trans rfl))
  | «sortBy» =>
    simp only [execInstr] at h
    rcases hsc : s.scopes with _ | ⟨sc0, scs⟩ <;>
      rcases hst : s.stack with _ | ⟨v1, st1⟩ <;>
      simp only [hsc, hst, bind, Except.bind, VMState.popE, VMState.currentE, VMState.scopeE, VMState.push, VMState.setScope] at h <;>
      (repeat' split at h) <;>
      first
      | exact Except.noConfusion h
      | (injection h with h2
         rw [← h2]
         done)
      | (injection h with h2
         subst h2
         rename_i heq
         first
         | exact buildMap_fault_ip _ _ _ _ _ heq
         | exact liftRt_fault_ip _ _ _ heq
         | exact memGrow_fault_ip _ _ _ heq)
      | (injection h with h2
         rw [← h2]
         solve_by_elim [buildMap_fault_ip, liftRt_fault_ip, memGrow_fault_ip,
           memGrow_ok_ip, Eq.trans])
      | (injection h with h2
         rw [← h2]
         rename_i v hok x e heq
         exact (buildMap_fault_ip _ _ _ _ _ heq).trans
           ((memGrow_ok_ip _ _ _ hok).trans rfl))
  | «sort» =>
    simp only [execInstr] at h
    rcases hsc : s.scopes with _ | ⟨sc0, scs⟩ <;>
      simp only [hsc, bind, Except.bind, VMState.popE, VMState.currentE, VMState.scopeE, VMState.push, VMState.setScope] at h <;>
      (repeat' split at h) <;>
      first
      | exact Except.noConfusion h
      | (injection h with h2
         rw [← h2]
         done)
      | (injection h with h2
         subst h2
         rename_i heq
         first
         | exact buildMap_fault_ip _ _ _ _ _ heq
         | exact liftRt_fault_ip _ _ _ heq
         | exact memGrow_fault_ip _ _ _ heq)
      | (injection h with h2
         rw [← h2]
         solve_by_elim [buildMap_fault_ip, liftRt_fault_ip, memGrow_fault_ip,
           memGrow_ok_ip, Eq.trans])
      | (injection h with h2
         rw [← h2]
         rename_i v hok x e heq
         exact (buildMap_fault_ip _ _ _ _ _ heq).trans
           ((memGrow_ok_ip _ _ _ hok).trans rfl))

set_option maxHeartbeats 1600000 in
/-- On a successful instruction the new instruction pointer is nonnegative:
non-jump opcodes leave `vm.ip` unchanged, and jump closure bounds the
patched targets of the jump opcodes. -/
theorem execInstr_ok_ip (ctx : Ctx) (op : Op) (arg : Int) (s s2 : VMState)
    (L i : Nat) (hip : s.ip = (i : Int) + 1)
    (hj : jumpTargetOk L i op arg = true)
    (h : execInstr ctx op arg s = .ok s2) : 0 ≤ s2.ip := by
  cases op with
  | «invalid» =>
    (try simp only [jumpTargetOk, Bool.and_eq_true, decide_eq_true_eq] at hj)
    (try simp only [execInstr] at h)
    first
    | exact Except.noConfusion h
    | (injection h with h2
       subst h2
       (repeat' split) <;> (try simp [VMState.push, VMState.setScope]) <;> omega)
  | «push» =>
    simp only [execInstr] at h
    rcases hconst : constAt ctx s arg with fc | c <;>
      simp only [hconst, bind, Except.bind, VMState.popE, VMState.currentE, VMState.scopeE, VMState.push, VMState.setScope] at h <;>
      (repeat' split at h) <;>
      first
      | exact Except.noConfusion h
      | (injection h with h2
         subst h2
         (repeat' split) <;> (try simp [VMState.push, VMState.setScope]) <;> omega)
  | «int» =>
    (try simp only [jumpTargetOk, Bool.and_eq_true, decide_eq_true_eq] at hj)
    (try simp only [execInstr] at h)
    first
    | exact Except.noConfusion h
    | (injection h with h2
       subst h2
       (repeat' split) <;> (try simp [VMState.push, VMState.setScope]) <;> omega)
  | «pop» =>
    (try simp only [jumpTargetOk, Bool.and_eq_true, decide_eq_true_eq] at hj)
    simp only [execInstr] at h
    rcases hst : s.stack with _ | ⟨v1, st1⟩ <;>
      simp only [hst, bind, Except.bind, VMState.popE, VMState.currentE, VMState.scopeE, VMState.push, VMState.setScope] at h <;>
      (repeat' split at h) <;>
      first
      | exact Except.noConfusion h
      | (injection h with h2
         subst h2
         (repeat' split) <;> (try simp [VMState.push, VMState.setScope]) <;> omega)
  | «nil» =>
    (try simp only [jumpTargetOk, Bool.and_eq_true, decide_eq_true_eq] at hj)
    (try simp only [execInstr] at h)
    first
    | exact Except.noConfusion h
    | (injection h with h2
       subst h2
       (repeat' split) <;> (try simp [VMState.push, VMState.setScope]) <;> omega)
  | «true_» =>
    (try simp only [jumpTargetOk, Bool.and_eq_true, decide_eq_true_eq] at hj)
    (try simp only [execInstr] at h)
    first
    | exact Except.noConfusion h
    | (injection h with h2
       subst h2
       (repeat' split) <;> (try simp [VMState.push, VMState.setScope]) <;> omega)
  | «false_» =>
    (try simp only [jumpTargetOk, Bool.and_eq_true, decide_eq_true_eq] at hj)
    (try simp only [execInstr] at h)
    first
    | exact Except.noConfusion h
    | (injection h with h2
       subst h2
       (repeat' split) <;> (try simp [VMState.push, VMState.setScope]) <;> omega)
  | «loadFast» =>
    simp only [execInstr] at h
    rcases hconst : constAt ctx s arg with fc | c <;>
      simp only [hconst, bind, Except.bind, VMState.popE, VMState.currentE, VMState.scopeE, VMState.push, VMState.setScope] at h <;>
      (repeat' split at h) <;>
      first
      | exact Except.noConfusion h
      | (injection h with h2
         subst h2
         (repeat' split) <;> (try simp [VMState.push, VMState.setScope]) <;> omega)
  | «loadConst» =>
    simp only [execInstr] at h
    rcases hconst : constAt ctx s arg with fc | c <;>
      simp only [hconst, bind, Except.bind, VMState.popE, VMState.currentE, VMState.scopeE, VMState.push, VMState.setScope] at h <;>
      (repeat' split at h) <;>
      first
      | exact Except.noConfusion h
      | (injection h with h2
         subst h2
         (repeat' split) <;> (try simp [VMState.push, VMState.setScope]) <;> omega)
  | «loadEnv» =>
    (try simp only [jumpTargetOk, Bool.and_eq_true, decide_eq_true_eq] at hj)
    (try simp only [execInstr] at h)
    first
    | exact Except.noConfusion h
    | (injection h with h2
       subst h2
       (repeat' split) <;> (try simp [VMState.push, VMState.setScope]) <;> omega)
  | «fetch» =>
    (try simp only [jumpTargetOk, Bool.and_eq_true, decide_eq_true_eq] at hj)
    simp only [execInstr] at h
    rcases hst : s.stack with _ | ⟨v1, _ | ⟨v2, st2⟩⟩ <;>
      simp only [hst, bind, Except.bind, VMState.popE, VMState.currentE, VMState.scopeE, VMState.push, VMState.setScope] at h <;>
      (repeat' split at h) <;>
      first
      | exact Except.noConfusion h
      | (injection h with h2
         subst h2
         (repeat' split) <;> (try simp [VMState.push, VMState.setScope]) <;> omega)
  | «jump» =>
    (try simp only [jumpTargetOk, Bool.and_eq_true, decide_eq_true_eq] at hj)
    (try simp only [execInstr] at h)
    first
    | exact Except.noConfusion h
    | (injection h with h2
       subst h2
       (repeat' split) <;> (try simp [VMState.push, VMState.setScope]) <;> omega)
  | «jumpIfTrue» =>
    (try simp only [jumpTargetOk, Bool.and_eq_true, decide_eq_true_eq] at hj)
    simp only [execInstr] at h
    rcases hst : s.stack with _ | ⟨v1, st1⟩ <;>
      simp only [hst, bind, Except.bind, VMState.popE, VMState.currentE, VMState.scopeE, VMState.push, VMState.setScope] at h <;>
      (repeat' split at h) <;>
      first
      | exact Except.noConfusion h
      | (injection h with h2
         subst h2
         (repeat' split) <;> (try simp [VMState.push, VMState.setScope]) <;> omega)
  | «jumpIfFalse» =>
    (try simp only [jumpTargetOk, Bool.and_eq_true, decide_eq_true_eq] at hj)
    simp only [execInstr] at h
    rcases hst : s.stack with _ | ⟨v1, st1⟩ <;>
      simp only [hst, bind, Except.bind, VMState.popE, VMState.currentE, VMState.scopeE, VMState.push, VMState.setScope] at h <;>
      (repeat' split at h) <;>
      first
      | exact Except.noConfusion h
      | (injection h with h2
         subst h2
         (repeat' split) <;> (try simp [VMState.push, VMState.setScope]) <;> omega)
  | «jumpIfNil» =>
    (try simp only [jumpTargetOk, Bool.and_eq_true, decide_eq_true_eq] at hj)
    simp only [execInstr] at h
    rcases hst : s.stack with _ | ⟨v1, st1⟩ <;>
      simp only [hst, bind, Except.bind, VMState.popE, VMState.currentE, VMState.scopeE, VMState.push, VMState.setScope] at h <;>
      (repeat' split at h) <;>
      first
      | exact Except.noConfusion h
      | (injection h with h2
         subst h2
         (repeat' split) <;> (try simp [VMState.push, VMState.setScope]) <;> omega)
  | «jumpIfNotNil» =>
    (try simp only [jumpTargetOk, Bool.and_eq_true, decide_eq_true_eq] at hj)
    simp only [execInstr] at h
    rcases hst : s.stack with _ | ⟨v1, st1⟩ <;>
      simp only [hst, bind, Except.bind, VMState.popE, VMState.currentE, VMState.scopeE, VMState.push, VMState.setScope] at h <;>
      (repeat' split at h) <;>
      first
      | exact Except.noConfusion h
      | (injection h with h2
         subst h2
         (repeat' split) <;> (try simp [VMState.push, VMState.setScope]) <;> omega)
  | «jumpIfEnd» =>
    (try simp only [jumpTargetOk, Bool.and_eq_true, decide_eq_true_eq] at hj)
    simp only [execInstr] at h
    rcases hsc : s.scopes with _ | ⟨sc0, scs⟩ <;>
      simp only [hsc, bind, Except.bind, VMState.popE, VMState.currentE, VMState.scopeE, VMState.push, VMState.setScope] at h <;>
      (repeat' split at h) <;>
      first
      | exact Except.noConfusion h
      | (injection h with h2
         subst h2
         (repeat' split) <;> (try simp [VMState.push, VMState.setScope]) <;> omega)
  | «jumpBackward» =>
    (try simp only [jumpTargetOk, Bool.and_eq_true, decide_eq_true_eq] at hj)
    (try simp only [execInstr] at h)
    first
    | exact Except.noConfusion h
    | (injection h with h2
       subst h2
       (repeat' split) <;> (try simp [VMState.push, VMState.setScope]) <;> omega)
  | «equal» =>
    (try simp only [jumpTargetOk, Bool.and_eq_true, decide_eq_true_eq] at hj)
    simp only [execInstr] at h
    rcases hst : s.stack with _ | ⟨v1, _ | ⟨v2, st2⟩⟩ <;>
      simp only [hst, bind, Except.bind, VMState.popE, VMState.currentE, VMState.scopeE, VMState.push, VMState.setScope] at h <;>
      (repeat' split at h) <;>
      first
      | exact Except.noConfusion h
      | (injection h with h2
         subst h2
         (repeat' split) <;> (try simp [VMState.push, VMState.setScope]) <;> omega)
  | «not» =>
    (try simp only [jumpTargetOk, Bool.and_eq_true, decide_eq_true_eq] at hj)
    simp only [execInstr] at h
    rcases hst : s.stack with _ | ⟨v1, st1⟩ <;>
      simp only [hst, bind, Except.bind, VMState.popE, VMState.currentE, VMState.scopeE, VMState.push, VMState.setScope] at h <;>
      (repeat' split at h) <;>
      first
      | exact Except.noConfusion h
      | (injection h with h2
         subst h2
         (repeat' split) <;> (try simp [VMState.push, VMState.setScope]) <;> omega)
  | «less» =>
    (try simp only [jumpTargetOk, Bool.and_eq_true, decide_eq_true_eq] at hj)
    simp only [execInstr] at h
    rcases hst : s.stack with _ | ⟨v1, _ | ⟨v2, st2⟩⟩ <;>
      simp only [hst, bind, Except.bind, VMState.popE, VMState.currentE, VMState.scopeE, VMState.push, VMState.setScope] at h <;>
      (repeat' split at h) <;>
      first
      | exact Except.noConfusion h
      | (injection h with h2
         subst h2
         (repeat' split) <;> (try simp [VMState.push, VMState.setScope]) <;> omega)
  | «more» =>
    (try simp only [jumpTargetOk, Bool.and_eq_true, decide_eq_true_eq] at hj)
    simp only [execInstr] at h
    rcases hst : s.stack with _ | ⟨v1, _ | ⟨v2, st2⟩⟩ <;>
      simp only [hst, bind, Except.bind, VMState.popE, VMState.currentE, VMState.scopeE, VMState.push, VMState.setScope] at h <;>
      (repeat' split at h) <;>
      first
      | exact Except.noConfusion h
      | (injection h with h2
         subst h2
         (repeat' split) <;> (try simp [VMState.push, VMState.setScope]) <;> omega)
  | «lessOrEqual» =>
    (try simp only [jumpTargetOk, Bool.and_eq_true, decide_eq_true_eq] at hj)
    simp only [execInstr] at h
    rcases hst : s.stack with _ | ⟨v1, _ | ⟨v2, st2⟩⟩ <;>
      simp only [hst, bind, Except.bind, VMState.popE, VMState.currentE, VMState.scopeE, VMState.push, VMState.setScope] at h <;>
      (repeat' split at h) <;>
      first
      | exact Except.noConfusion h
      | (injection h with h2
         subst h2
         (repeat' split) <;> (try simp [VMState.push, VMState.setScope]) <;> omega)
  | «moreOrEqual» =>
    (try simp only [jumpTargetOk, Bool.and_eq_true, decide_eq_true_eq] at hj)
    simp only [execInstr] at h
    rcases hst : s.stack with _ | ⟨v1, _ | ⟨v2, st2⟩⟩ <;>
      simp only [hst, bind, Except.bind, VMState.popE, VMState.currentE, VMState.scopeE, VMState.push, VMState.setScope] at h <;>
      (repeat' split at h) <;>
      first
      | exact Except.noConfusion h
      | (injection h with h2
         subst h2
         (repeat' split) <;> (try simp [VMState.push, VMState.setScope]) <;> omega)
  | «subtract» =>
    (try simp only [jumpTargetOk, Bool.and_eq_true, decide_eq_true_eq] at hj)
    simp only [execInstr] at h
    rcases hst : s.stack with _ | ⟨v1, _ | ⟨v2, st2⟩⟩ <;>
      simp only [hst, bind, Except.bind, VMState.popE, VMState.currentE, VMState.scopeE, VMState.push, VMState.setScope] at h <;>
      (repeat' split at h) <;>
      first
      | exact Except.noConfusion h
      | (injection h with h2
         subst h2
         (repeat' split) <;> (try simp [VMState.push, VMState.setScope]) <;> omega)
  | «matches» =>
    (try simp only [jumpTargetOk, Bool.and_eq_true, decide_eq_true_eq] at hj)
    simp only [execInstr] at h
    rcases hst : s.stack with _ | ⟨v1, _ | ⟨v2, st2⟩⟩ <;>
      simp only [hst, bind, Except.bind, VMState.popE, VMState.currentE, VMState.scopeE, VMState.push, VMState.setScope] at h <;>
      (repeat' split at h) <;>
      first
      | exact Except.noConfusion h
      | (injection h with h2
         subst h2
         (repeat' split) <;> (try simp [VMState.push, VMState.setScope]) <;> omega)
  | «contains» =>
    (try simp only [jumpTargetOk, Bool.and_eq_true, decide_eq_true_eq] at hj)
    simp only [execInstr] at h
    rcases hst : s.stack with _ | ⟨v1, _ | ⟨v2, st2⟩⟩ <;>
      simp only [hst, bind, Except.bind, VMState.popE, VMState.currentE, VMState.scopeE, VMState.push, VMState.setScope] at h <;>
      (repeat' split at h) <;>
      first
      | exact Except.noConfusion h
      | (injection h with h2
         subst h2
         (repeat' split) <;> (try simp [VMState.push, VMState.setScope]) <;> omega)
  | «startsWith» =>
    (try simp only [jumpTargetOk, Bool.and_eq_true, decide_eq_true_eq] at hj)
    simp only [execInstr] at h
    rcases hst : s.stack with _ | ⟨v1, _ | ⟨v2, st2⟩⟩ <;>
      simp only [hst, bind, Except.bind, VMState.popE, VMState.currentE, VMState.scopeE, VMState.push, VMState.setScope] at h <;>
      (repeat' split at h) <;>
      first
      | exact Except.noConfusion h
      | (injection h with h2
         subst h2
         (repeat' split) <;> (try simp [VMState.push, VMState.setScope]) <;> omega)
  | «endsWith» =>
    (try simp only [jumpTargetOk, Bool.and_eq_true, decide_eq_true_eq] at hj)
    simp only [execInstr] at h
    rcases hst : s.stack with _ | ⟨v1, _ | ⟨v2, st2⟩⟩ <;>
      simp only [hst, bind, Except.bind, VMState.popE, VMState.currentE, VMState.scopeE, VMState.push, VMState.setScope] at h <;>
      (repeat' split at h) <;>
      first
      | exact Except.noConfusion h
      | (injection h with h2
         subst h2
         (repeat' split) <;> (try simp [VMState.push, VMState.setScope]) <;> omega)
  | «slice» =>
    (try simp only [jumpTargetOk, Bool.and_eq_true, decide_eq_true_eq] at hj)
    simp only [execInstr] at h
    rcases hst : s.stack with _ | ⟨v1, _ | ⟨v2, _ | ⟨v3, st3⟩⟩⟩ <;>
      simp only [hst, bind, Except.bind, VMState.popE, VMState.currentE, VMState.scopeE, VMState.push, VMState.setScope] at h <;>
      (repeat' split at h) <;>
      first
      | exact Except.noConfusion h
      | (injection h with h2
         subst h2
         (repeat' split) <;> (try simp [VMState.push, VMState.setScope]) <;> omega)
  | «array» =>
    simp only [execInstr] at h
    rcases hst : s.stack with _ | ⟨v1, st1⟩ <;>
      simp only [hst, bind, Except.bind, VMState.popE] at h
    · exact Except.noConfusion h
    · cases v1
      case int n =>
        rcases hmg : ({ stack := st1, scopes := s.scopes, memory := s.memory, memoryBudget := s.memoryBudget, ip := s.ip } : VMState).memGrow (toUIntN n) with fm | v
        · simp only [hmg] at h
          exact Except.noConfusion h
        · simp only [hmg] at h
          have hv : v.ip = s.ip := (memGrow_ok_ip _ _ _ hmg).trans rfl
          (repeat' split at h) <;>
            first
            | exact Except.noConfusion h
            | (injection h with h2
               subst h2
               simpa [hv] using (by omega : (0:Int) ≤ s.ip))
      all_goals exact Except.noConfusion h

  | «map» =>
    simp only [execInstr] at h
    rcases hst : s.stack with _ | ⟨v1, st1⟩ <;>
      simp only [hst, bind, Except.bind, VMState.popE] at h
    · exact Except.noConfusion h
    · cases v1
      case int n =>
        rcases hmg : ({ stack := st1, scopes := s.scopes, memory := s.memory, memoryBudget := s.memoryBudget, ip := s.ip } : VMState).memGrow (toUIntN n) with fm | v
        · simp only [hmg] at h
          exact Except.noConfusion h
        · simp only [hmg] at h
          have hv : v.ip = s.ip := (memGrow_ok_ip _ _ _ hmg).trans rfl
          rcases hbm : buildMap v.ip n.toNat v.stack [] with fb | pr
          · simp only [hbm] at h
            exact Except.noConfusion h
          · simp only [hbm] at h
            rcases pr with ⟨m, rest⟩
            injection h with h2
            subst h2
            simpa [hv] using (by omega : (0:Int) ≤ s.ip)
      all_goals exact Except.noConfusion h
  | «range» =>
    simp only [execInstr] at h
    rcases hst : s.stack with _ | ⟨v1, _ | ⟨v2, st2⟩⟩ <;>
      simp only [hst, bind, Except.bind, VMState.popE] at h
    · exact Except.noConfusion h
    · exact Except.noConfusion h
    · rcases h1 : liftRt ({ stack := st2, scopes := s.scopes, memory := s.memory, memoryBudget := s.memoryBudget, ip := s.ip } : VMState) (ToInt v2) with f1 | mn
      · simp only [h1] at h
        exact Except.noConfusion h
      · simp only [h1] at h
        rcases h2 : liftRt ({ stack := st2, scopes := s.scopes, memory := s.memory, memoryBudget := s.memoryBudget, ip := s.ip } : VMState) (ToInt v1) with f2 | mx
        · simp only [h2] at h
          exact Except.noConfusion h
        · simp only [h2] at h
          rcases h3 : ({ stack := st2, scopes := s.scopes, memory := s.memory, memoryBudget := s.memoryBudget, ip := s.ip } : VMState).memGrow
              (toUIntN (if mx - mn + 1 ≤ 0 then 0 else mx - mn + 1)) with f3 | v
          · simp only [h3] at h
            exact Except.noConfusion h
          · simp only [h3] at h
            have hv : v.ip = s.ip := (memGrow_ok_ip _ _ _ h3).trans rfl
            injection h with h2
            subst h2
            simpa [hv, VMState.push] using (by omega : (0:Int) ≤ s.ip)
  | «len» =>
    (try simp only [jumpTargetOk, Bool.and_eq_true, decide_eq_true_eq] at hj)
    simp only [execInstr] at h
    rcases hst : s.stack with _ | ⟨v1, st1⟩ <;>
      simp only [hst, bind, Except.bind, VMState.popE, VMState.currentE, VMState.scopeE, VMState.push, VMState.setScope] at h <;>
      (repeat' split at h) <;>
      first
      | exact Except.noConfusion h
      | (injection h with h2
         subst h2
         (repeat' split) <;> (try simp [VMState.push, VMState.setScope]) <;> omega)
  | «begin» =>
    (try simp only [jumpTargetOk, Bool.and_eq_true, decide_eq_true_eq] at hj)
    simp only [execInstr] at h
    rcases hst : s.stack with _ | ⟨v1, st1⟩ <;>
      simp only [hst, bind, Except.bind, VMState.popE, VMState.currentE, VMState.scopeE, VMState.push, VMState.setScope] at h <;>
      (repeat' split at h) <;>
      first
      | exact Except.noConfusion h
      | (injection h with h2
         subst h2
         (repeat' split) <;> (try simp [VMState.push, VMState.setScope]) <;> omega)
  | «end_» =>
    (try simp only [jumpTargetOk, Bool.and_eq_true, decide_eq_true_eq] at hj)
    simp only [execInstr] at h
    rcases hsc : s.scopes with _ | ⟨sc0, scs⟩ <;>
      simp only [hsc, bind, Except.bind, VMState.popE, VMState.currentE, VMState.scopeE, VMState.push, VMState.setScope] at h <;>
      (repeat' split at h) <;>
      first
      | exact Except.noConfusion h
      | (injection h with h2
         subst h2
         (repeat' split) <;> (try simp [VMState.push, VMState.setScope]) <;> omega)
  | «pointer» =>
    (try simp only [jumpTargetOk, Bool.and_eq_true, decide_eq_true_eq] at hj)
    simp only [execInstr] at h
    rcases hsc : s.scopes with _ | ⟨sc0, scs⟩ <;>
      simp only [hsc, bind, Except.bind, VMState.popE, VMState.currentE, VMState.scopeE, VMState.push, VMState.setScope] at h <;>
      (repeat' split at h) <;>
      first
      | exact Except.noConfusion h
      | (injection h with h2
         subst h2
         (repeat' split) <;> (try simp [VMState.push, VMState.setScope]) <;> omega)
  | «getIndex» =>
    (try simp only [jumpTargetOk, Bool.and_eq_true, decide_eq_true_eq] at hj)
    simp only [execInstr] at h
    rcases hsc : s.scopes with _ | ⟨sc0, scs⟩ <;>
      simp only [hsc, bind, Except.bind, VMState.popE, VMState.currentE, VMState.scopeE, VMState.push, VMState.setScope] at h <;>
      (repeat' split at h) <;>
      first
      | exact Except.noConfusion h
      | (injection h with h2
         subst h2
         (repeat' split) <;> (try simp [VMState.push, VMState.setScope]) <;> omega)
  | «getCount» =>
    (try simp only [jumpTargetOk, Bool.and_eq_true, decide_eq_true_eq] at hj)
    simp only [execInstr] at h
    rcases hsc : s.scopes with _ | ⟨sc0, scs⟩ <;>
      simp only [hsc, bind, Except.bind, VMState.popE, VMState.currentE, VMState.scopeE, VMState.push, VMState.setScope] at h <;>
      (repeat' split at h) <;>
      first
      | exact Except.noConfusion h
      | (injection h with h2
         subst h2
         (repeat' split) <;> (try simp [VMState.push, VMState.setScope]) <;> omega)
  | «getLen» =>
    (try simp only [jumpTargetOk, Bool.and_eq_true, decide_eq_true_eq] at hj)
    simp only [execInstr] at h
    rcases hsc : s.scopes with _ | ⟨sc0, scs⟩ <;>
      simp only [hsc, bind, Except.bind, VMState.popE, VMState.currentE, VMState.scopeE, VMState.push, VMState.setScope] at h <;>
      (repeat' split at h) <;>
      first
      | exact Except.noConfusion h
      | (injection h with h2
         subst h2
         (repeat' split) <;> (try simp [VMState.push, VMState.setScope]) <;> omega)
  | «getAcc» =>
    (try simp only [jumpTargetOk, Bool.and_eq_true, decide_eq_true_eq] at hj)
    simp only [execInstr] at h
    rcases hsc : s.scopes with _ | ⟨sc0, scs⟩ <;>
      simp only [hsc, bind, Except.bind, VMState.popE, VMState.currentE, VMState.scopeE, VMState.push, VMState.setScope] at h <;>
      (repeat' split at h) <;>
      first
      | exact Except.noConfusion h
      | (injection h with h2
         subst h2
         (repeat' split) <;> (try simp [VMState.push, VMState.setScope]) <;> omega)
  | «setAcc» =>
    simp only [execInstr] at h
    rcases hsc : s.scopes with _ | ⟨sc0, scs⟩ <;>
      rcases hst : s.stack with _ | ⟨v1, st1⟩ <;>
      simp only [hsc, hst, bind, Except.bind, VMState.popE, VMState.currentE, VMState.scopeE, VMState.push, VMState.setScope] at h <;>
      (repeat' split at h) <;>
      first
      | exact Except.noConfusion h
      | (injection h with h2
         subst h2
         (repeat' split) <;> (try simp [VMState.push, VMState.setScope]) <;> omega)
  | «setIndex» =>
    simp only [execInstr] at h
    rcases hsc : s.scopes with _ | ⟨sc0, scs⟩ <;>
      rcases hst : s.stack with _ | ⟨v1, st1⟩ <;>
      simp only [hsc, hst, bind, Except.bind, VMState.popE, VMState.currentE, VMState.scopeE, VMState.push, VMState.setScope] at h <;>
      (repeat' split at h) <;>
      first
      | exact Except.noConfusion h
      | (injection h with h2
         subst h2
         (repeat' split) <;> (try simp [VMState.push, VMState.setScope]) <;> omega)
  | «incrementIndex» =>
    (try simp only [jumpTargetOk, Bool.and_eq_true, decide_eq_true_eq] at hj)
    simp only [execInstr] at h
    rcases hsc : s.scopes with _ | ⟨sc0, scs⟩ <;>
      simp only [hsc, bind, Except.bind, VMState.popE, VMState.currentE, VMState.scopeE, VMState.push, VMState.setScope] at h <;>
      (repeat' split at h) <;>
      first
      | exact Except.noConfusion h
      | (injection h with h2
         subst h2
         (repeat' split) <;> (try simp [VMState.push, VMState.setScope]) <;> omega)
  | «decrementIndex» =>
    (try simp only [jumpTargetOk, Bool.and_eq_true, decide_eq_true_eq] at hj)
    simp only [execInstr] at h
    rcases hsc : s.scopes with _ | ⟨sc0, scs⟩ <;>
      simp only [hsc, bind, Except.bind, VMState.popE, VMState.currentE, VMState.scopeE, VMState.push, VMState.setScope] at h <;>
      (repeat' split at h) <;>
      first
      | exact Except.noConfusion h
      | (injection h with h2
         subst h2
         (repeat' split) <;> (try simp [VMState.push, VMState.setScope]) <;> omega)
  | «incrementCount» =>
    (try simp only [jumpTargetOk, Bool.and_eq_true, decide_eq_true_eq] at hj)
    simp only [execInstr] at h
    rcases hsc : s.scopes with _ | ⟨sc0, scs⟩ <;>
      simp only [hsc, bind, Except.bind, VMState.popE, VMState.currentE, VMState.scopeE, VMState.push, VMState.setScope] at h <;>
      (repeat' split at h) <;>
      first
      | exact Except.noConfusion h
      | (injection h with h2
         subst h2
         (repeat' split) <;> (try simp [VMState.push, VMState.setScope]) <;> omega)
  | «create» =>
    simp only [execInstr] at h
    rcases hsc : s.scopes with _ | ⟨sc0, scs⟩ <;>
      rcases hst : s.stack with _ | ⟨v1, st1⟩ <;>
      simp only [hsc, hst, bind, Except.bind, VMState.popE, VMState.currentE, VMState.scopeE, VMState.push, VMState.setScope] at h <;>
      (repeat' split at h) <;>
      first
      | exact Except.noConfusion h
      | (injection h with h2
         subst h2
         (repeat' split) <;> (try simp [VMState.push, VMState.setScope]) <;> omega)
  | «groupBy» =>
    simp only [execInstr] at h
    rcases hsc : s.scopes with _ | ⟨sc0, scs⟩ <;>
      rcases hst : s.stack with _ | ⟨v1, st1⟩ <;>
      simp only [hsc, hst, bind, Except.bind, VMState.popE, VMState.currentE, VMState.scopeE, VMState.push, VMState.setScope] at h <;>
      (repeat' split at h) <;>
      first
      | exact Except.noConfusion h
      | (injection h with h2
         subst h2
         (repeat' split) <;> (try simp [VMState.push, VMState.setScope]) <;> omega)
  | «sortBy» =>
    simp only [execInstr] at h
    rcases hsc : s.scopes with _ | ⟨sc0, scs⟩ <;>
      rcases hst : s.stack with _ | ⟨v1, st1⟩ <;>
      simp only [hsc, hst, bind, Except.bind, VMState.popE, VMState.currentE, VMState.scopeE, VMState.push, VMState.setScope] at h <;>
      (repeat' split at h) <;>
      first
      | exact Except.noConfusion h
      | (injection h with h2
         subst h2
         (repeat' split) <;> (try simp [VMState.push, VMState.setScope]) <;> omega)
  | «sort» =>
    simp only [execInstr] at h
    rcases hsc : s.scopes with _ | ⟨sc0, scs⟩ <;>
      simp only [hsc, bind, Except.bind, VMState.scopeE] at h
    · exact Except.noConfusion h
    · rcases hacc : sc0.acc with _ | b | n | st | xs | mp | ⟨d, arr, vals⟩ | g <;>
        simp only [hacc] at h <;>
        (try exact Except.noConfusion h)
      rcases hmg : s.memGrow (toUIntN sc0.len) with fm | v
      · simp only [hmg] at h
        exact Except.noConfusion h
      · simp only [hmg] at h
        have hv : v.ip = s.ip := memGrow_ok_ip _ _ _ hmg
        injection h with h2
        subst h2
        simpa [hv, VMState.push] using (by omega : (0:Int) ≤ s.ip)

/-- If the interpreter loop of a well-formed program ends in a fault, the
trace is nonempty, its last observation is the faulting instruction's
index (a valid bytecode index), and the fault's `vm.ip` is that index plus
one (the loop advances `vm.ip` before running the body). -/
theorem runTrace_fault_last (ctx : Ctx) (hwf : wellFormed ctx.prog) :
    ∀ (fuel : Nat) (s : VMState) (t : List (Int × Int)) (f : Fault),
      0 ≤ s.ip → runTrace ctx fuel s = (t, .fault f) →
      ∃ o t0, t = t0 ++ [o] ∧ f.ip = o.1 + 1 ∧ 0 ≤ o.1 ∧
        o.1.toNat < ctx.prog.bytecode.length := by
  intro fuel
  induction fuel with
  | zero =>
    intro s t f hip h
    simp [runTrace] at h
  | succ fl ih =>
    intro s t f hip h
    simp only [runTrace] at h
    by_cases hend : (ctx.prog.bytecode.length : Int) ≤ s.ip
    · rw [if_pos hend] at h
      simp at h
    · rw [if_neg hend] at h
      have hlt : s.ip.toNat < ctx.prog.bytecode.length := by omega
      rw [dif_pos (And.intro hip hlt)] at h
      rcases harg : ctx.prog.arguments.get? s.ip.toNat with _ | arg
      · rw [List.get?_eq_none] at harg
        have hlen := hwf.1
        omega
      · simp only [harg] at h
        rcases hex : execInstr ctx (ctx.prog.bytecode.get ⟨s.ip.toNat, hlt⟩)
            arg { s with ip := s.ip + 1 } with f' | s'
        · simp only [hex] at h
          have ht : [obsOf s.ip s] = t := congrArg Prod.fst h
          have hf : RunResult.fault f' = RunResult.fault f :=
            congrArg Prod.snd h
          injection hf with hf2
          subst hf2
          refine ⟨obsOf s.ip s, [], ht.symm, ?_, hip, hlt⟩
          exact execInstr_fault_ip ctx _ arg _ f' hex
        · simp only [hex] at h
          have ht : obsOf s.ip s :: (runTrace ctx fl s').1 = t :=
            congrArg Prod.fst h
          have hr : (runTrace ctx fl s').2 = RunResult.fault f :=
            congrArg Prod.snd h
          have hs2 : 0 ≤ s'.ip := by
            have hjt := hwf.2.2 s.ip.toNat hlt
            have hargD : ctx.prog.arguments.getD s.ip.toNat 0 = arg := by
              simp [List.getD_eq_get?, ← List.get?_eq_getElem?, harg]
            rw [hargD] at hjt
            exact execInstr_ok_ip ctx _ arg _ s' ctx.prog.bytecode.length
              s.ip.toNat (by simp [Int.toNat_of_nonneg hip]) hjt hex
          have hrun2 : runTrace ctx fl s' =
              ((runTrace ctx fl s').1, RunResult.fault f) := by
            rw [← hr]
          obtain ⟨o, t0, ht0, hfip, h0, hb⟩ :=
            ih s' (runTrace ctx fl s').1 f hs2 hrun2
          refine ⟨o, obsOf s.ip s :: t0, ?_, hfip, h0, hb⟩
          rw [← ht, ht0]
          rfl

/-- C3: for every well-formed program, environment, memory budget and fuel,
a run that surfaces an error returns no value, and the error is bound to
the `Location` of the last-executed instruction (the last entry of the
execution trace); and every completed run returns either a value with no
error or an error with no value, never both. -/
theorem c3_run_error_location (ctx : Ctx) (mb fuel : Nat)
    (hwf : wellFormed ctx.prog) :
    (∀ t v e, runWithTrace ctx mb fuel = (t, some (v, some e)) →
      v = none ∧ ∃ o, t.getLast? = some o ∧
        ctx.prog.locations.get? o.1.toNat = some e.location) ∧
    (∀ t r, runWithTrace ctx mb fuel = (t, some r) →
      (∃ w, r = (some w, none)) ∨ (∃ e, r = (none, some e))) := by
  constructor
  · intro t v e h
    simp only [runWithTrace] at h
    rcases hrun : runTrace ctx fuel
        ⟨[], [], 0, if mb = 0 then DefaultMemoryBudget else mb, 0⟩
      with ⟨t', r⟩
    rcases r with sOk | fx | _
    · rw [hrun] at h
      rcases hstk : sOk.stack with _ | ⟨v0, rest⟩ <;> simp [hstk] at h
    · rw [hrun] at h
      have ht : t' = t := congrArg Prod.fst h
      have h2 : (some (none, some (recoverError ctx.prog fx)) :
          Option (Option Value × Option RunError)) = some (v, some e) :=
        congrArg Prod.snd h
      simp only [Option.some.injEq, Prod.mk.injEq] at h2
      obtain ⟨hv, he⟩ := h2
      subst hv
      subst he
      refine ⟨rfl, ?_⟩
      obtain ⟨o, t0, ht0, hfip, h0, hb⟩ :=
        runTrace_fault_last ctx hwf fuel _ t' fx (by simp) hrun
      have hbl : o.1.toNat < ctx.prog.locations.length := by
        rw [hwf.2.1]
        exact hb
      refine ⟨o, ?_, ?_⟩
      · rw [← ht, ht0]
        exact List.getLast?_concat _
      · have hloc : (recoverError ctx.prog fx).location =
            ctx.prog.locations.get ⟨o.1.toNat, hbl⟩ := by
          simp only [recoverError, hfip, add_sub_cancel_right]
          rw [dif_pos (And.intro h0 hbl)]
        rw [hloc]
        exact List.get?_eq_get hbl
    · rw [hrun] at h
      simp at h
  · intro t r h
    simp only [runWithTrace] at h
    rcases hrun : runTrace ctx fuel
        ⟨[], [], 0, if mb = 0 then DefaultMemoryBudget else mb, 0⟩
      with ⟨t', r'⟩
    rcases r' with sOk | fx | _
    · rw [hrun] at h
      rcases hstk : sOk.stack with _ | ⟨v0, rest⟩ <;> simp [hstk] at h <;>
        exact Or.inl ⟨_, h.2.symm⟩
    · rw [hrun] at h
      have h2 : (some (none, some (recoverError ctx.prog fx)) :
          Option (Option Value × Option RunError)) = some r :=
        congrArg Prod.snd h
      simp only [Option.some.injEq] at h2
      exact Or.inr ⟨recoverError ctx.prog fx, h2.symm⟩
    · rw [hrun] at h
      simp at h

/-- Witness for C3 at the two-instruction program `OpInt 5; OpArray` with
memory budget 3: `OpArray` exceeds the budget at instruction index 1, the
recovered error is bound to that instruction's Location `⟨3, 4⟩`, and no
value is returned. -/
theorem c3_run_error_location_witness :
    wellFormed (⟨[.int, .array], [5, 0], [], [⟨1, 2⟩, ⟨3, 4⟩]⟩ : Program) ∧
    ((none : Option Value) = none ∧
     ∃ o, ([((0 : Int), (0 : Int)), ((1 : Int), (0 : Int))] :
         List (Int × Int)).getLast? = some o ∧
       (⟨[.int, .array], [5, 0], [], [⟨1, 2⟩, ⟨3, 4⟩]⟩ :
         Program).locations.get? o.1.toNat =
         some (⟨⟨3, 4⟩, "memory budget exceeded"⟩ : RunError).location) :=
  ⟨by decide,
   (c3_run_error_location
       ⟨⟨[.int, .array], [5, 0], [], [⟨1, 2⟩, ⟨3, 4⟩]⟩, [],
         fun _ _ => .ok false, fun _ a _ => a⟩ 3 10 (by decide)).1
     [((0 : Int), (0 : Int)), ((1 : Int), (0 : Int))] none
     (⟨⟨3, 4⟩, "memory budget exceeded"⟩ : RunError) (by rfl)⟩

end ExprLang
